import Mathlib

/-!
# Vasnecov: scene registry and product hierarchy

A shallow embedding of `VasnecovUniverse` (src/libVasnecov/vasnecovuniverse.cpp).

Heap objects are addressed by natural numbers (one address space per element
kind): a C++ pointer to an object is a `Nat`, a pointer that may be null an
`Option Nat`.  The universe state
carries the element registry `m_elements` (one `ElementBox` per kind), the
object stores and the allocation counters of `new`.

The namespace `Pipeline` embeds the methods of `VasnecovPipeline`
(src/libVasnecov/vasnecovpipeline.cpp) that set the colours, disable the
lamps and project a point, the last one over exact arithmetic.
-/

namespace Vasnecov

/-! ## Data model -/

/-- Value of a `QMatrix4x4`; only copied and compared, never computed with. -/
abbrev QMatrix4x4 := Nat

/-- Pointer to a world element (lamp, product, figure or label). The same
type stands for the address of the exporting matrix owned by that element. -/
inductive ElemRef where
  | lamp (p : Nat)
  | product (p : Nat)
  | figure (p : Nat)
  | label (p : Nat)
  deriving DecidableEq, Repr

/-- Range of a `GLuint`. -/
def GLuintRange : Nat := 4294967296

/-- The OpenGL constant `GL_LIGHT0`. -/
def GL_LIGHT0 : Nat := 0x4000

/-- Constants of `configuration.h`, which is not part of the sources. -/
structure Config where
  cfg_elementMaxLevel : Nat
  cfg_lampsCountMax : Nat
  cfg_worldWidthMin : Int
  cfg_worldWidthMax : Int
  cfg_worldHeightMin : Int
  cfg_worldHeightMax : Int
  cfg_meshFormat : List Char
  cfg_textureFormat : List Char
  deriving Repr

/-- Designer-side data of a `VasnecovProduct`. -/
structure VasnecovProduct where
  name : String
  isPart : Bool
  mesh : Option Nat
  material : Option Nat
  parent : Option Nat
  level : Nat
  children : List Nat
  M1 : QMatrix4x4
  Ms : QMatrix4x4
  alienMs : Option ElemRef
  deriving DecidableEq, Repr

/-- Designer-side data of a `VasnecovLamp`. -/
structure VasnecovLamp where
  name : String
  lampType : Nat
  index : Nat
  alienMs : Option ElemRef
  deriving DecidableEq, Repr

/-- Designer-side data of a `VasnecovFigure`. -/
structure VasnecovFigure where
  name : String
  alienMs : Option ElemRef
  deriving DecidableEq, Repr

/-- Designer-side data of a `VasnecovLabel`. -/
structure VasnecovLabel where
  name : String
  width : Int
  height : Int
  texture : Option Nat
  alienMs : Option ElemRef
  deriving DecidableEq, Repr

/-- Designer-side data of a `VasnecovWorld`: its window and its element list. -/
structure VasnecovWorld where
  posX : Int
  posY : Int
  width : Int
  height : Int
  elements : List ElemRef
  deriving DecidableEq, Repr

/-- One kind-set of the registry: the staged (raw) list, the committed (pure)
list and the dirty flag of the staged list. -/
structure ElementBox where
  raw : List Nat
  pure : List Nat
  wasUpdated : Bool
  deriving DecidableEq, Repr

/-- Bits of `raw_data.wasUpdated` (the enumeration is declared in a header
that is not part of the sources). -/
inductive UpdateFlag where
  | Context | BackColor | Loading | Tech01 | Tech02 | Tech03 | Tech04 | Textures | Meshes
  deriving DecidableEq, Repr

/-- A versioned attribute (`Vasnecov::MutualData`): staged value, committed value
and the bit of `raw_data.wasUpdated` that marks it dirty. -/
structure MutualData (α : Type) where
  raw : α
  pure : α
  flag : UpdateFlag
  deriving DecidableEq, Repr

/-- What the file system and the decoders answer: `QFile::exists`,
`VasnecovMesh::loadModel` for the file at a path, the size of the
`QImage` read from a path (`none` when the image is null), `QDir::exists`
and the normalized `QDir::path` of a directory name. -/
structure FileSystem where
  fileExists : List Char → Bool
  loadModel : List Char → Bool
  imageSize : List Char → Option (Nat × Nat)
  dirExists : List Char → Bool
  dirPath : List Char → List Char

/-- Kinds of texture (`Vasnecov::TextureTypes`). -/
inductive TextureTypes where
  | TextureTypeUndefined | TextureTypeDiffuse | TextureTypeInterface | TextureTypeNormal
  deriving DecidableEq, Repr

/-- State of a `VasnecovUniverse`. -/
structure Universe where
  m_worlds : ElementBox
  m_materials : ElementBox
  m_lamps : ElementBox
  m_products : ElementBox
  m_figures : ElementBox
  m_labels : ElementBox
  worlds : Nat → VasnecovWorld
  lamps : Nat → VasnecovLamp
  products : Nat → VasnecovProduct
  figures : Nat → VasnecovFigure
  labels : Nat → VasnecovLabel
  materialTexture : Nat → Option Nat
  nextWorld : Nat
  nextMaterial : Nat
  nextLamp : Nat
  nextProduct : Nat
  nextFigure : Nat
  nextLabel : Nat
  nextMesh : Nat
  nextTexture : Nat
  m_lampsCountMax : Nat
  wasUpdated : List UpdateFlag
  meshes : List (List Char × Nat)
  textures : List (List Char × Nat)
  texturesForLoading : List Nat
  dirMeshes : List Char
  dirTextures : List Char
  dirTexturesDPref : List Char
  dirTexturesIPref : List Char
  dirTexturesNPref : List Char
  m_context : MutualData Nat
  m_backgroundColor : MutualData Nat
  m_loading : MutualData Bool
  m_techRenderer : MutualData (List Char)
  m_techVersion : MutualData (List Char)
  m_techSL : MutualData (List Char)
  m_techExtensions : MutualData (List Char)
  pipelineContext : Nat
  pipelineWasSomethingUpdated : Bool
  mtxLocked : Bool

/-! ## Element registry (`Vasnecov::ElementList`, not part of the sources) -/

/-- Modelled from the spec: `ElementBox::findRawElement`, the membership test
of the registry ("find/add/remove by identity"). -/
def ElementBox.findRawElement (b : ElementBox) (e : Nat) : Bool :=
  decide (e ∈ b.raw)

/-- Modelled from the spec: `ElementBox::addElement`, which "fails (returns
false) if `e` is null or already present (by identity) in the matching
kind-set; else inserts and returns true". The element is appended to the
staged list, which becomes dirty. -/
def ElementBox.addElement (b : ElementBox) (e : Option Nat) : ElementBox × Bool :=
  match e with
  | none => (b, false)
  | some p =>
    if p ∈ b.raw then (b, false)
    else ({ b with raw := b.raw ++ [p], wasUpdated := true }, true)

/-- Modelled from the spec: `ElementBox::removeElement`, "removes from
registry": the first entry equal to `e` is erased from the staged list. -/
def ElementBox.removeElement (b : ElementBox) (e : Nat) : ElementBox :=
  if e ∈ b.raw then { b with raw := b.raw.erase e, wasUpdated := true } else b

/-- Modelled from the spec: `ElementBox::removeElements`, the bulk form of
`removeElement`, applied to every entry of the list in order. -/
def ElementBox.removeElements (b : ElementBox) (l : List Nat) : ElementBox :=
  l.foldl ElementBox.removeElement b

/-- Modelled from the spec: `ElementBox::synchronize`, the commit of the
staged list: "copies staged→committed and clears dirty", and reports whether
a change occurred. -/
def ElementBox.synchronize (b : ElementBox) : ElementBox × Bool :=
  if b.wasUpdated then ({ b with pure := b.raw, wasUpdated := false }, true)
  else (b, false)

/-! ## Worlds and products (`VasnecovWorld`, `VasnecovProduct`, not part of the sources) -/

/-- Modelled from the spec: `VasnecovWorld::designerFindElement`, membership
in the world's element list. -/
def VasnecovWorld.designerFindElement (w : VasnecovWorld) (e : ElemRef) : Bool :=
  decide (e ∈ w.elements)

/-- Modelled from the spec: `VasnecovWorld::designerAddElement(element, check)`.
With `check` set the call is rejected when it "would create a second
reference to the same element in the same world"; otherwise the element is
appended to the world's list. -/
def VasnecovWorld.designerAddElement (w : VasnecovWorld) (e : ElemRef) (check : Bool) :
    VasnecovWorld × Bool :=
  if check && decide (e ∈ w.elements) then (w, false)
  else ({ w with elements := w.elements ++ [e] }, true)

/-- Modelled from the spec: `VasnecovWorld::designerRemoveElement`, which
"detaches" the element from the world's list (first entry equal to it). -/
def VasnecovWorld.designerRemoveElement (w : VasnecovWorld) (e : ElemRef) : VasnecovWorld :=
  { w with elements := w.elements.erase e }

/-- Modelled from the spec: `VasnecovProduct::designerAddChild`, "the node is
appended to the parent's child list". -/
def VasnecovProduct.designerAddChild (p : VasnecovProduct) (c : Nat) : VasnecovProduct :=
  { p with children := p.children ++ [c] }

/-- Modelled from the spec: `VasnecovProduct::designerRemoveChild`, "detaches
from its parent's child list" (first entry equal to the child). -/
def VasnecovProduct.designerRemoveChild (p : VasnecovProduct) (c : Nat) : VasnecovProduct :=
  { p with children := p.children.erase c }

/-- Modelled from the spec: `VasnecovProduct::designerSetMatrixM1`, "the new
node's transform baseline is seeded from the parent's current composed
matrix". -/
def VasnecovProduct.designerSetMatrixM1 (p : VasnecovProduct) (m : QMatrix4x4) : VasnecovProduct :=
  { p with M1 := m }

/-- Modelled from the spec: the constructor of `VasnecovWorld`, which stores
the window and starts with an empty element list. -/
def VasnecovWorld.create (posX posY width height : Int) : VasnecovWorld :=
  ⟨posX, posY, width, height, []⟩

/-- Modelled from the spec: the constructor of `VasnecovLamp`, which stores the
name, the type and the light-unit index and holds no alien matrix. -/
def VasnecovLamp.create (name : String) (type index : Nat) : VasnecovLamp :=
  ⟨name, type, index, none⟩

/-- Modelled from the spec: `VasnecovLamp::renderSetIndex`, which stores the
light-unit index in the lamp. -/
def VasnecovLamp.renderSetIndex (l : VasnecovLamp) (index : Nat) : VasnecovLamp :=
  { l with index := index }

/-- Modelled from the spec: the constructors of `VasnecovProduct` (assembly and
part), which store the mesh, the material, the parent and the level and start
with no children, identity matrices and no alien matrix. -/
def VasnecovProduct.create (name : String) (isPart : Bool) (mesh material parent : Option Nat)
    (level : Nat) : VasnecovProduct :=
  ⟨name, isPart, mesh, material, parent, level, [], 0, 0, none⟩

/-- Modelled from the spec: `VasnecovProduct::designerExportingMatrix`, the
address of the composed matrix owned by the product `d`, to which other
elements may hold an alien-matrix reference. -/
def VasnecovProduct.designerExportingMatrix (d : Nat) : ElemRef :=
  ElemRef.product d

/-- Modelled from the spec: `designerRemoveThisAlienMatrix` of one element:
a cached reference equal to `alienMs` is "found and cleared"; the result
tells whether it was. -/
def removeThisAlienMatrix (cur : Option ElemRef) (alienMs : ElemRef) : Option ElemRef × Bool :=
  if cur = some alienMs then (none, true) else (cur, false)

/-- Modelled from the spec: the recursion of `VasnecovProduct::designerAllChildren`,
"the full (recursive) descendant set": the children followed by the
descendants of each child. `fuel` bounds the depth of the recursion. -/
def allChildrenAux (products : Nat → VasnecovProduct) : Nat → Nat → List Nat
  | 0, _ => []
  | fuel + 1, p =>
    (products p).children ++
      (products p).children.flatMap (fun c => allChildrenAux products fuel c)

/-- Modelled from the spec: the constructor of `VasnecovFigure`, which stores
the name and holds no alien matrix. -/
def VasnecovFigure.create (name : String) : VasnecovFigure :=
  ⟨name, none⟩

/-- Modelled from the spec: the constructor of `VasnecovLabel`, which stores the
name, the size and the texture and holds no alien matrix. -/
def VasnecovLabel.create (name : String) (width height : Int) (texture : Option Nat) :
    VasnecovLabel :=
  ⟨name, width, height, texture, none⟩

/-- Modelled from the spec: `VasnecovFigure::designerExportingMatrix`, the
address of the matrix owned by the figure `f`. -/
def VasnecovFigure.designerExportingMatrix (f : Nat) : ElemRef :=
  ElemRef.figure f

/-- Modelled from the spec: `VasnecovLabel::designerExportingMatrix`, the
address of the matrix owned by the label `l`. -/
def VasnecovLabel.designerExportingMatrix (l : Nat) : ElemRef :=
  ElemRef.label l

namespace Universe

/-- State of a freshly constructed `VasnecovUniverse`: every list and cache is
empty. The resource directories and prefixes are set by the constructor of
`UniverseAttributes`, which is not part of the sources, and are taken from
`dirs` (meshes, textures, diffuse, interface and normal prefixes). -/
def empty (cfg : Config) (dirs : List Char × List Char × List Char × List Char × List Char) :
    Universe where
  m_worlds := ⟨[], [], false⟩
  m_materials := ⟨[], [], false⟩
  m_lamps := ⟨[], [], false⟩
  m_products := ⟨[], [], false⟩
  m_figures := ⟨[], [], false⟩
  m_labels := ⟨[], [], false⟩
  worlds := fun _ => ⟨0, 0, 0, 0, []⟩
  lamps := fun _ => ⟨"", 0, GL_LIGHT0, none⟩
  products := fun _ => ⟨"", false, none, none, none, 0, [], 0, 0, none⟩
  figures := fun _ => ⟨"", none⟩
  labels := fun _ => ⟨"", 0, 0, none, none⟩
  materialTexture := fun _ => none
  nextWorld := 0
  nextMaterial := 0
  nextLamp := 0
  nextProduct := 0
  nextFigure := 0
  nextLabel := 0
  nextMesh := 0
  nextTexture := 0
  m_lampsCountMax := cfg.cfg_lampsCountMax
  wasUpdated := []
  meshes := []
  textures := []
  texturesForLoading := []
  dirMeshes := dirs.1
  dirTextures := dirs.2.1
  dirTexturesDPref := dirs.2.2.1
  dirTexturesIPref := dirs.2.2.2.1
  dirTexturesNPref := dirs.2.2.2.2
  m_context := ⟨0, 0, UpdateFlag.Context⟩
  m_backgroundColor := ⟨0, 0, UpdateFlag.BackColor⟩
  m_loading := ⟨false, false, UpdateFlag.Loading⟩
  m_techRenderer := ⟨[], [], UpdateFlag.Tech01⟩
  m_techVersion := ⟨[], [], UpdateFlag.Tech02⟩
  m_techSL := ⟨[], [], UpdateFlag.Tech03⟩
  m_techExtensions := ⟨[], [], UpdateFlag.Tech04⟩
  pipelineContext := 0
  pipelineWasSomethingUpdated := true
  mtxLocked := false

/-- Store `v` at address `p` of the product store. -/
def setProduct (u : Universe) (p : Nat) (v : VasnecovProduct) : Universe :=
  { u with products := fun q => if q = p then v else u.products q }

/-- Store `v` at address `w` of the world store. -/
def setWorld (u : Universe) (w : Nat) (v : VasnecovWorld) : Universe :=
  { u with worlds := fun q => if q = w then v else u.worlds q }

/-- Store `v` at address `l` of the lamp store. -/
def setLamp (u : Universe) (l : Nat) (v : VasnecovLamp) : Universe :=
  { u with lamps := fun q => if q = l then v else u.lamps q }

/-- Store `v` at address `f` of the figure store. -/
def setFigure (u : Universe) (f : Nat) (v : VasnecovFigure) : Universe :=
  { u with figures := fun q => if q = f then v else u.figures q }

/-- Store `v` at address `l` of the label store. -/
def setLabel (u : Universe) (l : Nat) (v : VasnecovLabel) : Universe :=
  { u with labels := fun q => if q = l then v else u.labels q }

/-- Modelled from the spec: `VasnecovProduct::designerAllChildren`, "the full
(recursive) descendant set" of the product. The recursion is as deep as the
tree below the product; the number of allocated products bounds it. -/
def designerAllChildren (u : Universe) (p : Nat) : List Nat :=
  allChildrenAux u.products u.nextProduct p

/-- Body of the lamp loop of `designerRemoveThisAlienMatrix`:
`res |= lamp->designerRemoveThisAlienMatrix(alienMs)`. -/
def alienLampStep (alienMs : ElemRef) (acc : Universe × Bool) (l : Nat) : Universe × Bool :=
  let r := removeThisAlienMatrix (acc.1.lamps l).alienMs alienMs
  (acc.1.setLamp l { acc.1.lamps l with alienMs := r.1 }, acc.2 || r.2)

/-- Body of the product loop of `designerRemoveThisAlienMatrix`. -/
def alienProductStep (alienMs : ElemRef) (acc : Universe × Bool) (p : Nat) : Universe × Bool :=
  let r := removeThisAlienMatrix (acc.1.products p).alienMs alienMs
  (acc.1.setProduct p { acc.1.products p with alienMs := r.1 }, acc.2 || r.2)

/-- Body of the figure loop of `designerRemoveThisAlienMatrix`. -/
def alienFigureStep (alienMs : ElemRef) (acc : Universe × Bool) (f : Nat) : Universe × Bool :=
  let r := removeThisAlienMatrix (acc.1.figures f).alienMs alienMs
  (acc.1.setFigure f { acc.1.figures f with alienMs := r.1 }, acc.2 || r.2)

/-- Body of the label loop of `designerRemoveThisAlienMatrix`. -/
def alienLabelStep (alienMs : ElemRef) (acc : Universe × Bool) (l : Nat) : Universe × Bool :=
  let r := removeThisAlienMatrix (acc.1.labels l).alienMs alienMs
  (acc.1.setLabel l { acc.1.labels l with alienMs := r.1 }, acc.2 || r.2)

/-- The method `VasnecovUniverse::designerRemoveThisAlienMatrix`: every
registered lamp, product, figure and label drops its reference to `alienMs`. -/
def designerRemoveThisAlienMatrix (u : Universe) (alienMs : ElemRef) : Universe × Bool :=
  let r1 := u.m_lamps.raw.foldl (alienLampStep alienMs) (u, false)
  let r2 := u.m_products.raw.foldl (alienProductStep alienMs) r1
  let r3 := u.m_figures.raw.foldl (alienFigureStep alienMs) r2
  u.m_labels.raw.foldl (alienLabelStep alienMs) r3

/-- The candidate list of `removeProduct`: the materials of the products being
deleted, one entry per product that has a material. -/
def collectMaterials (u : Universe) (delProd : List Nat) : List Nat :=
  delProd.filterMap (fun d => (u.products d).material)

/-- The pruning loop of `removeProduct`: every product still registered strikes
the first candidate equal to its material (the inner loop breaks after one
`erase`). -/
def pruneMaterials (u : Universe) (delMat : List Nat) : List Nat :=
  u.m_products.raw.foldl
    (fun dm pit =>
      match (u.products pit).material with
      | none => dm
      | some m => dm.erase m)
    delMat

/-- The world loop of the removal methods: `designerRemoveElement(e)` on every
registered world. -/
def removeFromWorlds (u : Universe) (e : ElemRef) : Universe :=
  u.m_worlds.raw.foldl
    (fun (acc : Universe) w => acc.setWorld w ((acc.worlds w).designerRemoveElement e))
    u

/-- The parent step of `removeProduct`: `designerParent()->designerRemoveChild(d)`
when the product has a parent. -/
def removeFromParent (u : Universe) (d : Nat) : Universe :=
  match (u.products d).parent with
  | none => u
  | some q => u.setProduct q ((u.products q).designerRemoveChild d)

/-- Body of the last loop of `removeProduct` for one deleted product `d`:
remove it from every registered world, from its parent's child list, and
clear the alien matrices taken from it. -/
def detachProduct (u : Universe) (d : Nat) : Universe :=
  (((u.removeFromWorlds (ElemRef.product d)).removeFromParent d).designerRemoveThisAlienMatrix
    (VasnecovProduct.designerExportingMatrix d)).1

/-- The method `VasnecovUniverse::removeProduct`. -/
def removeProduct (u : Universe) (product : Option Nat) : Universe × Bool :=
  match product with
  | none => (u, false)
  | some p =>
    if u.m_products.findRawElement p then
      let delProd := u.designerAllChildren p ++ [p]
      let u1 := { u with m_products := u.m_products.removeElements delProd }
      let delMat := u1.pruneMaterials (u1.collectMaterials delProd)
      let u2 := { u1 with m_materials := u1.m_materials.removeElements delMat }
      (delProd.foldl detachProduct u2, true)
    else (u, false)

/-! ### Resource names and the mesh cache -/

/-- The call `s.rfind(pat)` of `std::string` for a non-empty pattern: the
last position at which `pat` occurs in `s`, `none` for `npos`. -/
def rfind (s pat : List Char) : Option Nat :=
  (List.range (s.length + 1)).reverse.find? (fun i => pat.isPrefixOf (s.drop i))

/-- The method `VasnecovUniverse::correctFileId`. -/
def correctFileId (fileId format : List Char) : List Char :=
  if format.isEmpty then fileId
  else
    match rfind fileId ('.' :: format) with
    | some posR =>
      if posR + 1 + format.length = fileId.length then fileId.take posR else fileId
    | none => fileId

/-- The method `VasnecovUniverse::correctPath`; the result is the returned
flag with the final values of the in-out parameters `path` and `fileId`. -/
def correctPath (fs : FileSystem) (path fileId format : List Char) :
    Bool × List Char × List Char :=
  let r : List Char × List Char :=
    if format.isEmpty then (path, fileId)
    else
      match rfind fileId ('.' :: format) with
      | some posR =>
        if posR + 1 + format.length = fileId.length then (path, fileId.take posR)
        else (path ++ '.' :: format, fileId)
      | none => (path ++ '.' :: format, fileId)
  (fs.fileExists r.1, r.1, r.2)

/-- The call `map.count(name)` of a `std::map` keyed by name. -/
def mapCount (m : List (List Char × Nat)) (name : List Char) : Bool :=
  m.any (fun e => e.1 == name)

/-- The method `VasnecovUniverse::designerFindMesh`. -/
def designerFindMesh (u : Universe) (name : List Char) : Option Nat :=
  if mapCount u.meshes name then (u.meshes.find? (fun e => e.1 == name)).map Prod.snd
  else none

/-- The method `VasnecovUniverse::addMesh`. -/
def addMesh (u : Universe) (mesh : Option Nat) (fileId : List Char) : Universe × Bool :=
  match mesh with
  | some m =>
    if mapCount u.meshes fileId then (u, false)
    else ({ u with meshes := u.meshes ++ [(fileId, m)] }, true)
  | none => (u, false)

/-- The method `VasnecovUniverse::loadMeshFile`. -/
def loadMeshFile (cfg : Config) (fs : FileSystem) (u : Universe) (fileName : List Char) :
    Universe × Bool :=
  let r := correctPath fs (u.dirMeshes ++ fileName) fileName cfg.cfg_meshFormat
  if r.1 then
    if !mapCount u.meshes r.2.2 then
      let mesh := u.nextMesh
      let u1 := { u with nextMesh := mesh + 1 }
      if fs.loadModel r.2.1 then
        let a := u1.addMesh (some mesh) r.2.2
        if a.2 then (a.1, true) else (u, false)
      else (u, false)
    else (u, false)
  else (u, false)

/-! ### Creation of worlds, lamps, materials and products -/

/-- The method `VasnecovUniverse::addWorld`. -/
def addWorld (cfg : Config) (u : Universe) (posX posY width height : Int) :
    Universe × Option Nat :=
  if width > cfg.cfg_worldWidthMin ∧ width < cfg.cfg_worldWidthMax ∧
      height > cfg.cfg_worldHeightMin ∧ height < cfg.cfg_worldHeightMax then
    let newWorld := u.nextWorld
    let u1 := { u.setWorld newWorld (VasnecovWorld.create posX posY width height) with
                nextWorld := newWorld + 1 }
    ({ u1 with m_worlds := (u1.m_worlds.addElement (some newWorld)).1 }, some newWorld)
  else (u, none)

/-- The method `VasnecovUniverse::addLamp`. -/
def addLamp (u : Universe) (name : String) (world : Option Nat) (type : Nat) :
    Universe × Option Nat :=
  match world with
  | none => (u, none)
  | some w =>
    if !u.m_worlds.findRawElement w then (u, none)
    else
      let count := u.m_lamps.raw.length
      let index := if count < u.m_lampsCountMax then (GL_LIGHT0 + count) % GLuintRange
                   else GL_LIGHT0
      let lamp := u.nextLamp
      let u1 := { u.setLamp lamp (VasnecovLamp.create name type index) with
                  nextLamp := lamp + 1 }
      let r := u1.m_lamps.addElement (some lamp)
      if r.2 then
        let u2 := { u1 with m_lamps := r.1 }
        (u2.setWorld w ((u2.worlds w).designerAddElement (ElemRef.lamp lamp) false).1, some lamp)
      else (u, none)

/-- The method `VasnecovUniverse::referLampToWorld`. -/
def referLampToWorld (u : Universe) (lamp world : Option Nat) : Universe × Option Nat :=
  match lamp, world with
  | some l, some w =>
    if !u.m_lamps.findRawElement l then (u, none)
    else if !u.m_worlds.findRawElement w then (u, none)
    else
      let r := (u.worlds w).designerAddElement (ElemRef.lamp l) true
      if r.2 then (u.setWorld w r.1, some l) else (u, none)
  | _, _ => (u, none)

/-- The method `VasnecovUniverse::referProductToWorld`. -/
def referProductToWorld (u : Universe) (product world : Option Nat) : Universe × Option Nat :=
  match product, world with
  | some p, some w =>
    if !u.m_products.findRawElement p then (u, none)
    else if !u.m_worlds.findRawElement w then (u, none)
    else
      let r := (u.worlds w).designerAddElement (ElemRef.product p) true
      if r.2 then (u.setWorld w r.1, some p) else (u, none)
  | _, _ => (u, none)

/-- The method `VasnecovUniverse::addMaterial()` without a texture. -/
def addMaterial (u : Universe) : Universe × Option Nat :=
  let material := u.nextMaterial
  let u1 := { u with nextMaterial := material + 1,
                     materialTexture := fun q => if q = material then none
                                                 else u.materialTexture q }
  let r := u1.m_materials.addElement (some material)
  if r.2 then ({ u1 with m_materials := r.1 }, some material) else (u, none)

/-- The parent check shared by `addAssembly` and `addPart`: the level of the
new node (`some level`), or `none` when the parent is not in the world or the
level would exceed `cfg_elementMaxLevel`. The level is a `GLuint`. -/
def childLevel (cfg : Config) (u : Universe) (w : Nat) (parent : Option Nat) : Option Nat :=
  match parent with
  | none => some 0
  | some q =>
    if (u.worlds w).designerFindElement (ElemRef.product q) then
      let level := ((u.products q).level + 1) % GLuintRange
      if level > cfg.cfg_elementMaxLevel then none else some level
    else none

/-- The common tail of `addAssembly` and `addPart`: the new product `node` gets
its address, is linked to its parent, and is registered in the registry and
in the world. -/
def insertProduct (u : Universe) (w : Nat) (node : VasnecovProduct) : Universe × Option Nat :=
  let n := u.nextProduct
  let u1 := { u.setProduct n node with nextProduct := n + 1 }
  let u2 := match node.parent with
    | none => u1
    | some q =>
      let u1a := u1.setProduct n ((u1.products n).designerSetMatrixM1 (u1.products q).Ms)
      u1a.setProduct q ((u1a.products q).designerAddChild n)
  let u3 := { u2 with m_products := (u2.m_products.addElement (some n)).1 }
  (u3.setWorld w ((u3.worlds w).designerAddElement (ElemRef.product n) false).1, some n)

/-- The method `VasnecovUniverse::addAssembly`. -/
def addAssembly (cfg : Config) (u : Universe) (name : String) (world parent : Option Nat) :
    Universe × Option Nat :=
  match world with
  | none => (u, none)
  | some w =>
    if !u.m_worlds.findRawElement w then (u, none)
    else
      match childLevel cfg u w parent with
      | none => (u, none)
      | some level =>
        u.insertProduct w (VasnecovProduct.create name false none none parent level)

/-- The part of `addPart` after the mesh has been found. -/
def addPartTail (cfg : Config) (u : Universe) (name : String) (w : Nat) (mesh : Nat)
    (material parent : Option Nat) : Universe × Option Nat :=
  if !u.m_worlds.findRawElement w then (u, none)
  else
    let materialOk := match material with
      | none => true
      | some m => u.m_materials.findRawElement m
    if !materialOk then (u, none)
    else
      match childLevel cfg u w parent with
      | none => (u, none)
      | some level =>
        u.insertProduct w (VasnecovProduct.create name true (some mesh) material parent level)

/-- The mesh block of `addPart` for a non-empty mesh name: the lookup in the
cache, the forced load when the mesh is missing, and the second lookup. The
result is the state after the block and the mesh (`none` on the two
"mesh not found" exits). -/
def findOrLoadMesh (cfg : Config) (fs : FileSystem) (u : Universe) (meshName : List Char) :
    Universe × Option Nat :=
  let corMeshName := correctFileId meshName cfg.cfg_meshFormat
  match u.designerFindMesh corMeshName with
  | some mesh => (u, some mesh)
  | none =>
    let r := loadMeshFile cfg fs u corMeshName
    if !r.2 then (r.1, none)
    else (r.1, r.1.designerFindMesh corMeshName)

/-- The method `VasnecovUniverse::addPart` (overload taking a material). -/
def addPart (cfg : Config) (fs : FileSystem) (u : Universe) (name : String)
    (world : Option Nat) (meshName : List Char) (material parent : Option Nat) :
    Universe × Option Nat :=
  match world with
  | none => (u, none)
  | some w =>
    if !meshName.isEmpty then
      let r := findOrLoadMesh cfg fs u meshName
      match r.2 with
      | none => (r.1, none)
      | some mesh => addPartTail cfg r.1 name w mesh material parent
    else (u, none)

/-! ### The render-side synchronization pass -/

/-- Modelled from the spec: `MutualData::update`, which "copies staged into
committed if dirty, clears dirty, returns whether a change occurred"; the
dirty mark is the attribute's bit of `raw_data.wasUpdated`. -/
def mutualUpdate {α : Type} (a : MutualData α) (wasUpdated : List UpdateFlag) :
    MutualData α × List UpdateFlag × Bool :=
  if a.flag ∈ wasUpdated then
    ({ a with pure := a.raw }, wasUpdated.filter (fun f => f ≠ a.flag), true)
  else (a, wasUpdated, false)

/-- Modelled from the spec: `UniverseElementList::synchronizeAll`, which
commits every kind-set of the registry and "returns whether any element
changed". -/
def synchronizeAll (u : Universe) : Universe × Bool :=
  let w := u.m_worlds.synchronize
  let m := u.m_materials.synchronize
  let l := u.m_lamps.synchronize
  let p := u.m_products.synchronize
  let f := u.m_figures.synchronize
  let b := u.m_labels.synchronize
  ({ u with m_worlds := w.1, m_materials := m.1, m_lamps := l.1, m_products := p.1,
            m_figures := f.1, m_labels := b.1 },
   w.2 || m.2 || l.2 || p.2 || f.2 || b.2)

/-- The lamp loop of `renderUpdateData`: the lamps of the committed list
receive `GL_LIGHT0`, `GL_LIGHT0 + 1`, ... in list order (`++index` on a
`GLuint`). -/
def reindexLamps (u : Universe) : Universe :=
  (u.m_lamps.pure.foldl
    (fun (acc : Universe × Nat) l =>
      (acc.1.setLamp l ((acc.1.lamps l).renderSetIndex acc.2), (acc.2 + 1) % GLuintRange))
    (u, GL_LIGHT0)).1

/-- The settings block of `renderUpdateData`, run when `raw_data.wasUpdated`
is set: the context, the loading flag and the background colour are
committed, and a changed context is handed to the pipeline. -/
def updateSettings (u : Universe) : Universe :=
  let c := mutualUpdate u.m_context u.wasUpdated
  let u1 := { u with m_context := c.1, wasUpdated := c.2.1,
                     pipelineContext := if c.2.2 then c.1.pure else u.pipelineContext }
  let l := mutualUpdate u1.m_loading u1.wasUpdated
  let u2 := { u1 with m_loading := l.1, wasUpdated := l.2.1 }
  let b := mutualUpdate u2.m_backgroundColor u2.wasUpdated
  { u2 with m_backgroundColor := b.1, wasUpdated := b.2.1 }

/-- The method `VasnecovUniverse::renderUpdateData`; the result is the
returned `GLenum`. `mtxLocked` tells whether another thread holds `mtx_data`,
in which case `tryLock` fails. The per-element commits at the end of the pass
(`renderUpdateElementData`) act on render-side copies of element attributes
that are not part of this state. -/
def renderUpdateData (u : Universe) : Universe × Nat :=
  if u.mtxLocked then (u, 0)
  else
    let u1 := if u.wasUpdated ≠ [] then u.updateSettings else u
    let s := u1.synchronizeAll
    let wasUpdated0 : Nat := if s.2 then 1 else 0
    let u2 := if wasUpdated0 ≠ 0 then s.1.reindexLamps else s.1
    let r3 : Universe × Nat :=
      if u2.wasUpdated ≠ [] then
        (if UpdateFlag.Textures ∈ u2.wasUpdated ∧ u2.texturesForLoading ≠ [] then
           { u2 with texturesForLoading := [] }
         else u2, 1)
      else (u2, wasUpdated0)
    let u4 := { r3.1 with wasUpdated := [] }
    if u4.pipelineWasSomethingUpdated then
      ({ u4 with pipelineWasSomethingUpdated := false }, 1)
    else (u4, r3.2)

/-! ### Predicates used to state the properties -/

/-- Clearing one cached reference. -/
def clearRef (a : ElemRef) (cur : Option ElemRef) : Option ElemRef :=
  if cur = some a then none else cur

/-- Everything but the object stores is the same in both states. -/
structure SameFrame (u v : Universe) : Prop where
  m_worlds : v.m_worlds = u.m_worlds
  m_materials : v.m_materials = u.m_materials
  m_lamps : v.m_lamps = u.m_lamps
  m_products : v.m_products = u.m_products
  m_figures : v.m_figures = u.m_figures
  m_labels : v.m_labels = u.m_labels
  materialTexture : v.materialTexture = u.materialTexture
  nextWorld : v.nextWorld = u.nextWorld
  nextMaterial : v.nextMaterial = u.nextMaterial
  nextLamp : v.nextLamp = u.nextLamp
  nextProduct : v.nextProduct = u.nextProduct
  nextFigure : v.nextFigure = u.nextFigure
  nextLabel : v.nextLabel = u.nextLabel
  nextMesh : v.nextMesh = u.nextMesh
  nextTexture : v.nextTexture = u.nextTexture
  m_lampsCountMax : v.m_lampsCountMax = u.m_lampsCountMax
  wasUpdated : v.wasUpdated = u.wasUpdated
  meshes : v.meshes = u.meshes
  textures : v.textures = u.textures
  texturesForLoading : v.texturesForLoading = u.texturesForLoading
  dirMeshes : v.dirMeshes = u.dirMeshes
  dirTextures : v.dirTextures = u.dirTextures
  dirTexturesDPref : v.dirTexturesDPref = u.dirTexturesDPref
  dirTexturesIPref : v.dirTexturesIPref = u.dirTexturesIPref
  dirTexturesNPref : v.dirTexturesNPref = u.dirTexturesNPref
  m_context : v.m_context = u.m_context
  m_backgroundColor : v.m_backgroundColor = u.m_backgroundColor
  m_loading : v.m_loading = u.m_loading
  m_techRenderer : v.m_techRenderer = u.m_techRenderer
  m_techVersion : v.m_techVersion = u.m_techVersion
  m_techSL : v.m_techSL = u.m_techSL
  m_techExtensions : v.m_techExtensions = u.m_techExtensions
  pipelineContext : v.pipelineContext = u.pipelineContext
  pipelineWasSomethingUpdated : v.pipelineWasSomethingUpdated = u.pipelineWasSomethingUpdated
  mtxLocked : v.mtxLocked = u.mtxLocked

/-- Clearing a cached reference when it points at the exporting matrix of one
of the products of `D`. -/
def clearRefs (D : List Nat) (cur : Option ElemRef) : Option ElemRef :=
  if ∃ d ∈ D, cur = some (ElemRef.product d) then none else cur

/-- Relation between the state before and after the detaching loop of
`removeProduct` run over the deleted products `D`. -/
structure DetachSpec (D : List Nat) (u v : Universe) : Prop where
  frame : SameFrame u v
  prodStatic : ∀ q, { v.products q with children := [], alienMs := none } =
    { u.products q with children := [], alienMs := none }
  childSub : ∀ q, (v.products q).children.Sublist (u.products q).children
  childKeep : ∀ q c, c ∈ (u.products q).children →
    ¬ (c ∈ D ∧ (u.products c).parent = some q) → c ∈ (v.products q).children
  childGone : ∀ q c, c ∈ D → (u.products c).parent = some q →
    (u.products q).children.Nodup → c ∉ (v.products q).children
  prodAlien : ∀ q, (v.products q).alienMs =
    if q ∈ u.m_products.raw then clearRefs D (u.products q).alienMs
    else (u.products q).alienMs
  lampEq : ∀ q, v.lamps q =
    if q ∈ u.m_lamps.raw then { u.lamps q with alienMs := clearRefs D (u.lamps q).alienMs }
    else u.lamps q
  figureEq : ∀ q, v.figures q =
    if q ∈ u.m_figures.raw then { u.figures q with alienMs := clearRefs D (u.figures q).alienMs }
    else u.figures q
  labelEq : ∀ q, v.labels q =
    if q ∈ u.m_labels.raw then { u.labels q with alienMs := clearRefs D (u.labels q).alienMs }
    else u.labels q
  worldSub : ∀ w, (v.worlds w).elements.Sublist (u.worlds w).elements
  worldKeep : ∀ w x, x ∉ D.map ElemRef.product → x ∈ (u.worlds w).elements →
    x ∈ (v.worlds w).elements
  worldGone : ∀ w d, w ∈ u.m_worlds.raw → d ∈ D → (u.worlds w).elements.Nodup →
    ElemRef.product d ∉ (v.worlds w).elements
  worldOther : ∀ w, w ∉ u.m_worlds.raw → v.worlds w = u.worlds w

/-- Well-formedness of the registry, the worlds and the product tree: the
registry has no dangling or duplicated product, worlds list registered
elements once, levels follow the parent chain and stay within
`cfg_elementMaxLevel`, and child lists and parent links agree. -/
structure WF (cfg : Config) (u : Universe) : Prop where
  prodNodup : u.m_products.raw.Nodup
  prodAlloc : ∀ p ∈ u.m_products.raw, p < u.nextProduct
  lampAlloc : ∀ l ∈ u.m_lamps.raw, l < u.nextLamp
  worldAlloc : ∀ w ∈ u.m_worlds.raw, w < u.nextWorld
  worldElemNodup : ∀ w ∈ u.m_worlds.raw, (u.worlds w).elements.Nodup
  worldElemReg : ∀ w ∈ u.m_worlds.raw, ∀ p, ElemRef.product p ∈ (u.worlds w).elements →
    p ∈ u.m_products.raw
  worldLampReg : ∀ w ∈ u.m_worlds.raw, ∀ l, ElemRef.lamp l ∈ (u.worlds w).elements →
    l ∈ u.m_lamps.raw
  levelMax : ∀ p ∈ u.m_products.raw, (u.products p).level ≤ cfg.cfg_elementMaxLevel
  levelRoot : ∀ p ∈ u.m_products.raw, (u.products p).parent = none → (u.products p).level = 0
  levelChild : ∀ p ∈ u.m_products.raw, ∀ q, (u.products p).parent = some q →
    q ∈ u.m_products.raw ∧ (u.products p).level = (u.products q).level + 1
  childOfParent : ∀ p ∈ u.m_products.raw, ∀ q, (u.products p).parent = some q →
    p ∈ (u.products q).children
  childrenOk : ∀ q ∈ u.m_products.raw, ∀ c ∈ (u.products q).children,
    c ∈ u.m_products.raw ∧ (u.products c).parent = some q ∧ q < c
  childrenNodup : ∀ q ∈ u.m_products.raw, (u.products q).children.Nodup

/-- The products deleted by `removeProduct(p)`: `delProd` in the source. -/
def delProd (u : Universe) (p : Nat) : List Nat :=
  u.designerAllChildren p ++ [p]

/-- State of `removeProduct(p)` after the registry updates (products and
unused materials removed) and before the detaching loop. -/
def afterRegistryRemoval (u : Universe) (p : Nat) : Universe :=
  let u1 := { u with m_products := u.m_products.removeElements (u.delProd p) }
  { u1 with m_materials :=
      u1.m_materials.removeElements (u1.pruneMaterials (u1.collectMaterials (u.delProd p))) }

/-- The product store after the common tail of `addAssembly` and `addPart`:
the parent gains the new child and the new node takes the parent's `Ms` as
its `M1`. -/
def productsAfterInsert (u : Universe) (node : VasnecovProduct) : Nat → VasnecovProduct :=
  fun x =>
    if some x = node.parent then (u.products x).designerAddChild u.nextProduct
    else if x = u.nextProduct then
      match node.parent with
      | none => node
      | some q => node.designerSetMatrixM1 (u.products q).Ms
    else u.products x

/-! ### The texture cache and materials with a texture -/

/-- The method `VasnecovUniverse::designerFindTexture`. -/
def designerFindTexture (u : Universe) (name : List Char) : Option Nat :=
  if mapCount u.textures name then (u.textures.find? (fun e => e.1 == name)).map Prod.snd
  else none

/-- Modelled from the spec: `UniverseAttributes::setUpdateFlag`, which sets one
bit of `raw_data.wasUpdated`. -/
def setUpdateFlag (u : Universe) (f : UpdateFlag) : Universe :=
  { u with wasUpdated := if f ∈ u.wasUpdated then u.wasUpdated else f :: u.wasUpdated }

/-- The method `VasnecovUniverse::addTexture`. -/
def addTexture (u : Universe) (texture : Option Nat) (fileId : List Char) : Universe × Bool :=
  match texture with
  | some t =>
    if mapCount u.textures fileId then (u, false)
    else
      (({ u with textures := u.textures ++ [(fileId, t)],
                 texturesForLoading := u.texturesForLoading ++ [t] }).setUpdateFlag
          UpdateFlag.Textures, true)
  | none => (u, false)

/-- The prefix search at the head of `loadTextureFile`: `fileName.find(pref) == 0`
holds when `pref` starts `fileName`. -/
def textureTypeOf (u : Universe) (fileName : List Char) : TextureTypes :=
  if u.dirTexturesDPref.isPrefixOf fileName then TextureTypes.TextureTypeDiffuse
  else if u.dirTexturesIPref.isPrefixOf fileName then TextureTypes.TextureTypeInterface
  else if u.dirTexturesNPref.isPrefixOf fileName then TextureTypes.TextureTypeNormal
  else TextureTypes.TextureTypeUndefined

/-- The size test of `loadTextureFile`: `(w & (w - 1)) == 0` on the width or
height of a `QImage`, which is never negative. -/
def sizeTest (w : Nat) : Bool :=
  (w &&& (w - 1)) == 0

/-- The method `VasnecovUniverse::loadTextureFile`. -/
def loadTextureFile (cfg : Config) (fs : FileSystem) (u : Universe) (fileName : List Char) :
    Universe × Bool :=
  let type := u.textureTypeOf fileName
  let r := correctPath fs (u.dirTextures ++ fileName) fileName cfg.cfg_textureFormat
  if r.1 then
    if !mapCount u.textures r.2.2 then
      match fs.imageSize r.2.1 with
      | some (w, h) =>
        if sizeTest w && sizeTest h then
          match type with
          | TextureTypes.TextureTypeUndefined => (u, false)
          | _ =>
            let texture := u.nextTexture
            let a := ({ u with nextTexture := texture + 1 }).addTexture (some texture) r.2.2
            if a.2 then (a.1, true) else (u, false)
        else (u, false)
      | none => (u, false)
    else (u, false)
  else (u, false)

/-- The tail of `addMaterial(textureName)`: `new VasnecovMaterial(texture)` and
its registration. -/
def insertMaterial (u : Universe) (texture : Option Nat) : Universe × Option Nat :=
  let material := u.nextMaterial
  let u1 := { u with nextMaterial := material + 1,
                     materialTexture := fun q => if q = material then texture
                                                 else u.materialTexture q }
  let r := u1.m_materials.addElement (some material)
  if r.2 then ({ u1 with m_materials := r.1 }, some material) else (u, none)

/-- The method `VasnecovUniverse::addMaterial(textureName)`. -/
def addMaterialTexture (cfg : Config) (fs : FileSystem) (u : Universe)
    (textureName : List Char) : Universe × Option Nat :=
  if !textureName.isEmpty then
    let corTextureName := correctFileId textureName cfg.cfg_textureFormat
    match u.designerFindTexture corTextureName with
    | some texture => u.insertMaterial (some texture)
    | none =>
      let r := loadTextureFile cfg fs u corTextureName
      if !r.2 then (r.1, none)
      else
        match r.1.designerFindTexture corTextureName with
        | none => (r.1, none)
        | some texture => r.1.insertMaterial (some texture)
  else u.insertMaterial none

/-- The method `VasnecovUniverse::addPart` (overload taking a texture name). -/
def addPartTexture (cfg : Config) (fs : FileSystem) (u : Universe) (name : String)
    (world : Option Nat) (meshName textureName : List Char) (parent : Option Nat) :
    Universe × Option Nat :=
  if !textureName.isEmpty then
    let m := addMaterialTexture cfg fs u (u.dirTexturesDPref ++ textureName)
    addPart cfg fs m.1 name world meshName m.2 parent
  else addPart cfg fs u name world meshName none parent

/-! ### Sequences of calls -/

/-- One call of the public interface; `fs` is what the file system answers
during that call. -/
inductive Op where
  | addWorld (posX posY width height : Int)
  | addLamp (name : String) (world : Option Nat) (type : Nat)
  | referLampToWorld (lamp world : Option Nat)
  | addMaterial
  | addMaterialTexture (fs : FileSystem) (textureName : List Char)
  | addAssembly (name : String) (world parent : Option Nat)
  | addPart (fs : FileSystem) (name : String) (world : Option Nat) (meshName : List Char)
      (material parent : Option Nat)
  | addPartTexture (fs : FileSystem) (name : String) (world : Option Nat)
      (meshName textureName : List Char) (parent : Option Nat)
  | referProductToWorld (product world : Option Nat)
  | removeProduct (product : Option Nat)

/-- State after one call. -/
def step (cfg : Config) (u : Universe) : Op → Universe
  | Op.addWorld posX posY width height => (u.addWorld cfg posX posY width height).1
  | Op.addLamp name world type => (u.addLamp name world type).1
  | Op.referLampToWorld lamp world => (u.referLampToWorld lamp world).1
  | Op.addMaterial => u.addMaterial.1
  | Op.addMaterialTexture fs textureName => (addMaterialTexture cfg fs u textureName).1
  | Op.addAssembly name world parent => (u.addAssembly cfg name world parent).1
  | Op.addPart fs name world meshName material parent =>
    (addPart cfg fs u name world meshName material parent).1
  | Op.addPartTexture fs name world meshName textureName parent =>
    (addPartTexture cfg fs u name world meshName textureName parent).1
  | Op.referProductToWorld product world => (u.referProductToWorld product world).1
  | Op.removeProduct product => (u.removeProduct product).1

/-- State after a sequence of calls. -/
def run (cfg : Config) (u : Universe) (ops : List Op) : Universe :=
  ops.foldl (step cfg) u

/-! ### Example scenes -/

/-- A configuration with three levels of nesting below the root. -/
def exampleConfig : Config :=
  ⟨3, 8, 0, 1000, 0, 1000, ['v', 'm', 'f'], ['p', 'n', 'g']⟩

/-- A file system in which every file and directory exists, every file
decodes, images are 4 x 4 and directory names are already normalized. -/
def exampleFiles : FileSystem :=
  ⟨fun _ => true, fun _ => true, fun _ => some (4, 4), fun _ => true, fun d => d⟩

/-- A fresh universe with empty directory names. -/
def emptyScene : Universe :=
  Universe.empty exampleConfig ([], [], [], [], [])

/-- World 0, material 0, assembly 0 with the parts 1 and 2 below it, and the
part 3 at the root; the three parts share material 0. -/
def sharedMaterialScene : Universe :=
  run exampleConfig emptyScene
    [Op.addWorld 0 0 10 10,
     Op.addMaterial,
     Op.addAssembly "a" (some 0) none,
     Op.addPart exampleFiles "p1" (some 0) ['m'] (some 0) (some 0),
     Op.addPart exampleFiles "p2" (some 0) ['m'] (some 0) (some 0),
     Op.addPart exampleFiles "p3" (some 0) ['m'] (some 0) none]

/-- The two states have the same products, lamps and worlds: registries,
stores and allocation counters. -/
structure SameScene (u v : Universe) : Prop where
  m_products : v.m_products = u.m_products
  m_lamps : v.m_lamps = u.m_lamps
  m_worlds : v.m_worlds = u.m_worlds
  products : v.products = u.products
  lamps : v.lamps = u.lamps
  worlds : v.worlds = u.worlds
  nextProduct : v.nextProduct = u.nextProduct
  nextLamp : v.nextLamp = u.nextLamp
  nextWorld : v.nextWorld = u.nextWorld

/-- The scene `sharedMaterialScene` with two lamps: lamp 0 caches the exporting
matrix of part 1 and lamp 1 that of part 3. -/
def alienScene : Universe :=
  { sharedMaterialScene with
    m_lamps := ⟨[0, 1], [], true⟩
    nextLamp := 2
    lamps := fun l =>
      ⟨"lamp", 0, GL_LIGHT0 + l,
        if l = 0 then some (ElemRef.product 1) else some (ElemRef.product 3)⟩ }

/-- The product `d` is a descendant of `p`: a child of `p`, or a child of a
descendant of `p`, following the child lists. -/
inductive IsDescendant (u : Universe) (p : Nat) : Nat → Prop where
  | child {c : Nat} : c ∈ (u.products p).children → IsDescendant u p c
  | step {c x : Nat} : IsDescendant u p c → x ∈ (u.products c).children → IsDescendant u p x

/-- The light-unit indices held by the lamps of the committed list, in list
order. -/
def pureLampIndices (u : Universe) : List Nat :=
  u.m_lamps.pure.map (fun l => (u.lamps l).index)

/-- World 0 with a chain of four assemblies 0, 1, 2, 3 at the levels 0 to 3,
the last one at `cfg_elementMaxLevel` of `exampleConfig`, and a second
world 1 that lists nothing. -/
def deepScene : Universe :=
  run exampleConfig emptyScene
    [Op.addWorld 0 0 10 10,
     Op.addAssembly "a0" (some 0) none,
     Op.addAssembly "a1" (some 0) (some 0),
     Op.addAssembly "a2" (some 0) (some 1),
     Op.addAssembly "a3" (some 0) (some 2),
     Op.addWorld 0 0 20 20]

/-! ### Resource directories -/

/-- The method `VasnecovUniverse::setDirectory`; the result is the returned
flag with the final value of the in-out parameter `oldDir`. -/
def setDirectory (fs : FileSystem) (newDir oldDir : List Char) : Bool × List Char :=
  if !newDir.isEmpty then
    if fs.dirExists newDir then
      let forNewDir := fs.dirPath newDir ++ ['/']
      if forNewDir ≠ oldDir then (true, forNewDir) else (false, oldDir)
    else (false, oldDir)
  else (false, oldDir)

/-- The method `VasnecovUniverse::setTexturesDir`. -/
def setTexturesDir (fs : FileSystem) (u : Universe) (dir : List Char) : Universe × Bool :=
  let r := setDirectory fs dir u.dirTextures
  ({ u with dirTextures := r.2 }, r.1)

/-- The method `VasnecovUniverse::setMeshesDir`. -/
def setMeshesDir (fs : FileSystem) (u : Universe) (dir : List Char) : Universe × Bool :=
  let r := setDirectory fs dir u.dirMeshes
  ({ u with dirMeshes := r.2 }, r.1)

/-! ### Technical information -/

/-- The OpenGL constant `GL_RENDERER`. -/
def GL_RENDERER : Nat := 0x1F01

/-- The OpenGL constant `GL_VERSION`. -/
def GL_VERSION : Nat := 0x1F02

/-- The OpenGL constant `GL_EXTENSIONS`. -/
def GL_EXTENSIONS : Nat := 0x1F03

/-- The OpenGL constant `GL_SHADING_LANGUAGE_VERSION`. -/
def GL_SHADING_LANGUAGE_VERSION : Nat := 0x8B8C

/-- What the OpenGL context answers in `renderInitialize`: `GL_MAX_LIGHTS`
and the strings of `glGetString`. -/
structure GLInfo where
  maxLights : Nat
  renderer : List Char
  version : List Char
  shadingLanguage : List Char
  extensions : List Char

/-- Modelled from the spec: `MutualData::set`, which "stores into staged and
marks dirty"; the dirty mark is the attribute's bit of `raw_data.wasUpdated`. -/
def mutualSet {α : Type} (a : MutualData α) (v : α) (wasUpdated : List UpdateFlag) :
    MutualData α × List UpdateFlag :=
  ({ a with raw := v }, if a.flag ∈ wasUpdated then wasUpdated else a.flag :: wasUpdated)

/-- The method `VasnecovUniverse::renderInitialize` (build without `_MSC_VER`):
the light count is read from the context and the four technical strings are
staged, the extensions with every blank replaced by a line break. -/
def renderInitialize (gl : GLInfo) (u : Universe) : Universe :=
  let exts := gl.extensions.map (fun c => if c = ' ' then '\n' else c)
  let u0 := { u with m_lampsCountMax := gl.maxLights }
  let r := mutualSet u0.m_techRenderer gl.renderer u0.wasUpdated
  let u1 := { u0 with m_techRenderer := r.1, wasUpdated := r.2 }
  let v := mutualSet u1.m_techVersion gl.version u1.wasUpdated
  let u2 := { u1 with m_techVersion := v.1, wasUpdated := v.2 }
  let s := mutualSet u2.m_techSL gl.shadingLanguage u2.wasUpdated
  let u3 := { u2 with m_techSL := s.1, wasUpdated := s.2 }
  let e := mutualSet u3.m_techExtensions exts u3.wasUpdated
  { u3 with m_techExtensions := e.1, wasUpdated := e.2 }

/-- The call `m_techVersion.update()` on the state. -/
def updateTechVersion (u : Universe) : Universe :=
  let r := mutualUpdate u.m_techVersion u.wasUpdated
  { u with m_techVersion := r.1, wasUpdated := r.2.1 }

/-- The call `m_techRenderer.update()` on the state. -/
def updateTechRenderer (u : Universe) : Universe :=
  let r := mutualUpdate u.m_techRenderer u.wasUpdated
  { u with m_techRenderer := r.1, wasUpdated := r.2.1 }

/-- The call `m_techSL.update()` on the state. -/
def updateTechSL (u : Universe) : Universe :=
  let r := mutualUpdate u.m_techSL u.wasUpdated
  { u with m_techSL := r.1, wasUpdated := r.2.1 }

/-- The call `m_techExtensions.update()` on the state. -/
def updateTechExtensions (u : Universe) : Universe :=
  let r := mutualUpdate u.m_techExtensions u.wasUpdated
  { u with m_techExtensions := r.1, wasUpdated := r.2.1 }

/-- The method `VasnecovUniverse::info` (build without `_MSC_VER`); the result
is the state after the call and the returned string. -/
def info (u : Universe) (type : Nat) : Universe × List Char :=
  if type = GL_VERSION then
    let u1 := u.updateTechVersion
    (u1, u1.m_techVersion.pure)
  else if type = GL_RENDERER then
    let u1 := u.updateTechRenderer
    (u1, u1.m_techRenderer.pure)
  else if type = GL_SHADING_LANGUAGE_VERSION then
    let u1 := u.updateTechSL
    (u1, u1.m_techSL.pure)
  else if type = GL_EXTENSIONS then
    let u1 := u.updateTechExtensions
    (u1, u1.m_techExtensions.pure)
  else
    let u1 := u.updateTechVersion.updateTechRenderer.updateTechSL.updateTechExtensions
    (u1, "OpenGL ".toList ++ u1.m_techVersion.pure ++ " at ".toList ++ u1.m_techRenderer.pure ++
      " with ".toList ++ u1.m_techSL.pure ++ " and \n".toList ++ u1.m_techExtensions.pure)

/-! ### Further example scenes -/

/-- A universe in which another thread holds the data lock while a lamp
waits to be committed, a texture waits for its upload and the settings and
the pipeline are marked as updated. -/
def lockedScene : Universe :=
  { emptyScene with
    m_lamps := ⟨[0], [], true⟩
    nextLamp := 1
    lamps := fun _ => ⟨"lamp", 0, GL_LIGHT0 + 5, none⟩
    wasUpdated := [UpdateFlag.BackColor, UpdateFlag.Textures]
    m_backgroundColor := ⟨7, 0, UpdateFlag.BackColor⟩
    textures := [(['t'], 0)]
    texturesForLoading := [0]
    nextTexture := 1
    mtxLocked := true }

/-- The scene after texture "t" and mesh "m" have been loaded once. -/
def cachedScene : Universe :=
  (loadMeshFile exampleConfig exampleFiles
    (loadTextureFile exampleConfig exampleFiles emptyScene ['t']).1 ['m']).1

/-- A file system like `exampleFiles` whose images are 6 pixels wide and 4
pixels high. -/
def oddFiles : FileSystem :=
  ⟨fun _ => true, fun _ => true, fun _ => some (6, 4), fun _ => true, fun d => d⟩

/-! ### Figures and labels -/

/-- The method `VasnecovUniverse::addFigure`. -/
def addFigure (u : Universe) (name : String) (world : Option Nat) : Universe × Option Nat :=
  match world with
  | none => (u, none)
  | some w =>
    if !u.m_worlds.findRawElement w then (u, none)
    else
      let figure := u.nextFigure
      let u1 := { u.setFigure figure (VasnecovFigure.create name) with nextFigure := figure + 1 }
      let r := u1.m_figures.addElement (some figure)
      if r.2 then
        let u2 := { u1 with m_figures := r.1 }
        (u2.setWorld w ((u2.worlds w).designerAddElement (ElemRef.figure figure) false).1,
          some figure)
      else (u, none)

/-- The method `VasnecovUniverse::removeFigure`. -/
def removeFigure (u : Universe) (figure : Option Nat) : Universe × Bool :=
  match figure with
  | none => (u, false)
  | some f =>
    if u.m_figures.findRawElement f then
      let u1 := { u with m_figures := u.m_figures.removeElement f }
      let u2 := u1.removeFromWorlds (ElemRef.figure f)
      ((u2.designerRemoveThisAlienMatrix (VasnecovFigure.designerExportingMatrix f)).1, true)
    else (u, false)

/-- The texture block of `addLabel` for a non-empty texture name: the lookup of
the interface texture in the cache, the forced load when it is missing, and
the second lookup. The result is the state after the block and the texture
(`none` on the two "texture not found" exits). -/
def findOrLoadInterfaceTexture (cfg : Config) (fs : FileSystem) (u : Universe)
    (textureName : List Char) : Universe × Option Nat :=
  let corTextureName := correctFileId textureName cfg.cfg_textureFormat
  match u.designerFindTexture (u.dirTexturesIPref ++ corTextureName) with
  | some texture => (u, some texture)
  | none =>
    let r := loadTextureFile cfg fs u (u.dirTexturesIPref ++ corTextureName)
    if !r.2 then (r.1, none)
    else (r.1, r.1.designerFindTexture (r.1.dirTexturesIPref ++ corTextureName))

/-- The tail of `addLabel`: the world-registration check, `new VasnecovLabel`
and its registration in the registry and in the world. -/
def addLabelTail (u : Universe) (name : String) (w : Nat) (width height : Int)
    (texture : Option Nat) : Universe × Option Nat :=
  if !u.m_worlds.findRawElement w then (u, none)
  else
    let label := u.nextLabel
    let u1 := { u.setLabel label (VasnecovLabel.create name width height texture) with
                nextLabel := label + 1 }
    let r := u1.m_labels.addElement (some label)
    if r.2 then
      let u2 := { u1 with m_labels := r.1 }
      (u2.setWorld w ((u2.worlds w).designerAddElement (ElemRef.label label) false).1, some label)
    else (u, none)

/-- The method `VasnecovUniverse::addLabel` (overload taking a texture name; the
overload without one passes the empty name). -/
def addLabel (cfg : Config) (fs : FileSystem) (u : Universe) (name : String)
    (world : Option Nat) (width height : Int) (textureName : List Char) :
    Universe × Option Nat :=
  match world with
  | none => (u, none)
  | some w =>
    if !textureName.isEmpty then
      let r := findOrLoadInterfaceTexture cfg fs u textureName
      match r.2 with
      | none => (r.1, none)
      | some texture => addLabelTail r.1 name w width height (some texture)
    else addLabelTail u name w width height none

/-- The method `VasnecovUniverse::referLabelToWorld`. -/
def referLabelToWorld (u : Universe) (label world : Option Nat) : Universe × Option Nat :=
  match label, world with
  | some l, some w =>
    if !u.m_labels.findRawElement l then (u, none)
    else if !u.m_worlds.findRawElement w then (u, none)
    else
      let r := (u.worlds w).designerAddElement (ElemRef.label l) true
      if r.2 then (u.setWorld w r.1, some l) else (u, none)
  | _, _ => (u, none)

/-- The method `VasnecovUniverse::removeLabel`. -/
def removeLabel (u : Universe) (label : Option Nat) : Universe × Bool :=
  match label with
  | none => (u, false)
  | some l =>
    if u.m_labels.findRawElement l then
      let u1 := { u with m_labels := u.m_labels.removeElement l }
      let u2 := u1.removeFromWorlds (ElemRef.label l)
      ((u2.designerRemoveThisAlienMatrix (VasnecovLabel.designerExportingMatrix l)).1, true)
    else (u, false)

/-- State after `referLabelToWorld(l, w)` for each world `w` of `ws` in turn. -/
def referLabelToWorlds (u : Universe) (l : Nat) (ws : List Nat) : Universe :=
  ws.foldl (fun (acc : Universe) w => (acc.referLabelToWorld (some l) (some w)).1) u

/-- Three worlds 0, 1 and 2 that list nothing. -/
def threeWorldScene : Universe :=
  run exampleConfig emptyScene
    [Op.addWorld 0 0 10 10, Op.addWorld 0 0 20 20, Op.addWorld 0 0 30 30]

/-! ### Committed values and calls of the public operations -/

/-- The committed (pure) values of the versioned attributes of the universe:
context, background colour, loading flag and the four technical strings
(renderer, version, shading language, extensions). -/
def committedValues (u : Universe) :
    Nat × Nat × Bool × List Char × List Char × List Char × List Char :=
  (u.m_context.pure, u.m_backgroundColor.pure, u.m_loading.pure, u.m_techRenderer.pure,
    u.m_techVersion.pure, u.m_techSL.pure, u.m_techExtensions.pure)

/-- A call of a public designer-side operation of the universe that changes
the scene or the resource directories, with its arguments. -/
inductive Call where
  | scene (op : Op)
  | addFigure (name : String) (world : Option Nat)
  | removeFigure (figure : Option Nat)
  | addLabel (fs : FileSystem) (name : String) (world : Option Nat) (width height : Int)
      (textureName : List Char)
  | referLabelToWorld (label world : Option Nat)
  | removeLabel (label : Option Nat)
  | setTexturesDir (fs : FileSystem) (dir : List Char)
  | setMeshesDir (fs : FileSystem) (dir : List Char)

/-- State after one call of `Call`. -/
def call (cfg : Config) (u : Universe) : Call → Universe
  | Call.scene op => step cfg u op
  | Call.addFigure name world => (u.addFigure name world).1
  | Call.removeFigure figure => (u.removeFigure figure).1
  | Call.addLabel fs name world width height textureName =>
    (addLabel cfg fs u name world width height textureName).1
  | Call.referLabelToWorld label world => (u.referLabelToWorld label world).1
  | Call.removeLabel label => (u.removeLabel label).1
  | Call.setTexturesDir fs dir => (setTexturesDir fs u dir).1
  | Call.setMeshesDir fs dir => (setMeshesDir fs u dir).1

/-! ### The data lock `mtx_data` -/

/-- Events of a call that concern the data lock `mtx_data`: taking it (the
constructor of a `QMutexLocker`, `relock`), giving it back (`unlock`, the
destructor of a locker that holds it), and the writes the lock protects: a
call of `m_elements.addElement`, `removeElement` or `removeElements`, a call
of `designerAddElement` or `designerRemoveElement` of a world, and an
assignment to a member of `raw_data`. -/
inductive LockEvent where
  | acquire | release | registry | worldList | rawData
  deriving DecidableEq, Repr

/-- Whether every write of the trace happens while the lock is held, given
whether it is held at the start. -/
def disciplinedFrom : Bool → List LockEvent → Bool
  | _, [] => true
  | _, LockEvent.acquire :: t => disciplinedFrom true t
  | _, LockEvent.release :: t => disciplinedFrom false t
  | held, _ :: t => held && disciplinedFrom held t

/-- Whether the lock is held after the trace, given whether it is held at the
start. -/
def heldAfter : Bool → List LockEvent → Bool
  | held, [] => held
  | _, LockEvent.acquire :: t => heldAfter true t
  | _, LockEvent.release :: t => heldAfter false t
  | held, _ :: t => heldAfter held t

/-- Lock discipline of the trace of a call that starts without the lock. -/
def disciplined (t : List LockEvent) : Bool :=
  disciplinedFrom false t

/-- Events of `addWorld`. -/
def addWorldTrace (cfg : Config) (width height : Int) : List LockEvent :=
  if width > cfg.cfg_worldWidthMin ∧ width < cfg.cfg_worldWidthMax ∧
      height > cfg.cfg_worldHeightMin ∧ height < cfg.cfg_worldHeightMax then
    [LockEvent.acquire, LockEvent.registry, LockEvent.release]
  else []

/-- Events of `addLamp`. -/
def addLampTrace (u : Universe) (world : Option Nat) : List LockEvent :=
  match world with
  | none => []
  | some w =>
    if !u.m_worlds.findRawElement w then [LockEvent.acquire, LockEvent.release]
    else if (u.m_lamps.addElement (some u.nextLamp)).2 then
      [LockEvent.acquire, LockEvent.registry, LockEvent.worldList, LockEvent.release]
    else [LockEvent.acquire, LockEvent.registry, LockEvent.release]

/-- Events of `referLampToWorld`. -/
def referLampToWorldTrace (u : Universe) (lamp world : Option Nat) : List LockEvent :=
  match lamp, world with
  | some l, some w =>
    if !u.m_lamps.findRawElement l then [LockEvent.acquire, LockEvent.release]
    else if !u.m_worlds.findRawElement w then [LockEvent.acquire, LockEvent.release]
    else [LockEvent.acquire, LockEvent.worldList, LockEvent.release]
  | _, _ => []

/-- Events of `referProductToWorld`. -/
def referProductToWorldTrace (u : Universe) (product world : Option Nat) : List LockEvent :=
  match product, world with
  | some p, some w =>
    if !u.m_products.findRawElement p then [LockEvent.acquire, LockEvent.release]
    else if !u.m_worlds.findRawElement w then [LockEvent.acquire, LockEvent.release]
    else [LockEvent.acquire, LockEvent.worldList, LockEvent.release]
  | _, _ => []

/-- Events of `addAssembly`. -/
def addAssemblyTrace (cfg : Config) (u : Universe) (world parent : Option Nat) :
    List LockEvent :=
  match world with
  | none => []
  | some w =>
    if !u.m_worlds.findRawElement w then [LockEvent.acquire, LockEvent.release]
    else
      match childLevel cfg u w parent with
      | none => [LockEvent.acquire, LockEvent.release]
      | some _ => [LockEvent.acquire, LockEvent.registry, LockEvent.worldList, LockEvent.release]

/-- Events of `addMesh`, which takes the lock itself around the insertion. -/
def addMeshTrace (u : Universe) (mesh : Option Nat) (fileId : List Char) : List LockEvent :=
  match mesh with
  | some _ =>
    if mapCount u.meshes fileId then []
    else [LockEvent.acquire, LockEvent.rawData, LockEvent.release]
  | none => []

/-- Events of `loadMeshFile`. -/
def loadMeshFileTrace (cfg : Config) (fs : FileSystem) (u : Universe) (fileName : List Char) :
    List LockEvent :=
  let r := correctPath fs (u.dirMeshes ++ fileName) fileName cfg.cfg_meshFormat
  if r.1 then
    if !mapCount u.meshes r.2.2 then
      if fs.loadModel r.2.1 then
        ({ u with nextMesh := u.nextMesh + 1 }).addMeshTrace (some u.nextMesh) r.2.2
      else []
    else []
  else []

/-- Events of `addTexture`, which takes the lock itself around the insertion,
the queueing for upload and the update flag. -/
def addTextureTrace (u : Universe) (texture : Option Nat) (fileId : List Char) :
    List LockEvent :=
  match texture with
  | some _ =>
    if mapCount u.textures fileId then []
    else [LockEvent.acquire, LockEvent.rawData, LockEvent.rawData, LockEvent.rawData,
      LockEvent.release]
  | none => []

/-- Events of `loadTextureFile`. -/
def loadTextureFileTrace (cfg : Config) (fs : FileSystem) (u : Universe)
    (fileName : List Char) : List LockEvent :=
  let type := u.textureTypeOf fileName
  let r := correctPath fs (u.dirTextures ++ fileName) fileName cfg.cfg_textureFormat
  if r.1 then
    if !mapCount u.textures r.2.2 then
      match fs.imageSize r.2.1 with
      | some (w, h) =>
        if sizeTest w && sizeTest h then
          match type with
          | TextureTypes.TextureTypeUndefined => []
          | _ =>
            ({ u with nextTexture := u.nextTexture + 1 }).addTextureTrace (some u.nextTexture)
              r.2.2
        else []
      | none => []
    else []
  else []

/-- Events of `addMaterial(textureName)`. -/
def addMaterialTextureTrace (cfg : Config) (fs : FileSystem) (u : Universe)
    (textureName : List Char) : List LockEvent :=
  if !textureName.isEmpty then
    let corTextureName := correctFileId textureName cfg.cfg_textureFormat
    match u.designerFindTexture corTextureName with
    | some _ => [LockEvent.acquire, LockEvent.registry, LockEvent.release]
    | none =>
      let r := loadTextureFile cfg fs u corTextureName
      [LockEvent.acquire, LockEvent.release] ++ loadTextureFileTrace cfg fs u corTextureName ++
        (if !r.2 then []
         else
           match r.1.designerFindTexture corTextureName with
           | none => [LockEvent.acquire, LockEvent.release]
           | some _ => [LockEvent.acquire, LockEvent.registry, LockEvent.release])
  else [LockEvent.acquire, LockEvent.registry, LockEvent.release]

/-- Events of `addMaterial()` without a texture: the registration is the only
one, no locker is constructed. -/
def addMaterialTrace (_u : Universe) : List LockEvent :=
  [LockEvent.registry]

/-- Events of the part of `addPart` after the mesh has been found, which runs
with the lock held and ends with the destructor of the locker. -/
def addPartTailTrace (cfg : Config) (u : Universe) (w : Nat) (material parent : Option Nat) :
    List LockEvent :=
  if !u.m_worlds.findRawElement w then [LockEvent.release]
  else
    let materialOk := match material with
      | none => true
      | some m => u.m_materials.findRawElement m
    if !materialOk then [LockEvent.release]
    else
      match childLevel cfg u w parent with
      | none => [LockEvent.release]
      | some _ => [LockEvent.registry, LockEvent.worldList, LockEvent.release]

/-- Events of `addPart` (overload taking a material). -/
def addPartTrace (cfg : Config) (fs : FileSystem) (u : Universe) (world : Option Nat)
    (meshName : List Char) (material parent : Option Nat) : List LockEvent :=
  match world with
  | none => []
  | some w =>
    if !meshName.isEmpty then
      let corMeshName := correctFileId meshName cfg.cfg_meshFormat
      match u.designerFindMesh corMeshName with
      | some _ => LockEvent.acquire :: addPartTailTrace cfg u w material parent
      | none =>
        let r := loadMeshFile cfg fs u corMeshName
        [LockEvent.acquire, LockEvent.release] ++ loadMeshFileTrace cfg fs u corMeshName ++
          (if !r.2 then []
           else
             match r.1.designerFindMesh corMeshName with
             | none => [LockEvent.acquire, LockEvent.release]
             | some _ => LockEvent.acquire :: addPartTailTrace cfg r.1 w material parent)
    else [LockEvent.acquire, LockEvent.release]

/-- Events of `addPart` (overload taking a texture name). -/
def addPartTextureTrace (cfg : Config) (fs : FileSystem) (u : Universe) (world : Option Nat)
    (meshName textureName : List Char) (parent : Option Nat) : List LockEvent :=
  if !textureName.isEmpty then
    let m := addMaterialTexture cfg fs u (u.dirTexturesDPref ++ textureName)
    addMaterialTextureTrace cfg fs u (u.dirTexturesDPref ++ textureName) ++
      addPartTrace cfg fs m.1 world meshName m.2 parent
  else addPartTrace cfg fs u world meshName none parent

/-- Events of `removeProduct`: the two `removeElements` and, for each deleted
product, `designerRemoveElement` on each registered world. -/
def removeProductTrace (u : Universe) (product : Option Nat) : List LockEvent :=
  match product with
  | none => []
  | some p =>
    if u.m_products.findRawElement p then
      [LockEvent.acquire, LockEvent.registry, LockEvent.registry] ++
        (u.designerAllChildren p ++ [p]).flatMap
          (fun _ => u.m_worlds.raw.map (fun _ => LockEvent.worldList)) ++
        [LockEvent.release]
    else [LockEvent.acquire, LockEvent.release]

/-- Events of `addFigure`. -/
def addFigureTrace (u : Universe) (world : Option Nat) : List LockEvent :=
  match world with
  | none => []
  | some w =>
    if !u.m_worlds.findRawElement w then [LockEvent.acquire, LockEvent.release]
    else if (u.m_figures.addElement (some u.nextFigure)).2 then
      [LockEvent.acquire, LockEvent.registry, LockEvent.worldList, LockEvent.release]
    else [LockEvent.acquire, LockEvent.registry, LockEvent.release]

/-- Events of `removeFigure`. -/
def removeFigureTrace (u : Universe) (figure : Option Nat) : List LockEvent :=
  match figure with
  | none => []
  | some f =>
    if u.m_figures.findRawElement f then
      [LockEvent.acquire, LockEvent.registry] ++
        u.m_worlds.raw.map (fun _ => LockEvent.worldList) ++ [LockEvent.release]
    else [LockEvent.acquire, LockEvent.release]

/-- Events of the tail of `addLabel`, which runs with the lock held and ends
with the destructor of the locker. -/
def addLabelTailTrace (u : Universe) (w : Nat) : List LockEvent :=
  if !u.m_worlds.findRawElement w then [LockEvent.release]
  else if (u.m_labels.addElement (some u.nextLabel)).2 then
    [LockEvent.registry, LockEvent.worldList, LockEvent.release]
  else [LockEvent.registry, LockEvent.release]

/-- Events of `addLabel`. -/
def addLabelTrace (cfg : Config) (fs : FileSystem) (u : Universe) (world : Option Nat)
    (textureName : List Char) : List LockEvent :=
  match world with
  | none => []
  | some w =>
    if !textureName.isEmpty then
      let name := u.dirTexturesIPref ++ correctFileId textureName cfg.cfg_textureFormat
      match u.designerFindTexture name with
      | some _ => LockEvent.acquire :: addLabelTailTrace u w
      | none =>
        let r := loadTextureFile cfg fs u name
        [LockEvent.acquire, LockEvent.release] ++ loadTextureFileTrace cfg fs u name ++
          (if !r.2 then []
           else
             match r.1.designerFindTexture
                 (r.1.dirTexturesIPref ++ correctFileId textureName cfg.cfg_textureFormat) with
             | none => [LockEvent.acquire, LockEvent.release]
             | some _ => LockEvent.acquire :: addLabelTailTrace r.1 w)
    else LockEvent.acquire :: addLabelTailTrace u w

/-- Events of `referLabelToWorld`. -/
def referLabelToWorldTrace (u : Universe) (label world : Option Nat) : List LockEvent :=
  match label, world with
  | some l, some w =>
    if !u.m_labels.findRawElement l then [LockEvent.acquire, LockEvent.release]
    else if !u.m_worlds.findRawElement w then [LockEvent.acquire, LockEvent.release]
    else [LockEvent.acquire, LockEvent.worldList, LockEvent.release]
  | _, _ => []

/-- Events of `removeLabel`. -/
def removeLabelTrace (u : Universe) (label : Option Nat) : List LockEvent :=
  match label with
  | none => []
  | some l =>
    if u.m_labels.findRawElement l then
      [LockEvent.acquire, LockEvent.registry] ++
        u.m_worlds.raw.map (fun _ => LockEvent.worldList) ++ [LockEvent.release]
    else [LockEvent.acquire, LockEvent.release]

/-- Events of `setDirectory`: the assignment to `oldDir`, a member of
`raw_data` in both callers. -/
def setDirectoryTrace (fs : FileSystem) (newDir oldDir : List Char) : List LockEvent :=
  if !newDir.isEmpty then
    if fs.dirExists newDir then
      if fs.dirPath newDir ++ ['/'] ≠ oldDir then [LockEvent.rawData] else []
    else []
  else []

/-- Events of `setTexturesDir`. -/
def setTexturesDirTrace (fs : FileSystem) (u : Universe) (dir : List Char) : List LockEvent :=
  LockEvent.acquire :: setDirectoryTrace fs dir u.dirTextures ++ [LockEvent.release]

/-- Events of `setMeshesDir`. -/
def setMeshesDirTrace (fs : FileSystem) (u : Universe) (dir : List Char) : List LockEvent :=
  LockEvent.acquire :: setDirectoryTrace fs dir u.dirMeshes ++ [LockEvent.release]

/-- Events of one call of `Op`. -/
def stepTrace (cfg : Config) (u : Universe) : Op → List LockEvent
  | Op.addWorld _ _ width height => addWorldTrace cfg width height
  | Op.addLamp _ world _ => u.addLampTrace world
  | Op.referLampToWorld lamp world => u.referLampToWorldTrace lamp world
  | Op.addMaterial => u.addMaterialTrace
  | Op.addMaterialTexture fs textureName => addMaterialTextureTrace cfg fs u textureName
  | Op.addAssembly _ world parent => addAssemblyTrace cfg u world parent
  | Op.addPart fs _ world meshName material parent =>
    addPartTrace cfg fs u world meshName material parent
  | Op.addPartTexture fs _ world meshName textureName parent =>
    addPartTextureTrace cfg fs u world meshName textureName parent
  | Op.referProductToWorld product world => u.referProductToWorldTrace product world
  | Op.removeProduct product => u.removeProductTrace product

/-- Events of one call of `Call`. -/
def callTrace (cfg : Config) (u : Universe) : Call → List LockEvent
  | Call.scene op => stepTrace cfg u op
  | Call.addFigure _ world => u.addFigureTrace world
  | Call.removeFigure figure => u.removeFigureTrace figure
  | Call.addLabel fs _ world _ _ textureName => addLabelTrace cfg fs u world textureName
  | Call.referLabelToWorld label world => u.referLabelToWorldTrace label world
  | Call.removeLabel label => u.removeLabelTrace label
  | Call.setTexturesDir fs dir => setTexturesDirTrace fs u dir
  | Call.setMeshesDir fs dir => setMeshesDirTrace fs u dir

/-! ### Well-formed element lists -/

/-- The element address has been handed out by an allocation (`new`) of the
universe: it lies below the allocation counter of its kind. -/
def allocated (u : Universe) : ElemRef → Prop
  | ElemRef.lamp l => l < u.nextLamp
  | ElemRef.product p => p < u.nextProduct
  | ElemRef.figure f => f < u.nextFigure
  | ElemRef.label l => l < u.nextLabel

/-- Well-formedness of the element lists: the label registry lists every label
once, the registries list allocated elements only, and every registered world
lists allocated elements, each of them once. -/
structure SceneWF (u : Universe) : Prop where
  labelNodup : u.m_labels.raw.Nodup
  lampAlloc : ∀ l ∈ u.m_lamps.raw, l < u.nextLamp
  productAlloc : ∀ p ∈ u.m_products.raw, p < u.nextProduct
  figureAlloc : ∀ f ∈ u.m_figures.raw, f < u.nextFigure
  labelAlloc : ∀ l ∈ u.m_labels.raw, l < u.nextLabel
  worldNodup : ∀ w ∈ u.m_worlds.raw, (u.worlds w).elements.Nodup
  worldAlloc : ∀ w ∈ u.m_worlds.raw, ∀ x ∈ (u.worlds w).elements, allocated u x

/-- State after a sequence of calls of `Call`. -/
def calls (cfg : Config) (u : Universe) (cs : List Call) : Universe :=
  cs.foldl (call cfg) u

/-! ### Scenes and sequences for materials and lamps -/

/-- World 0, the materials 0 and 1, assembly 0 with the part 1 below it, and the
part 2 at the root; part 1 alone has material 0 and part 2 has material 1. -/
def ownMaterialScene : Universe :=
  run exampleConfig emptyScene
    [Op.addWorld 0 0 10 10,
     Op.addMaterial,
     Op.addMaterial,
     Op.addAssembly "a" (some 0) none,
     Op.addPart exampleFiles "p1" (some 0) ['m'] (some 0) (some 0),
     Op.addPart exampleFiles "p2" (some 0) ['m'] (some 1) none]

/-- State after `addLamp(name, world, type)` for each triple of `cs` in turn. -/
def addLamps (u : Universe) (cs : List (String × Nat × Nat)) : Universe :=
  cs.foldl (fun (acc : Universe) c => (acc.addLamp c.1 (some c.2.1) c.2.2).1) u

/-! ### Steps on a non-recursive lock -/

/-- A step of a call that concerns `mtx_data`: an event of `LockEvent`, or a
lookup in a resource cache by `designerFindMesh` or `designerFindTexture`. -/
inductive LockStep where
  | event (e : LockEvent)
  | lookup
  deriving DecidableEq, Repr

/-- One step on a non-recursive lock. The state is whether the caller holds the
lock, `none` after a violation: taking the lock while holding it (the caller
would wait for itself), giving it back without holding it, or a lookup or a
write without holding it. -/
def lockStep : Option Bool → LockStep → Option Bool
  | none, _ => none
  | some held, LockStep.event LockEvent.acquire => if held then none else some true
  | some held, LockStep.event LockEvent.release => if held then some false else none
  | some held, _ => if held then some true else none

/-- A call that starts without the lock never violates the lock and ends
without it. -/
def balanced (t : List LockStep) : Bool :=
  t.foldl lockStep (some false) == some false

/-- The event of a step, `none` for a lookup. -/
def LockStep.toEvent : LockStep → Option LockEvent
  | LockStep.event e => some e
  | LockStep.lookup => none

/-- The events of a list of steps. -/
def eventsOf (t : List LockStep) : List LockEvent :=
  t.filterMap LockStep.toEvent

/-- Steps of `loadMeshFile`, called without the lock. -/
def loadMeshFileSteps (cfg : Config) (fs : FileSystem) (u : Universe) (fileName : List Char) :
    List LockStep :=
  (loadMeshFileTrace cfg fs u fileName).map LockStep.event

/-- Steps of `loadTextureFile`, called without the lock. -/
def loadTextureFileSteps (cfg : Config) (fs : FileSystem) (u : Universe)
    (fileName : List Char) : List LockStep :=
  (loadTextureFileTrace cfg fs u fileName).map LockStep.event

/-- Steps of `addPart` (overload taking a material): the locker, the lookup of
the mesh, and when it is missing `unlock`, the forced load, `relock` and the
second lookup. -/
def addPartSteps (cfg : Config) (fs : FileSystem) (u : Universe) (world : Option Nat)
    (meshName : List Char) (material parent : Option Nat) : List LockStep :=
  match world with
  | none => []
  | some w =>
    if !meshName.isEmpty then
      let corMeshName := correctFileId meshName cfg.cfg_meshFormat
      match u.designerFindMesh corMeshName with
      | some _ =>
        [LockStep.event LockEvent.acquire, LockStep.lookup] ++
          (addPartTailTrace cfg u w material parent).map LockStep.event
      | none =>
        let r := loadMeshFile cfg fs u corMeshName
        [LockStep.event LockEvent.acquire, LockStep.lookup, LockStep.event LockEvent.release] ++
          loadMeshFileSteps cfg fs u corMeshName ++
          (if !r.2 then []
           else
             match r.1.designerFindMesh corMeshName with
             | none =>
               [LockStep.event LockEvent.acquire, LockStep.lookup,
                 LockStep.event LockEvent.release]
             | some _ =>
               [LockStep.event LockEvent.acquire, LockStep.lookup] ++
                 (addPartTailTrace cfg r.1 w material parent).map LockStep.event)
    else [LockStep.event LockEvent.acquire, LockStep.event LockEvent.release]

/-- Steps of `addLabel`. -/
def addLabelSteps (cfg : Config) (fs : FileSystem) (u : Universe) (world : Option Nat)
    (textureName : List Char) : List LockStep :=
  match world with
  | none => []
  | some w =>
    if !textureName.isEmpty then
      let name := u.dirTexturesIPref ++ correctFileId textureName cfg.cfg_textureFormat
      match u.designerFindTexture name with
      | some _ =>
        [LockStep.event LockEvent.acquire, LockStep.lookup] ++
          (addLabelTailTrace u w).map LockStep.event
      | none =>
        let r := loadTextureFile cfg fs u name
        [LockStep.event LockEvent.acquire, LockStep.lookup, LockStep.event LockEvent.release] ++
          loadTextureFileSteps cfg fs u name ++
          (if !r.2 then []
           else
             match r.1.designerFindTexture
                 (r.1.dirTexturesIPref ++ correctFileId textureName cfg.cfg_textureFormat) with
             | none =>
               [LockStep.event LockEvent.acquire, LockStep.lookup,
                 LockStep.event LockEvent.release]
             | some _ =>
               [LockStep.event LockEvent.acquire, LockStep.lookup] ++
                 (addLabelTailTrace r.1 w).map LockStep.event)
    else LockStep.event LockEvent.acquire :: (addLabelTailTrace u w).map LockStep.event

/-- Steps of `addMaterial(textureName)`. -/
def addMaterialTextureSteps (cfg : Config) (fs : FileSystem) (u : Universe)
    (textureName : List Char) : List LockStep :=
  if !textureName.isEmpty then
    let corTextureName := correctFileId textureName cfg.cfg_textureFormat
    match u.designerFindTexture corTextureName with
    | some _ =>
      [LockStep.event LockEvent.acquire, LockStep.lookup, LockStep.event LockEvent.registry,
        LockStep.event LockEvent.release]
    | none =>
      let r := loadTextureFile cfg fs u corTextureName
      [LockStep.event LockEvent.acquire, LockStep.lookup, LockStep.event LockEvent.release] ++
        loadTextureFileSteps cfg fs u corTextureName ++
        (if !r.2 then []
         else
           match r.1.designerFindTexture corTextureName with
           | none =>
             [LockStep.event LockEvent.acquire, LockStep.lookup,
               LockStep.event LockEvent.release]
           | some _ =>
             [LockStep.event LockEvent.acquire, LockStep.lookup,
               LockStep.event LockEvent.registry, LockStep.event LockEvent.release])
  else
    [LockStep.event LockEvent.acquire, LockStep.event LockEvent.registry,
      LockStep.event LockEvent.release]

/-- A file system like `exampleFiles` in which no file exists. -/
def noFiles : FileSystem :=
  ⟨fun _ => false, fun _ => true, fun _ => some (4, 4), fun _ => true, fun d => d⟩

/-! ### States that differ in the texture cache -/

/-- The state `u` with another texture cache: the cache, the allocation counter
of the textures, the update flags and the upload queue. -/
def withTextures (u : Universe) (t : List (List Char × Nat)) (n : Nat)
    (wu : List UpdateFlag) (tl : List Nat) : Universe :=
  { u with textures := t, nextTexture := n, wasUpdated := wu, texturesForLoading := tl }

/-- A file system like `exampleFiles` whose images cannot be read. -/
def noImages : FileSystem :=
  ⟨fun _ => true, fun _ => true, fun _ => none, fun _ => true, fun d => d⟩

/-- What happens to a universe between and during the frames: a call of a
public designer-side operation, a pass of `renderUpdateData`, a call of
`renderInitialize` or of `info`, and another thread taking (`true`) or giving
back (`false`) the data lock `mtx_data`. -/
inductive Act where
  | call (c : Call)
  | renderUpdateData
  | renderInitialize (gl : GLInfo)
  | info (type : Nat)
  | otherThreadLock (locked : Bool)

/-- State after one `Act`. -/
def act (cfg : Config) (u : Universe) : Act → Universe
  | Act.call c => call cfg u c
  | Act.renderUpdateData => u.renderUpdateData.1
  | Act.renderInitialize gl => renderInitialize gl u
  | Act.info type => (info u type).1
  | Act.otherThreadLock locked => { u with mtxLocked := locked }

/-- State after a sequence of `Act`. -/
def perform (cfg : Config) (u : Universe) (acts : List Act) : Universe :=
  acts.foldl (act cfg) u

/-- The lamp registry, the allocation counter of the lamps and the light unit
of every lamp. -/
def lampView (u : Universe) : ElementBox × Nat × (Nat → Nat) :=
  (u.m_lamps, u.nextLamp, fun l => (u.lamps l).index)

/-- The lamp lists of a universe are well-formed: the staged list holds
allocated lamps, each once, the committed list is part of it and equals it
when the staged list is not dirty, and, as long as the light units do not
leave the range of a `GLuint`, the lamps of the committed list hold
`GL_LIGHT0`, `GL_LIGHT0 + 1`, ... in list order. -/
structure LampInv (u : Universe) : Prop where
  rawNodup : u.m_lamps.raw.Nodup
  rawAlloc : ∀ l ∈ u.m_lamps.raw, l < u.nextLamp
  pureSub : u.m_lamps.pure.Sublist u.m_lamps.raw
  clean : u.m_lamps.wasUpdated = false → u.m_lamps.pure = u.m_lamps.raw
  contiguous : GL_LIGHT0 + u.m_lamps.raw.length ≤ GLuintRange →
    u.pureLampIndices = List.range' GL_LIGHT0 u.m_lamps.pure.length

/-- World 0 and nine lamps created in it, one more than the eight light units
of `m_lampsCountMax`. -/
def nineLampActs : List Act :=
  [Act.call (Call.scene (Op.addWorld 0 0 10 10)),
   Act.call (Call.scene (Op.addLamp "l0" (some 0) 0)),
   Act.call (Call.scene (Op.addLamp "l1" (some 0) 0)),
   Act.call (Call.scene (Op.addLamp "l2" (some 0) 0)),
   Act.call (Call.scene (Op.addLamp "l3" (some 0) 0)),
   Act.call (Call.scene (Op.addLamp "l4" (some 0) 0)),
   Act.call (Call.scene (Op.addLamp "l5" (some 0) 0)),
   Act.call (Call.scene (Op.addLamp "l6" (some 0) 0)),
   Act.call (Call.scene (Op.addLamp "l7" (some 0) 0)),
   Act.call (Call.scene (Op.addLamp "l8" (some 0) 0))]

end Universe

/-! ## The pipeline (`VasnecovPipeline`, src/libVasnecov/vasnecovpipeline.cpp) -/

namespace Pipeline

/-- A `QColor`, given by its four channels. -/
structure QColor where
  red : Nat
  green : Nat
  blue : Nat
  alpha : Nat
  deriving DecidableEq, Repr

/-- The calls of OpenGL issued by the methods below: `glColor4f` and
`glLightModelfv(GL_LIGHT_MODEL_AMBIENT, ...)` with the four channels of a
colour, and `glDisable` with a capability. -/
inductive GLCall where
  | glColor4f (c : QColor)
  | glLightModelfv (c : QColor)
  | glDisable (cap : Nat)
  deriving DecidableEq, Repr

/-- A `QVector3D` over exact arithmetic. -/
structure QVector3D where
  x : ℚ
  y : ℚ
  z : ℚ
  deriving DecidableEq

/-- A `QVector4D` over exact arithmetic. -/
structure QVector4D where
  x : ℚ
  y : ℚ
  z : ℚ
  w : ℚ
  deriving DecidableEq

/-- A `GLmatrix` (a 4x4 matrix) over exact arithmetic: the entry of a row and
a column. -/
def GLmatrix : Type := Fin 4 → Fin 4 → ℚ

/-- The product of two matrices (`operator*` of `QMatrix4x4`). -/
def GLmatrix.mul (a b : GLmatrix) : GLmatrix :=
  fun i j => a i 0 * b 0 j + a i 1 * b 1 j + a i 2 * b 2 j + a i 3 * b 3 j

/-- The product of a matrix and a column vector (`operator*` of `QMatrix4x4`
and `QVector4D`). -/
def GLmatrix.mulVec (m : GLmatrix) (v : QVector4D) : QVector4D :=
  ⟨m 0 0 * v.x + m 0 1 * v.y + m 0 2 * v.z + m 0 3 * v.w,
   m 1 0 * v.x + m 1 1 * v.y + m 1 2 * v.z + m 1 3 * v.w,
   m 2 0 * v.x + m 2 1 * v.y + m 2 2 * v.z + m 2 3 * v.w,
   m 3 0 * v.x + m 3 1 * v.y + m 3 2 * v.z + m 3 3 * v.w⟩

/-- The members of `VasnecovPipeline` used by the methods below. -/
structure VasnecovPipeline where
  m_color : QColor
  m_ambientColor : QColor
  m_activatedLamps : List Nat
  m_P : GLmatrix
  m_viewWidth : Int
  m_viewHeight : Int

/-- The method `VasnecovPipeline::projectPoint` over exact arithmetic. -/
def projectPoint (p : VasnecovPipeline) (MV : GLmatrix) (point : QVector3D) : QVector4D :=
  let wPoint : QVector4D := ⟨point.x, point.y, point.z, 1⟩
  let pos := (p.m_P.mul MV).mulVec wPoint
  let pos : QVector4D :=
    if |pos.w| ≠ 1 then
      let div := 1 / pos.w
      ⟨pos.x * div, pos.y * div, pos.z * div, 1⟩
    else pos
  ⟨(pos.x + 1) * (1 / 2) * p.m_viewWidth, (pos.y + 1) * (1 / 2) * p.m_viewHeight, pos.z, pos.w⟩

/-- The clip coordinates `P * MV * (point, 1)` of a point. -/
def clip (P MV : GLmatrix) (point : QVector3D) : QVector4D :=
  P.mulVec (MV.mulVec ⟨point.x, point.y, point.z, 1⟩)

/-- The method `VasnecovPipeline::setColor`; the result is the pipeline after
the call and the calls of OpenGL it issued. -/
def setColor (p : VasnecovPipeline) (color : QColor) : VasnecovPipeline × List GLCall :=
  if color ≠ p.m_color then
    ({ p with m_color := color }, [GLCall.glColor4f color])
  else (p, [])

/-- The method `VasnecovPipeline::setAmbientColor`. -/
def setAmbientColor (p : VasnecovPipeline) (color : QColor) :
    VasnecovPipeline × List GLCall :=
  if color ≠ p.m_ambientColor then
    ({ p with m_ambientColor := color }, [GLCall.glLightModelfv color])
  else (p, [])

/-- The method `VasnecovPipeline::disableAllConcreteLamps`. The loop of the
strong variant counts `i` from `GL_LIGHT0` while `i < cfg_lampsCountMax`. -/
def disableAllConcreteLamps (cfg : Config) (p : VasnecovPipeline) (strong : Bool) :
    VasnecovPipeline × List GLCall :=
  if !strong then
    ({ p with m_activatedLamps := [] }, p.m_activatedLamps.map GLCall.glDisable)
  else
    (p, (List.range' GL_LIGHT0 (cfg.cfg_lampsCountMax - GL_LIGHT0)).map GLCall.glDisable)

/-- The matrix with ones on the diagonal. -/
def identity : GLmatrix :=
  fun i j => if i = j then 1 else 0

/-- A projection matrix whose last row is (0, 0, -1, 0), as for a perspective:
the clip `w` is minus the eye `z`. -/
def examplePerspective : GLmatrix :=
  fun i j => if i = 3 then (if j = 2 then -1 else 0) else if i = j then 1 else 0

/-- A pipeline with white colour, grey ambient colour, the light units
`GL_LIGHT0` and `GL_LIGHT0 + 2` activated, and a view of 800 by 600. -/
def examplePipeline : VasnecovPipeline :=
  ⟨⟨255, 255, 255, 255⟩, ⟨51, 51, 51, 255⟩, [GL_LIGHT0, GL_LIGHT0 + 2], examplePerspective,
    800, 600⟩

end Pipeline

end Vasnecov

/-! ## Lemmas on the registry and the removal loops -/

namespace Vasnecov
namespace Universe

theorem ElementBox_removeElements_raw (l : List Nat) (b : ElementBox) :
    (b.removeElements l).raw = b.raw.diff l := by
  induction l generalizing b with
  | nil => simp [ElementBox.removeElements]
  | cons a l ih =>
    have h : (b.removeElement a).raw = b.raw.erase a := by
      unfold ElementBox.removeElement
      split
      · rfl
      · rename_i h; simp [List.erase_of_not_mem h]
    have := ih (b.removeElement a)
    simp only [ElementBox.removeElements, List.foldl_cons] at this ⊢
    rw [this, h, List.diff_cons]

theorem ElementBox_removeElements_pure (l : List Nat) (b : ElementBox) :
    (b.removeElements l).pure = b.pure := by
  induction l generalizing b with
  | nil => simp [ElementBox.removeElements]
  | cons a l ih =>
    have h : (b.removeElement a).pure = b.pure := by
      unfold ElementBox.removeElement
      split <;> rfl
    have := ih (b.removeElement a)
    simp only [ElementBox.removeElements, List.foldl_cons] at this ⊢
    rw [this, h]

theorem alienLamp_fold (a : ElemRef) (L : List Nat) (acc : Universe × Bool) :
    (L.foldl (alienLampStep a) acc).1 =
      { acc.1 with lamps := fun q =>
          if q ∈ L then { acc.1.lamps q with alienMs := clearRef a (acc.1.lamps q).alienMs }
          else acc.1.lamps q } := by
  induction L generalizing acc with
  | nil => simp
  | cons l L ih =>
    rw [List.foldl_cons, ih]
    simp only [alienLampStep, setLamp, removeThisAlienMatrix, clearRef]
    congr 1
    funext q
    by_cases hq : q = l
    · subst hq
      by_cases h1 : q ∈ L <;> by_cases h2 : (acc.1.lamps q).alienMs = some a <;> simp [h1, h2]
    · by_cases h1 : q ∈ L <;> simp [h1, hq]

theorem alienProduct_fold (a : ElemRef) (L : List Nat) (acc : Universe × Bool) :
    (L.foldl (alienProductStep a) acc).1 =
      { acc.1 with products := fun q =>
          if q ∈ L then { acc.1.products q with alienMs := clearRef a (acc.1.products q).alienMs }
          else acc.1.products q } := by
  induction L generalizing acc with
  | nil => simp
  | cons l L ih =>
    rw [List.foldl_cons, ih]
    simp only [alienProductStep, setProduct, removeThisAlienMatrix, clearRef]
    congr 1
    funext q
    by_cases hq : q = l
    · subst hq
      by_cases h1 : q ∈ L <;> by_cases h2 : (acc.1.products q).alienMs = some a <;> simp [h1, h2]
    · by_cases h1 : q ∈ L <;> simp [h1, hq]

theorem alienFigure_fold (a : ElemRef) (L : List Nat) (acc : Universe × Bool) :
    (L.foldl (alienFigureStep a) acc).1 =
      { acc.1 with figures := fun q =>
          if q ∈ L then { acc.1.figures q with alienMs := clearRef a (acc.1.figures q).alienMs }
          else acc.1.figures q } := by
  induction L generalizing acc with
  | nil => simp
  | cons l L ih =>
    rw [List.foldl_cons, ih]
    simp only [alienFigureStep, setFigure, removeThisAlienMatrix, clearRef]
    congr 1
    funext q
    by_cases hq : q = l
    · subst hq
      by_cases h1 : q ∈ L <;> by_cases h2 : (acc.1.figures q).alienMs = some a <;> simp [h1, h2]
    · by_cases h1 : q ∈ L <;> simp [h1, hq]

theorem alienLabel_fold (a : ElemRef) (L : List Nat) (acc : Universe × Bool) :
    (L.foldl (alienLabelStep a) acc).1 =
      { acc.1 with labels := fun q =>
          if q ∈ L then { acc.1.labels q with alienMs := clearRef a (acc.1.labels q).alienMs }
          else acc.1.labels q } := by
  induction L generalizing acc with
  | nil => simp
  | cons l L ih =>
    rw [List.foldl_cons, ih]
    simp only [alienLabelStep, setLabel, removeThisAlienMatrix, clearRef]
    congr 1
    funext q
    by_cases hq : q = l
    · subst hq
      by_cases h1 : q ∈ L <;> by_cases h2 : (acc.1.labels q).alienMs = some a <;> simp [h1, h2]
    · by_cases h1 : q ∈ L <;> simp [h1, hq]

theorem designerRemoveThisAlienMatrix_eq (u : Universe) (a : ElemRef) :
    (u.designerRemoveThisAlienMatrix a).1 =
      { u with
        lamps := fun q =>
          if q ∈ u.m_lamps.raw then { u.lamps q with alienMs := clearRef a (u.lamps q).alienMs }
          else u.lamps q
        products := fun q =>
          if q ∈ u.m_products.raw then
            { u.products q with alienMs := clearRef a (u.products q).alienMs }
          else u.products q
        figures := fun q =>
          if q ∈ u.m_figures.raw then
            { u.figures q with alienMs := clearRef a (u.figures q).alienMs }
          else u.figures q
        labels := fun q =>
          if q ∈ u.m_labels.raw then { u.labels q with alienMs := clearRef a (u.labels q).alienMs }
          else u.labels q } := by
  unfold designerRemoveThisAlienMatrix
  simp only [alienLabel_fold, alienFigure_fold, alienProduct_fold, alienLamp_fold]

/-- Effect of the world loop: each registered world loses `e`. -/
theorem removeFromWorlds_fold (e : ElemRef) (L : List Nat) (u : Universe) :
    ∃ g : Nat → VasnecovWorld,
      L.foldl (fun (acc : Universe) w =>
        acc.setWorld w ((acc.worlds w).designerRemoveElement e)) u = { u with worlds := g } ∧
      (∀ w, (g w).elements.Sublist (u.worlds w).elements) ∧
      (∀ w x, x ≠ e → x ∈ (u.worlds w).elements → x ∈ (g w).elements) ∧
      (∀ w, w ∈ L → (u.worlds w).elements.Nodup → e ∉ (g w).elements) ∧
      (∀ w, w ∉ L → g w = u.worlds w) := by
  induction L generalizing u with
  | nil => exact ⟨u.worlds, rfl, fun _ => List.Sublist.refl _, fun _ _ _ h => h, by simp, fun _ _ => rfl⟩
  | cons l L ih =>
    obtain ⟨g, hg, h1, h2, h3, h4⟩ := ih (u.setWorld l ((u.worlds l).designerRemoveElement e))
    refine ⟨g, ?_, ?_, ?_, ?_, ?_⟩
    · rw [List.foldl_cons, hg]; rfl
    · intro w
      refine (h1 w).trans ?_
      by_cases hw : w = l
      · subst hw
        simp [setWorld, VasnecovWorld.designerRemoveElement, List.erase_sublist]
      · simp [setWorld, hw]
    · intro w x hx hmem
      apply h2 w x hx
      by_cases hw : w = l
      · subst hw
        simp only [setWorld, VasnecovWorld.designerRemoveElement, if_true]
        exact (List.mem_erase_of_ne hx).2 hmem
      · simpa [setWorld, hw] using hmem
    · intro w hw hnd habs
      have hsub := h1 w
      by_cases hwl : w = l
      · subst hwl
        have : e ∈ ((u.setWorld w ((u.worlds w).designerRemoveElement e)).worlds w).elements :=
          hsub.subset habs
        simp only [setWorld, VasnecovWorld.designerRemoveElement, if_true] at this
        exact (List.Nodup.not_mem_erase hnd) this
      · have hwL : w ∈ L := by
          rcases List.mem_cons.1 hw with h | h
          · exact absurd h hwl
          · exact h
        refine h3 w hwL ?_ habs
        simpa [setWorld, hwl] using hnd
    · intro w hw
      have hwl : w ≠ l := fun h => hw (by simp [h])
      have hwL : w ∉ L := fun h => hw (by simp [h])
      rw [h4 w hwL]
      simp [setWorld, hwl]

theorem sameFrame_refl (u : Universe) : SameFrame u u := by
  constructor <;> rfl

theorem sameFrame_trans {u v w : Universe} (h1 : SameFrame u v) (h2 : SameFrame v w) :
    SameFrame u w := by
  constructor
  all_goals first
    | exact h2.m_worlds.trans h1.m_worlds
    | exact h2.m_materials.trans h1.m_materials
    | exact h2.m_lamps.trans h1.m_lamps
    | exact h2.m_products.trans h1.m_products
    | exact h2.m_figures.trans h1.m_figures
    | exact h2.m_labels.trans h1.m_labels
    | exact h2.materialTexture.trans h1.materialTexture
    | exact h2.nextWorld.trans h1.nextWorld
    | exact h2.nextMaterial.trans h1.nextMaterial
    | exact h2.nextLamp.trans h1.nextLamp
    | exact h2.nextProduct.trans h1.nextProduct
    | exact h2.nextFigure.trans h1.nextFigure
    | exact h2.nextLabel.trans h1.nextLabel
    | exact h2.nextMesh.trans h1.nextMesh
    | exact h2.nextTexture.trans h1.nextTexture
    | exact h2.m_lampsCountMax.trans h1.m_lampsCountMax
    | exact h2.wasUpdated.trans h1.wasUpdated
    | exact h2.meshes.trans h1.meshes
    | exact h2.textures.trans h1.textures
    | exact h2.texturesForLoading.trans h1.texturesForLoading
    | exact h2.dirMeshes.trans h1.dirMeshes
    | exact h2.dirTextures.trans h1.dirTextures
    | exact h2.dirTexturesDPref.trans h1.dirTexturesDPref
    | exact h2.dirTexturesIPref.trans h1.dirTexturesIPref
    | exact h2.dirTexturesNPref.trans h1.dirTexturesNPref
    | exact h2.m_context.trans h1.m_context
    | exact h2.m_backgroundColor.trans h1.m_backgroundColor
    | exact h2.m_loading.trans h1.m_loading
    | exact h2.m_techRenderer.trans h1.m_techRenderer
    | exact h2.m_techVersion.trans h1.m_techVersion
    | exact h2.m_techSL.trans h1.m_techSL
    | exact h2.m_techExtensions.trans h1.m_techExtensions
    | exact h2.pipelineContext.trans h1.pipelineContext
    | exact h2.pipelineWasSomethingUpdated.trans h1.pipelineWasSomethingUpdated
    | exact h2.mtxLocked.trans h1.mtxLocked

/-- What one pass of the detaching loop of `removeProduct` does for the
deleted product `d`. -/
theorem detachProduct_step (u : Universe) (d : Nat) :
    ∃ g : Nat → VasnecovWorld,
      (∀ w, (g w).elements.Sublist (u.worlds w).elements) ∧
      (∀ w x, x ≠ ElemRef.product d → x ∈ (u.worlds w).elements → x ∈ (g w).elements) ∧
      (∀ w, w ∈ u.m_worlds.raw → (u.worlds w).elements.Nodup →
        ElemRef.product d ∉ (g w).elements) ∧
      (∀ w, w ∉ u.m_worlds.raw → g w = u.worlds w) ∧
      u.detachProduct d =
        { u with
          worlds := g
          lamps := fun q =>
            if q ∈ u.m_lamps.raw then
              { u.lamps q with alienMs := clearRef (ElemRef.product d) (u.lamps q).alienMs }
            else u.lamps q
          products := fun q =>
            if q ∈ u.m_products.raw then
              { name := (u.products q).name, isPart := (u.products q).isPart,
                mesh := (u.products q).mesh, material := (u.products q).material,
                parent := (u.products q).parent, level := (u.products q).level,
                children := if (u.products d).parent = some q then (u.products q).children.erase d
                            else (u.products q).children,
                M1 := (u.products q).M1, Ms := (u.products q).Ms,
                alienMs := clearRef (ElemRef.product d) (u.products q).alienMs }
            else
              { u.products q with
                children := if (u.products d).parent = some q then (u.products q).children.erase d
                            else (u.products q).children }
          figures := fun q =>
            if q ∈ u.m_figures.raw then
              { u.figures q with alienMs := clearRef (ElemRef.product d) (u.figures q).alienMs }
            else u.figures q
          labels := fun q =>
            if q ∈ u.m_labels.raw then
              { u.labels q with alienMs := clearRef (ElemRef.product d) (u.labels q).alienMs }
            else u.labels q } := by
  obtain ⟨g, hg, h1, h2, h3, h4⟩ := removeFromWorlds_fold (ElemRef.product d) u.m_worlds.raw u
  refine ⟨g, h1, h2, h3, h4, ?_⟩
  unfold detachProduct removeFromWorlds VasnecovProduct.designerExportingMatrix
  rw [hg, designerRemoveThisAlienMatrix_eq]
  unfold removeFromParent
  cases hp : (u.products d).parent with
  | none =>
    simp only [hp]
    congr 1
  | some q0 =>
    simp only [hp, setProduct, VasnecovProduct.designerRemoveChild]
    congr 1
    funext q
    have hne : ∀ q, q ≠ q0 → ¬ (q0 = q) := fun q h h2 => h h2.symm
    by_cases hq : q ∈ u.m_products.raw <;> by_cases hq0 : q = q0 <;>
      simp [hq, hq0, hne]

theorem clearRefs_nil (cur : Option ElemRef) : clearRefs [] cur = cur := by
  simp [clearRefs]

theorem clearRefs_cons (d : Nat) (D : List Nat) (cur : Option ElemRef) :
    clearRefs D (clearRef (ElemRef.product d) cur) = clearRefs (d :: D) cur := by
  unfold clearRefs clearRef
  by_cases h : cur = some (ElemRef.product d)
  · simp [h]
  · by_cases h2 : ∃ d ∈ D, cur = some (ElemRef.product d)
    · have : ∃ x ∈ d :: D, cur = some (ElemRef.product x) := by
        obtain ⟨x, hx, hc⟩ := h2
        exact ⟨x, List.mem_cons_of_mem _ hx, hc⟩
      simp only [h, if_false, h2, if_true, this]
    · have : ¬ ∃ x ∈ d :: D, cur = some (ElemRef.product x) := by
        rintro ⟨x, hx, hc⟩
        rcases List.mem_cons.1 hx with rfl | hx
        · exact h hc
        · exact h2 ⟨x, hx, hc⟩
      simp only [h, if_false, h2, this]

theorem products_parent_of_static {u v : Universe} {q : Nat}
    (h : { v.products q with children := [], alienMs := none } =
      ({ u.products q with children := [], alienMs := none } : VasnecovProduct)) :
    (v.products q).parent = (u.products q).parent ∧
    (v.products q).level = (u.products q).level ∧
    (v.products q).material = (u.products q).material ∧
    (v.products q).M1 = (u.products q).M1 ∧
    (v.products q).Ms = (u.products q).Ms ∧
    (v.products q).mesh = (u.products q).mesh := by
  have := congrArg VasnecovProduct.parent h
  have := congrArg VasnecovProduct.level h
  have := congrArg VasnecovProduct.material h
  have := congrArg VasnecovProduct.M1 h
  have := congrArg VasnecovProduct.Ms h
  have := congrArg VasnecovProduct.mesh h
  simp_all

theorem detach_fold (D : List Nat) (u : Universe) : DetachSpec D u (D.foldl detachProduct u) := by
  induction D generalizing u with
  | nil =>
    refine ⟨sameFrame_refl u, fun _ => rfl, fun _ => List.Sublist.refl _, fun _ _ h _ => h,
      by simp, ?_, ?_, ?_, ?_, fun _ => List.Sublist.refl _, fun _ _ _ h => h, by simp,
      fun _ _ => rfl⟩
    all_goals intro q; simp [clearRefs_nil]
  | cons d D ih =>
    obtain ⟨g, g1, g2, g3, g4, hstep⟩ := detachProduct_step u d
    have ih := ih (u.detachProduct d)
    rw [List.foldl_cons]
    generalize D.foldl detachProduct (u.detachProduct d) = v at ih ⊢
    rw [hstep] at ih
    have hpar : ∀ q, (v.products q).parent = (u.products q).parent := by
      intro q
      have := (products_parent_of_static (ih.prodStatic q)).1
      rw [this]
      by_cases hq : q ∈ u.m_products.raw <;> simp [hq]
    have hpar1 : ∀ q, ((u.detachProduct d).products q).parent = (u.products q).parent := by
      intro q
      rw [hstep]
      by_cases hq : q ∈ u.m_products.raw <;> simp [hq]
    refine ⟨?_, ?_, ?_, ?_, ?_, ?_, ?_, ?_, ?_, ?_, ?_, ?_, ?_⟩
    · have := ih.frame
      constructor
      all_goals first
        | exact this.m_worlds | exact this.m_materials | exact this.m_lamps
        | exact this.m_products | exact this.m_figures | exact this.m_labels
        | exact this.materialTexture | exact this.nextWorld | exact this.nextMaterial
        | exact this.nextLamp | exact this.nextProduct | exact this.nextFigure
        | exact this.nextLabel | exact this.nextMesh | exact this.nextTexture
        | exact this.m_lampsCountMax | exact this.wasUpdated | exact this.meshes
        | exact this.textures | exact this.texturesForLoading | exact this.dirMeshes
        | exact this.dirTextures | exact this.dirTexturesDPref | exact this.dirTexturesIPref
        | exact this.dirTexturesNPref | exact this.m_context | exact this.m_backgroundColor
        | exact this.m_loading | exact this.m_techRenderer | exact this.m_techVersion
        | exact this.m_techSL | exact this.m_techExtensions | exact this.pipelineContext
        | exact this.pipelineWasSomethingUpdated | exact this.mtxLocked
    · intro q
      rw [ih.prodStatic q]
      by_cases hq : q ∈ u.m_products.raw <;> simp [hq]
    · intro q
      refine (ih.childSub q).trans ?_
      by_cases hq : q ∈ u.m_products.raw <;> by_cases hp : (u.products d).parent = some q <;>
        simp [hq, hp, List.erase_sublist]
    · intro q c hc hn
      apply ih.childKeep q c
      · have hcd : ¬ (c = d ∧ (u.products d).parent = some q) := by
          rintro ⟨rfl, h⟩
          exact hn ⟨List.mem_cons_self _ _, h⟩
        by_cases hq : q ∈ u.m_products.raw <;> by_cases hp : (u.products d).parent = some q <;>
          simp only [hq, hp, if_true, if_false]
        all_goals first
          | exact hc
          | exact (List.mem_erase_of_ne (fun h => hcd ⟨h, hp⟩)).2 hc
      · rintro ⟨hcD, hcp⟩
        apply hn
        refine ⟨List.mem_cons_of_mem _ hcD, ?_⟩
        by_cases hq : c ∈ u.m_products.raw <;> simpa [hq] using hcp
    · intro q c hcD hcp hnd hmem
      have hnd1 : ((u.detachProduct d).products q).children.Nodup := by
        rw [hstep]
        by_cases hq : q ∈ u.m_products.raw <;> by_cases hp : (u.products d).parent = some q <;>
          simp only [hq, hp, if_true, if_false]
        all_goals first
          | exact hnd
          | exact hnd.erase _
      rw [hstep] at hnd1
      rcases List.mem_cons.1 hcD with rfl | hcD
      · have hsub := (ih.childSub q).subset hmem
        by_cases hq : q ∈ u.m_products.raw <;>
          simp only [hq, hcp, if_true, if_false] at hsub <;>
          exact (List.Nodup.not_mem_erase hnd) hsub
      · refine ih.childGone q c hcD ?_ hnd1 hmem
        by_cases hq : c ∈ u.m_products.raw <;> simpa [hq] using hcp
    · intro q
      rw [ih.prodAlien q]
      by_cases hq : q ∈ u.m_products.raw <;> simp [hq, clearRefs_cons]
    · intro q
      rw [ih.lampEq q]
      by_cases hq : q ∈ u.m_lamps.raw <;> simp [hq, clearRefs_cons]
    · intro q
      rw [ih.figureEq q]
      by_cases hq : q ∈ u.m_figures.raw <;> simp [hq, clearRefs_cons]
    · intro q
      rw [ih.labelEq q]
      by_cases hq : q ∈ u.m_labels.raw <;> simp [hq, clearRefs_cons]
    · intro w
      exact (ih.worldSub w).trans (g1 w)
    · intro w x hx hmem
      have hx1 : x ≠ ElemRef.product d := fun h => hx (by simp [h])
      have hx2 : x ∉ D.map ElemRef.product := fun h => hx (by
        simp only [List.map_cons, List.mem_cons]; exact Or.inr h)
      exact ih.worldKeep w x hx2 (g2 w x hx1 hmem)
    · intro w c hw hcD hnd hmem
      rcases List.mem_cons.1 hcD with rfl | hcD
      · exact g3 w hw hnd ((ih.worldSub w).subset hmem)
      · exact ih.worldGone w c hw hcD (hnd.sublist (g1 w)) hmem
    · intro w hw
      rw [ih.worldOther w hw]
      exact g4 w hw

theorem allChildrenAux_succ (products : Nat → VasnecovProduct) (fuel : Nat) (p : Nat) :
    allChildrenAux products (fuel + 1) p =
      (products p).children ++
        (products p).children.flatMap (fun c => allChildrenAux products fuel c) := rfl

/-- Every product listed by `designerAllChildren` is registered and was
allocated after the product it descends from. -/
theorem allChildrenAux_sound {cfg : Config} {u : Universe} (h : WF cfg u) (fuel : Nat) :
    ∀ p, p ∈ u.m_products.raw → ∀ x ∈ allChildrenAux u.products fuel p,
      x ∈ u.m_products.raw ∧ p < x := by
  induction fuel with
  | zero => intro p _ x hx; simp [allChildrenAux] at hx
  | succ fuel ih =>
    intro p hp x hx
    rw [allChildrenAux_succ, List.mem_append, List.mem_flatMap] at hx
    rcases hx with hx | ⟨c, hc, hx⟩
    · have := h.childrenOk p hp x hx
      exact ⟨this.1, this.2.2⟩
    · have hc2 := h.childrenOk p hp c hc
      have := ih c hc2.1 x hx
      exact ⟨this.1, lt_trans hc2.2.2 this.2⟩

/-- With enough fuel the list of `designerAllChildren` is closed under taking
children. -/
theorem allChildrenAux_closed {cfg : Config} {u : Universe} (h : WF cfg u) (fuel : Nat) :
    ∀ p, p ∈ u.m_products.raw → u.nextProduct ≤ fuel + p →
      ∀ c ∈ allChildrenAux u.products fuel p, ∀ x ∈ (u.products c).children,
        x ∈ allChildrenAux u.products fuel p := by
  induction fuel with
  | zero => intro p _ _ c hc; simp [allChildrenAux] at hc
  | succ fuel ih =>
    intro p hp hfuel c hc x hx
    rw [allChildrenAux_succ, List.mem_append, List.mem_flatMap] at hc
    rw [allChildrenAux_succ, List.mem_append, List.mem_flatMap]
    rcases hc with hc | ⟨c1, hc1, hc⟩
    · right
      refine ⟨c, hc, ?_⟩
      have hc2 := h.childrenOk p hp c hc
      have hx2 := h.childrenOk c hc2.1 x hx
      have hxa : x < u.nextProduct := h.prodAlloc x hx2.1
      have h1 : p < c := hc2.2.2
      have h2 : c < x := hx2.2.2
      obtain ⟨f, rfl⟩ : ∃ f, fuel = f + 1 := ⟨fuel - 1, by omega⟩
      rw [allChildrenAux_succ, List.mem_append]
      exact Or.inl hx
    · right
      have hc2 := h.childrenOk p hp c1 hc1
      have h1 : p < c1 := hc2.2.2
      refine ⟨c1, hc1, ih c1 hc2.1 (by omega) c hc x hx⟩

theorem designerAllChildren_sound {cfg : Config} {u : Universe} (h : WF cfg u) (p : Nat)
    (hp : p ∈ u.m_products.raw) :
    ∀ x ∈ u.designerAllChildren p, x ∈ u.m_products.raw ∧ p < x :=
  allChildrenAux_sound h u.nextProduct p hp

theorem designerAllChildren_children {cfg : Config} {u : Universe} (h : WF cfg u) (p : Nat)
    (hp : p ∈ u.m_products.raw) :
    ∀ x ∈ (u.products p).children, x ∈ u.designerAllChildren p := by
  intro x hx
  have hpa : p < u.nextProduct := h.prodAlloc p hp
  unfold designerAllChildren
  obtain ⟨f, hf⟩ : ∃ f, u.nextProduct = f + 1 := ⟨u.nextProduct - 1, by omega⟩
  rw [hf, allChildrenAux_succ, List.mem_append]
  exact Or.inl hx

theorem designerAllChildren_closed {cfg : Config} {u : Universe} (h : WF cfg u) (p : Nat)
    (hp : p ∈ u.m_products.raw) :
    ∀ c ∈ u.designerAllChildren p, ∀ x ∈ (u.products c).children,
      x ∈ u.designerAllChildren p :=
  allChildrenAux_closed h u.nextProduct p hp (Nat.le_add_right _ _)

/-- The deleted set of `removeProduct` is closed under taking children. -/
theorem delProd_closed {cfg : Config} {u : Universe} (h : WF cfg u) (p : Nat)
    (hp : p ∈ u.m_products.raw) (c x : Nat)
    (hc : c ∈ u.designerAllChildren p ++ [p]) (hx : x ∈ (u.products c).children) :
    x ∈ u.designerAllChildren p ++ [p] := by
  rw [List.mem_append] at hc ⊢
  rcases hc with hc | hc
  · exact Or.inl (designerAllChildren_closed h p hp c hc x hx)
  · simp only [List.mem_singleton] at hc
    subst hc
    exact Or.inl (designerAllChildren_children h c hp x hx)

theorem removeProduct_registered (u : Universe) (p : Nat) (hp : p ∈ u.m_products.raw) :
    u.removeProduct (some p) =
      ((u.delProd p).foldl detachProduct (u.afterRegistryRemoval p), true) := by
  simp [removeProduct, ElementBox.findRawElement, hp, afterRegistryRemoval, delProd]

theorem removeProduct_unregistered (u : Universe) (p : Nat) (hp : p ∉ u.m_products.raw) :
    u.removeProduct (some p) = (u, false) := by
  simp [removeProduct, ElementBox.findRawElement, hp]

theorem removeProduct_spec (u : Universe) (p : Nat) (hp : p ∈ u.m_products.raw) :
    (u.removeProduct (some p)).2 = true ∧
    DetachSpec (u.delProd p) (u.afterRegistryRemoval p) (u.removeProduct (some p)).1 := by
  rw [removeProduct_registered u p hp]
  exact ⟨rfl, detach_fold _ _⟩

theorem afterRegistryRemoval_products_raw (u : Universe) (p : Nat) :
    (u.afterRegistryRemoval p).m_products.raw = u.m_products.raw.diff (u.delProd p) := by
  simp [afterRegistryRemoval, ElementBox_removeElements_raw]

theorem removeProduct_products_raw (u : Universe) (p : Nat) (hp : p ∈ u.m_products.raw) :
    (u.removeProduct (some p)).1.m_products.raw = u.m_products.raw.diff (u.delProd p) := by
  have h := (removeProduct_spec u p hp).2.frame.m_products
  rw [h, afterRegistryRemoval_products_raw]

theorem mem_diff_of_nodup {l₁ l₂ : List Nat} (h : l₁.Nodup) (a : Nat) :
    a ∈ l₁.diff l₂ ↔ a ∈ l₁ ∧ a ∉ l₂ :=
  h.mem_diff_iff

theorem removeProduct_WF {cfg : Config} {u : Universe} (h : WF cfg u) (product : Option Nat) :
    WF cfg (u.removeProduct product).1 := by
  cases product with
  | none => exact h
  | some p =>
    by_cases hp : p ∈ u.m_products.raw
    swap
    · rw [removeProduct_unregistered u p hp]; exact h
    obtain ⟨-, hs⟩ := removeProduct_spec u p hp
    have hraw := removeProduct_products_raw u p hp
    generalize (u.removeProduct (some p)).1 = v at hs hraw
    have hmem : ∀ a, a ∈ v.m_products.raw ↔ a ∈ u.m_products.raw ∧ a ∉ u.delProd p := by
      intro a; rw [hraw]; exact h.prodNodup.mem_diff_iff
    have hst : ∀ q, (v.products q).parent = (u.products q).parent ∧
        (v.products q).level = (u.products q).level := by
      intro q
      have := products_parent_of_static (hs.prodStatic q)
      exact ⟨this.1, this.2.1⟩
    have hworlds : v.m_worlds = u.m_worlds := hs.frame.m_worlds
    have hlamps : v.m_lamps = u.m_lamps := hs.frame.m_lamps
    have hchildSub : ∀ q, (v.products q).children.Sublist (u.products q).children :=
      hs.childSub
    have hworldSub : ∀ w, (v.worlds w).elements.Sublist (u.worlds w).elements := hs.worldSub
    constructor
    · rw [hraw]; exact h.prodNodup.sublist (List.diff_sublist _ _)
    · intro a ha
      rw [hs.frame.nextProduct]
      exact h.prodAlloc a ((hmem a).1 ha).1
    · intro l hl
      rw [hs.frame.nextLamp]
      rw [hlamps] at hl
      exact h.lampAlloc l hl
    · intro w hw
      rw [hs.frame.nextWorld]
      rw [hworlds] at hw
      exact h.worldAlloc w hw
    · intro w hw
      rw [hworlds] at hw
      exact (h.worldElemNodup w hw).sublist (hworldSub w)
    · intro w hw a ha
      rw [hworlds] at hw
      rw [hmem]
      refine ⟨h.worldElemReg w hw a ((hworldSub w).subset ha), fun hD => ?_⟩
      exact hs.worldGone w a hw hD (h.worldElemNodup w hw) ha
    · intro w hw l hl
      rw [hworlds] at hw
      rw [hlamps]
      exact h.worldLampReg w hw l ((hworldSub w).subset hl)
    · intro a ha
      rw [(hst a).2]
      exact h.levelMax a ((hmem a).1 ha).1
    · intro a ha hpar
      rw [(hst a).1] at hpar
      rw [(hst a).2]
      exact h.levelRoot a ((hmem a).1 ha).1 hpar
    · intro a ha q hpar
      rw [(hst a).1] at hpar
      rw [(hst a).2, (hst q).2]
      have ha' := (hmem a).1 ha
      have hq := h.levelChild a ha'.1 q hpar
      refine ⟨(hmem q).2 ⟨hq.1, fun hqD => ?_⟩, hq.2⟩
      exact ha'.2 (delProd_closed h p hp q a hqD (h.childOfParent a ha'.1 q hpar))
    · intro a ha q hpar
      rw [(hst a).1] at hpar
      have ha' := (hmem a).1 ha
      exact hs.childKeep q a (h.childOfParent a ha'.1 q hpar) (fun hc => ha'.2 hc.1)
    · intro q hq c hc
      have hq' := (hmem q).1 hq
      have hc0 := (hchildSub q).subset hc
      have hok := h.childrenOk q hq'.1 c hc0
      rw [(hst c).1]
      refine ⟨(hmem c).2 ⟨hok.1, fun hcD => ?_⟩, hok.2.1, hok.2.2⟩
      exact hs.childGone q c hcD hok.2.1 (h.childrenNodup q hq'.1) hc
    · intro q hq
      exact (h.childrenNodup q ((hmem q).1 hq).1).sublist (hchildSub q)

/-- Explicit form of the state built by the common tail of `addAssembly` and
`addPart`, for a fresh address that is not registered and is not the parent. -/
theorem insertProduct_eq (u : Universe) (w : Nat) (node : VasnecovProduct)
    (hfresh : u.nextProduct ∉ u.m_products.raw)
    (hpar : node.parent ≠ some u.nextProduct) :
    u.insertProduct w node =
      ({ u with
          nextProduct := u.nextProduct + 1
          m_products := { u.m_products with raw := u.m_products.raw ++ [u.nextProduct],
                                            wasUpdated := true }
          products := u.productsAfterInsert node
          worlds := fun x =>
            if x = w then { u.worlds w with
              elements := (u.worlds w).elements ++ [ElemRef.product u.nextProduct] }
            else u.worlds x },
       some u.nextProduct) := by
  unfold insertProduct productsAfterInsert
  cases hp : node.parent with
  | none =>
    simp only [setProduct, setWorld, ElementBox.addElement, hfresh, if_false,
      VasnecovWorld.designerAddElement, Bool.false_and, Prod.mk.injEq, and_true]
    congr 1
  | some q =>
    have hq : q ≠ u.nextProduct := fun h => hpar (by rw [hp, h])
    simp only [setProduct, setWorld, ElementBox.addElement, hfresh, if_false,
      VasnecovWorld.designerAddElement, Bool.false_and, Prod.mk.injEq, and_true]
    congr 1
    · funext x
      by_cases hx : x = q
      · subst hx; simp [hq]
      · have : ¬ (some x = some q) := fun h => hx (Option.some.inj h)
        have hq2 : ¬ (u.nextProduct = q) := fun h => hq h.symm
        by_cases hxn : x = u.nextProduct <;> simp [hx, this, hxn, hq, hq2]

theorem productsAfterInsert_old (u : Universe) (node : VasnecovProduct) (a : Nat)
    (ha : a ≠ u.nextProduct) :
    (u.productsAfterInsert node a).parent = (u.products a).parent ∧
    (u.productsAfterInsert node a).level = (u.products a).level ∧
    (u.productsAfterInsert node a).material = (u.products a).material ∧
    (u.productsAfterInsert node a).alienMs = (u.products a).alienMs ∧
    (u.productsAfterInsert node a).children =
      if some a = node.parent then (u.products a).children ++ [u.nextProduct]
      else (u.products a).children := by
  unfold productsAfterInsert
  by_cases hap : some a = node.parent
  · simp [hap, VasnecovProduct.designerAddChild]
  · simp [hap, ha]

theorem productsAfterInsert_new (u : Universe) (node : VasnecovProduct)
    (hpar : node.parent ≠ some u.nextProduct) :
    (u.productsAfterInsert node u.nextProduct).parent = node.parent ∧
    (u.productsAfterInsert node u.nextProduct).level = node.level ∧
    (u.productsAfterInsert node u.nextProduct).children = node.children ∧
    (u.productsAfterInsert node u.nextProduct).material = node.material ∧
    (u.productsAfterInsert node u.nextProduct).alienMs = node.alienMs ∧
    (∀ q, node.parent = some q →
      (u.productsAfterInsert node u.nextProduct).M1 = (u.products q).Ms) := by
  unfold productsAfterInsert
  have : ¬ (some u.nextProduct = node.parent) := fun h => hpar h.symm
  simp only [this, if_false, if_true]
  cases hp : node.parent with
  | none => simp [hp]
  | some q => simp [VasnecovProduct.designerSetMatrixM1, hp]

/-- The common tail of `addAssembly` and `addPart` keeps the state well-formed
when the world is registered and the level of the new node follows from its
parent, which is listed in that world. -/
theorem insertProduct_WF {cfg : Config} {u : Universe} (h : WF cfg u) (w : Nat)
    (node : VasnecovProduct) (hw : w ∈ u.m_worlds.raw) (hch : node.children = [])
    (hlev : node.level ≤ cfg.cfg_elementMaxLevel)
    (hroot : node.parent = none → node.level = 0)
    (hchild : ∀ q, node.parent = some q →
      ElemRef.product q ∈ (u.worlds w).elements ∧ node.level = (u.products q).level + 1) :
    WF cfg (u.insertProduct w node).1 := by
  have hfresh : u.nextProduct ∉ u.m_products.raw := fun hm =>
    Nat.lt_irrefl _ (h.prodAlloc _ hm)
  have hparReg : ∀ q, node.parent = some q → q ∈ u.m_products.raw := fun q hq =>
    h.worldElemReg w hw q (hchild q hq).1
  have hpar : node.parent ≠ some u.nextProduct := fun hq => hfresh (hparReg _ hq)
  rw [insertProduct_eq u w node hfresh hpar]
  have hne : ∀ a, a ∈ u.m_products.raw → a ≠ u.nextProduct := fun a ha hc => hfresh (hc ▸ ha)
  have hold := fun a (ha : a ∈ u.m_products.raw) =>
    productsAfterInsert_old u node a (hne a ha)
  obtain ⟨hnp, hnl, hnc, -, -, -⟩ := productsAfterInsert_new u node hpar
  have hdisj : ∀ {α : Type} (l : List α) (x : α), x ∉ l → l.Disjoint [x] := by
    intro α l x hx y hy hy2
    rw [List.mem_singleton] at hy2
    exact hx (hy2 ▸ hy)
  constructor
  · show (u.m_products.raw ++ [u.nextProduct]).Nodup
    exact List.Nodup.append h.prodNodup (List.nodup_singleton _) (hdisj _ _ hfresh)
  · intro a ha
    show a < u.nextProduct + 1
    replace ha : a ∈ u.m_products.raw ++ [u.nextProduct] := ha
    simp only [List.mem_append, List.mem_singleton] at ha
    rcases ha with ha | rfl
    · exact Nat.lt_succ_of_lt (h.prodAlloc a ha)
    · exact Nat.lt_succ_self _
  · exact h.lampAlloc
  · exact h.worldAlloc
  · intro w' hw'
    show (if w' = w then ({ u.worlds w with
              elements := (u.worlds w).elements ++ [ElemRef.product u.nextProduct] } :
              VasnecovWorld)
            else u.worlds w').elements.Nodup
    by_cases hww : w' = w
    · subst hww
      simp only [if_true]
      refine List.Nodup.append (h.worldElemNodup w' hw') (List.nodup_singleton _)
        (hdisj _ _ ?_)
      exact fun hm => hfresh (h.worldElemReg w' hw' _ hm)
    · simp only [hww, if_false]
      exact h.worldElemNodup w' hw'
  · intro w' hw' a ha
    show a ∈ u.m_products.raw ++ [u.nextProduct]
    replace ha : ElemRef.product a ∈ (if w' = w then ({ u.worlds w with
              elements := (u.worlds w).elements ++ [ElemRef.product u.nextProduct] } :
              VasnecovWorld)
            else u.worlds w').elements := ha
    simp only [List.mem_append, List.mem_singleton]
    by_cases hww : w' = w
    · subst hww
      simp only [if_true, List.mem_append, List.mem_singleton] at ha
      rcases ha with ha | ha
      · exact Or.inl (h.worldElemReg w' hw' a ha)
      · exact Or.inr (ElemRef.product.inj ha)
    · simp only [hww, if_false] at ha
      exact Or.inl (h.worldElemReg w' hw' a ha)
  · intro w' hw' l hl
    show l ∈ u.m_lamps.raw
    replace hl : ElemRef.lamp l ∈ (if w' = w then ({ u.worlds w with
              elements := (u.worlds w).elements ++ [ElemRef.product u.nextProduct] } :
              VasnecovWorld)
            else u.worlds w').elements := hl
    by_cases hww : w' = w
    · subst hww
      simp only [if_true, List.mem_append, List.mem_singleton] at hl
      rcases hl with hl | hl
      · exact h.worldLampReg w' hw' l hl
      · cases hl
    · simp only [hww, if_false] at hl
      exact h.worldLampReg w' hw' l hl
  · intro a ha
    show (u.productsAfterInsert node a).level ≤ _
    replace ha : a ∈ u.m_products.raw ++ [u.nextProduct] := ha
    simp only [List.mem_append, List.mem_singleton] at ha
    rcases ha with ha | rfl
    · rw [(hold a ha).2.1]; exact h.levelMax a ha
    · rw [hnl]; exact hlev
  · intro a ha
    show (u.productsAfterInsert node a).parent = none → (u.productsAfterInsert node a).level = 0
    replace ha : a ∈ u.m_products.raw ++ [u.nextProduct] := ha
    simp only [List.mem_append, List.mem_singleton] at ha
    rcases ha with ha | rfl
    · rw [(hold a ha).2.1, (hold a ha).1]; exact h.levelRoot a ha
    · rw [hnl, hnp]; exact hroot
  · intro a ha q
    show (u.productsAfterInsert node a).parent = some q →
      q ∈ u.m_products.raw ++ [u.nextProduct] ∧
      (u.productsAfterInsert node a).level = (u.productsAfterInsert node q).level + 1
    replace ha : a ∈ u.m_products.raw ++ [u.nextProduct] := ha
    simp only [List.mem_append, List.mem_singleton] at ha ⊢
    rcases ha with ha | rfl
    · rw [(hold a ha).2.1, (hold a ha).1]
      intro hpq
      have := h.levelChild a ha q hpq
      rw [(hold q this.1).2.1]
      exact ⟨Or.inl this.1, this.2⟩
    · rw [hnl, hnp]
      intro hpq
      rw [(hold q (hparReg q hpq)).2.1]
      exact ⟨Or.inl (hparReg q hpq), (hchild q hpq).2⟩
  · intro a ha q
    show (u.productsAfterInsert node a).parent = some q →
      a ∈ (u.productsAfterInsert node q).children
    replace ha : a ∈ u.m_products.raw ++ [u.nextProduct] := ha
    simp only [List.mem_append, List.mem_singleton] at ha
    rcases ha with ha | rfl
    · rw [(hold a ha).1]
      intro hpq
      have hq := (h.levelChild a ha q hpq).1
      rw [(hold q hq).2.2.2.2]
      have := h.childOfParent a ha q hpq
      split
      · exact List.mem_append_left _ this
      · exact this
    · rw [hnp]
      intro hpq
      rw [(hold q (hparReg q hpq)).2.2.2.2]
      simp [hpq]
  · intro q hq c
    show c ∈ (u.productsAfterInsert node q).children →
      c ∈ u.m_products.raw ++ [u.nextProduct] ∧
      (u.productsAfterInsert node c).parent = some q ∧ q < c
    replace hq : q ∈ u.m_products.raw ++ [u.nextProduct] := hq
    simp only [List.mem_append, List.mem_singleton] at hq ⊢
    rcases hq with hq | rfl
    · rw [(hold q hq).2.2.2.2]
      have hbase : c ∈ (u.products q).children →
          (c ∈ u.m_products.raw ∨ c = u.nextProduct) ∧
          (u.productsAfterInsert node c).parent = some q ∧ q < c := by
        intro hc
        have := h.childrenOk q hq c hc
        rw [(hold c this.1).1]
        exact ⟨Or.inl this.1, this.2.1, this.2.2⟩
      split
      · rename_i hqp
        intro hc
        rcases List.mem_append.1 hc with hc | hc
        · exact hbase hc
        · rw [List.mem_singleton] at hc
          subst hc
          rw [hnp]
          exact ⟨Or.inr rfl, hqp.symm, h.prodAlloc q hq⟩
      · exact hbase
    · rw [hnc, hch]
      intro hc; cases hc
  · intro q hq
    show (u.productsAfterInsert node q).children.Nodup
    replace hq : q ∈ u.m_products.raw ++ [u.nextProduct] := hq
    simp only [List.mem_append, List.mem_singleton] at hq
    rcases hq with hq | rfl
    · rw [(hold q hq).2.2.2.2]
      split
      · refine List.Nodup.append (h.childrenNodup q hq) (List.nodup_singleton _) (hdisj _ _ ?_)
        exact fun hm => hfresh (h.childrenOk q hq _ hm).1
      · exact h.childrenNodup q hq
    · rw [hnc, hch]; exact List.nodup_nil

/-- Well-formedness only reads the product, lamp and world registries, the
product and world stores and their allocation counters. -/
theorem WF_of_same {cfg : Config} {u v : Universe} (h : WF cfg u)
    (h1 : v.m_products.raw = u.m_products.raw) (h2 : v.m_lamps.raw = u.m_lamps.raw)
    (h3 : v.m_worlds.raw = u.m_worlds.raw) (h4 : v.products = u.products)
    (h5 : v.worlds = u.worlds) (h6 : v.nextProduct = u.nextProduct)
    (h7 : v.nextLamp = u.nextLamp) (h8 : v.nextWorld = u.nextWorld) : WF cfg v := by
  constructor
  all_goals simp only [h1, h2, h3, h4, h5, h6, h7, h8]
  · exact h.prodNodup
  · exact h.prodAlloc
  · exact h.lampAlloc
  · exact h.worldAlloc
  · exact h.worldElemNodup
  · exact h.worldElemReg
  · exact h.worldLampReg
  · exact h.levelMax
  · exact h.levelRoot
  · exact h.levelChild
  · exact h.childOfParent
  · exact h.childrenOk
  · exact h.childrenNodup

theorem childLevel_some {cfg : Config} {u : Universe} {w : Nat} {parent : Option Nat}
    {level : Nat} (h : childLevel cfg u w parent = some level) :
    (parent = none ∧ level = 0) ∨
    (∃ q, parent = some q ∧ ElemRef.product q ∈ (u.worlds w).elements ∧
      level = ((u.products q).level + 1) % GLuintRange ∧ level ≤ cfg.cfg_elementMaxLevel) := by
  unfold childLevel at h
  cases parent with
  | none => simp at h; exact Or.inl ⟨rfl, h.symm⟩
  | some q =>
    right
    simp only [VasnecovWorld.designerFindElement, decide_eq_true_eq] at h
    split at h
    · split at h
      · cases h
      · rename_i hin hle
        cases h
        exact ⟨q, rfl, hin, rfl, Nat.le_of_not_gt hle⟩
    · cases h

theorem empty_WF (cfg : Config) (dirs : List Char × List Char × List Char × List Char × List Char) :
    WF cfg (Universe.empty cfg dirs) := by
  constructor <;> simp [Universe.empty]

theorem addWorld_WF {cfg : Config} {u : Universe} (h : WF cfg u) (posX posY width height : Int) :
    WF cfg (u.addWorld cfg posX posY width height).1 := by
  unfold addWorld
  split
  swap
  · exact h
  have hfresh : u.nextWorld ∉ u.m_worlds.raw := fun hm => Nat.lt_irrefl _ (h.worldAlloc _ hm)
  simp only [setWorld, ElementBox.addElement, hfresh, if_false]
  constructor
  · exact h.prodNodup
  · exact h.prodAlloc
  · exact h.lampAlloc
  · intro w hw
    replace hw : w ∈ u.m_worlds.raw ++ [u.nextWorld] := hw
    show w < u.nextWorld + 1
    simp only [List.mem_append, List.mem_singleton] at hw
    rcases hw with hw | rfl
    · exact Nat.lt_succ_of_lt (h.worldAlloc w hw)
    · exact Nat.lt_succ_self _
  · intro w hw
    replace hw : w ∈ u.m_worlds.raw ++ [u.nextWorld] := hw
    simp only [List.mem_append, List.mem_singleton] at hw
    show (if w = u.nextWorld then (⟨posX, posY, width, height, []⟩ : VasnecovWorld)
      else u.worlds w).elements.Nodup
    rcases hw with hw | rfl
    · have : w ≠ u.nextWorld := fun hc => hfresh (hc ▸ hw)
      simp only [this, if_false]; exact h.worldElemNodup w hw
    · simp
  · intro w hw p hp
    replace hw : w ∈ u.m_worlds.raw ++ [u.nextWorld] := hw
    simp only [List.mem_append, List.mem_singleton] at hw
    replace hp : ElemRef.product p ∈ (if w = u.nextWorld then
      (⟨posX, posY, width, height, []⟩ : VasnecovWorld) else u.worlds w).elements := hp
    rcases hw with hw | rfl
    · have : w ≠ u.nextWorld := fun hc => hfresh (hc ▸ hw)
      simp only [this, if_false] at hp; exact h.worldElemReg w hw p hp
    · simp at hp
  · intro w hw p hp
    replace hw : w ∈ u.m_worlds.raw ++ [u.nextWorld] := hw
    simp only [List.mem_append, List.mem_singleton] at hw
    replace hp : ElemRef.lamp p ∈ (if w = u.nextWorld then
      (⟨posX, posY, width, height, []⟩ : VasnecovWorld) else u.worlds w).elements := hp
    rcases hw with hw | rfl
    · have : w ≠ u.nextWorld := fun hc => hfresh (hc ▸ hw)
      simp only [this, if_false] at hp; exact h.worldLampReg w hw p hp
    · simp at hp
  · exact h.levelMax
  · exact h.levelRoot
  · exact h.levelChild
  · exact h.childOfParent
  · exact h.childrenOk
  · exact h.childrenNodup

theorem addMaterial_WF {cfg : Config} {u : Universe} (h : WF cfg u) :
    WF cfg u.addMaterial.1 := by
  unfold addMaterial
  simp only
  split
  · exact WF_of_same h rfl rfl rfl rfl rfl rfl rfl rfl
  · exact h

/-- Adding a reference to a registered element to a registered world that
does not list it yet keeps the state well-formed. -/
theorem setWorld_append_WF {cfg : Config} {u : Universe} (h : WF cfg u) (w : Nat) (e : ElemRef)
    (he : e ∉ (u.worlds w).elements)
    (hp : ∀ p, e = ElemRef.product p → p ∈ u.m_products.raw)
    (hl : ∀ l, e = ElemRef.lamp l → l ∈ u.m_lamps.raw) :
    WF cfg (u.setWorld w { u.worlds w with elements := (u.worlds w).elements ++ [e] }) := by
  constructor
  · exact h.prodNodup
  · exact h.prodAlloc
  · exact h.lampAlloc
  · exact h.worldAlloc
  · intro w' hw'
    show (if w' = w then ({ u.worlds w with elements := (u.worlds w).elements ++ [e] } :
      VasnecovWorld) else u.worlds w').elements.Nodup
    by_cases hww : w' = w
    · subst hww
      simp only [if_true]
      refine List.Nodup.append (h.worldElemNodup w' hw') (List.nodup_singleton _) ?_
      intro y hy hy2
      rw [List.mem_singleton] at hy2
      exact he (hy2 ▸ hy)
    · simp only [hww, if_false]; exact h.worldElemNodup w' hw'
  · intro w' hw' p hp'
    replace hp' : ElemRef.product p ∈ (if w' = w then
      ({ u.worlds w with elements := (u.worlds w).elements ++ [e] } : VasnecovWorld)
      else u.worlds w').elements := hp'
    by_cases hww : w' = w
    · subst hww
      simp only [if_true, List.mem_append, List.mem_singleton] at hp'
      rcases hp' with hp' | hp'
      · exact h.worldElemReg w' hw' p hp'
      · exact hp p hp'.symm
    · simp only [hww, if_false] at hp'; exact h.worldElemReg w' hw' p hp'
  · intro w' hw' l hl'
    replace hl' : ElemRef.lamp l ∈ (if w' = w then
      ({ u.worlds w with elements := (u.worlds w).elements ++ [e] } : VasnecovWorld)
      else u.worlds w').elements := hl'
    by_cases hww : w' = w
    · subst hww
      simp only [if_true, List.mem_append, List.mem_singleton] at hl'
      rcases hl' with hl' | hl'
      · exact h.worldLampReg w' hw' l hl'
      · exact hl l hl'.symm
    · simp only [hww, if_false] at hl'; exact h.worldLampReg w' hw' l hl'
  · exact h.levelMax
  · exact h.levelRoot
  · exact h.levelChild
  · exact h.childOfParent
  · exact h.childrenOk
  · exact h.childrenNodup

theorem referProductToWorld_WF {cfg : Config} {u : Universe} (h : WF cfg u)
    (product world : Option Nat) : WF cfg (u.referProductToWorld product world).1 := by
  unfold referProductToWorld
  split
  swap
  · exact h
  rename_i p w
  by_cases hp : p ∈ u.m_products.raw
  swap
  · simp [ElementBox.findRawElement, hp]; exact h
  by_cases hw : w ∈ u.m_worlds.raw
  swap
  · simp [ElementBox.findRawElement, hp, hw]; exact h
  by_cases he : ElemRef.product p ∈ (u.worlds w).elements
  · simp [ElementBox.findRawElement, hp, hw, VasnecovWorld.designerAddElement, he]; exact h
  · simp only [ElementBox.findRawElement, hp, hw, VasnecovWorld.designerAddElement, he,
      decide_True, decide_False, Bool.not_true, Bool.and_false, if_false, if_true]
    simp only [Bool.false_eq_true, if_false]
    refine setWorld_append_WF h w _ he ?_ ?_
    · intro p' hp'; cases hp'; exact hp
    · intro l hl; cases hl

theorem referLampToWorld_WF {cfg : Config} {u : Universe} (h : WF cfg u)
    (lamp world : Option Nat) : WF cfg (u.referLampToWorld lamp world).1 := by
  unfold referLampToWorld
  split
  swap
  · exact h
  rename_i p w
  by_cases hp : p ∈ u.m_lamps.raw
  swap
  · simp [ElementBox.findRawElement, hp]; exact h
  by_cases hw : w ∈ u.m_worlds.raw
  swap
  · simp [ElementBox.findRawElement, hp, hw]; exact h
  by_cases he : ElemRef.lamp p ∈ (u.worlds w).elements
  · simp [ElementBox.findRawElement, hp, hw, VasnecovWorld.designerAddElement, he]; exact h
  · simp only [ElementBox.findRawElement, hp, hw, VasnecovWorld.designerAddElement, he,
      decide_True, decide_False, Bool.not_true, Bool.and_false, if_false, if_true]
    simp only [Bool.false_eq_true, if_false]
    refine setWorld_append_WF h w _ he ?_ ?_
    · intro p' hp'; cases hp'
    · intro l hl; cases hl; exact hp

/-- A mesh load only touches the mesh cache and the allocation counter of
meshes. -/
theorem loadMeshFile_frame (cfg : Config) (fs : FileSystem) (u : Universe)
    (fileName : List Char) :
    ∃ m n, (loadMeshFile cfg fs u fileName).1 = { u with meshes := m, nextMesh := n } := by
  unfold loadMeshFile
  simp only
  split
  · split
    · split
      · unfold addMesh
        simp only
        split
        · exact ⟨u.meshes, u.nextMesh, rfl⟩
        · exact ⟨_, _, rfl⟩
      · exact ⟨u.meshes, u.nextMesh, rfl⟩
    · exact ⟨u.meshes, u.nextMesh, rfl⟩
  · exact ⟨u.meshes, u.nextMesh, rfl⟩

theorem addAssembly_WF {cfg : Config} (hcfg : cfg.cfg_elementMaxLevel + 1 < GLuintRange)
    {u : Universe} (h : WF cfg u) (name : String) (world parent : Option Nat) :
    WF cfg (u.addAssembly cfg name world parent).1 := by
  unfold addAssembly
  cases world with
  | none => exact h
  | some w =>
    simp only
    by_cases hw : w ∈ u.m_worlds.raw
    swap
    · simp [ElementBox.findRawElement, hw]; exact h
    simp only [ElementBox.findRawElement, hw, decide_True, Bool.not_true, Bool.false_eq_true,
      if_false]
    cases hl : childLevel cfg u w parent with
    | none => exact h
    | some level =>
      simp only
      rcases childLevel_some hl with ⟨hp, hlev⟩ | ⟨q, hp, hin, hlev, hle⟩
      · subst hp hlev
        exact insertProduct_WF h w _ hw rfl (Nat.zero_le _) (fun _ => rfl)
          (fun q hq => by cases hq)
      · subst hp
        have hq := h.levelMax q (h.worldElemReg w hw q hin)
        have hmod : ((u.products q).level + 1) % GLuintRange = (u.products q).level + 1 :=
          Nat.mod_eq_of_lt (by omega)
        refine insertProduct_WF h w _ hw rfl hle (fun hc => by cases hc) ?_
        intro q' hq'
        cases hq'
        exact ⟨hin, by simp only [VasnecovProduct.create]; rw [hlev, hmod]⟩

theorem addPartTail_WF {cfg : Config} (hcfg : cfg.cfg_elementMaxLevel + 1 < GLuintRange)
    {u : Universe} (h : WF cfg u) (name : String) (w mesh : Nat)
    (material parent : Option Nat) :
    WF cfg (u.addPartTail cfg name w mesh material parent).1 := by
  unfold addPartTail
  by_cases hw : w ∈ u.m_worlds.raw
  swap
  · simp [ElementBox.findRawElement, hw]; exact h
  simp only [ElementBox.findRawElement, hw, decide_True, Bool.not_true, Bool.false_eq_true,
    if_false]
  split
  · exact h
  cases hl : childLevel cfg u w parent with
  | none => exact h
  | some level =>
    simp only
    rcases childLevel_some hl with ⟨hp, hlev⟩ | ⟨q, hp, hin, hlev, hle⟩
    · subst hp hlev
      exact insertProduct_WF h w _ hw rfl (Nat.zero_le _) (fun _ => rfl)
        (fun q hq => by cases hq)
    · subst hp
      have hq := h.levelMax q (h.worldElemReg w hw q hin)
      have hmod : ((u.products q).level + 1) % GLuintRange = (u.products q).level + 1 :=
        Nat.mod_eq_of_lt (by omega)
      refine insertProduct_WF h w _ hw rfl hle (fun hc => by cases hc) ?_
      intro q' hq'
      cases hq'
      exact ⟨hin, by simp only [VasnecovProduct.create]; rw [hlev, hmod]⟩

theorem findOrLoadMesh_frame (cfg : Config) (fs : FileSystem) (u : Universe)
    (meshName : List Char) :
    ∃ m n, (findOrLoadMesh cfg fs u meshName).1 = { u with meshes := m, nextMesh := n } := by
  unfold findOrLoadMesh
  simp only
  split
  · exact ⟨u.meshes, u.nextMesh, rfl⟩
  · split <;> exact loadMeshFile_frame cfg fs u _

theorem addPart_WF {cfg : Config} (hcfg : cfg.cfg_elementMaxLevel + 1 < GLuintRange)
    (fs : FileSystem) {u : Universe} (h : WF cfg u) (name : String) (world : Option Nat)
    (meshName : List Char) (material parent : Option Nat) :
    WF cfg (u.addPart cfg fs name world meshName material parent).1 := by
  unfold addPart
  cases world with
  | none => exact h
  | some w =>
    simp only
    split
    swap
    · exact h
    obtain ⟨m, n, hload⟩ := findOrLoadMesh_frame cfg fs u meshName
    have hWF : WF cfg (findOrLoadMesh cfg fs u meshName).1 := by
      rw [hload]
      exact WF_of_same h rfl rfl rfl rfl rfl rfl rfl rfl
    split
    · exact hWF
    · exact addPartTail_WF hcfg hWF _ _ _ _ _

theorem addLamp_WF {cfg : Config} {u : Universe} (h : WF cfg u) (name : String)
    (world : Option Nat) (type : Nat) : WF cfg (u.addLamp name world type).1 := by
  unfold addLamp
  cases world with
  | none => exact h
  | some w =>
    simp only
    by_cases hw : w ∈ u.m_worlds.raw
    swap
    · simp [ElementBox.findRawElement, hw]; exact h
    have hfresh : u.nextLamp ∉ u.m_lamps.raw := fun hm => Nat.lt_irrefl _ (h.lampAlloc _ hm)
    simp only [ElementBox.findRawElement, hw, decide_True, Bool.not_true, Bool.false_eq_true,
      if_false, ElementBox.addElement, setLamp, hfresh, if_true, setWorld,
      VasnecovWorld.designerAddElement, Bool.false_and]
    constructor
    · exact h.prodNodup
    · exact h.prodAlloc
    · intro l hl
      replace hl : l ∈ u.m_lamps.raw ++ [u.nextLamp] := hl
      show l < u.nextLamp + 1
      simp only [List.mem_append, List.mem_singleton] at hl
      rcases hl with hl | rfl
      · exact Nat.lt_succ_of_lt (h.lampAlloc l hl)
      · exact Nat.lt_succ_self _
    · exact h.worldAlloc
    · intro w' hw'
      show (if w' = w then ({ u.worlds w with
          elements := (u.worlds w).elements ++ [ElemRef.lamp u.nextLamp] } : VasnecovWorld)
        else u.worlds w').elements.Nodup
      by_cases hww : w' = w
      · subst hww
        simp only [if_true]
        refine List.Nodup.append (h.worldElemNodup w' hw') (List.nodup_singleton _) ?_
        intro y hy hy2
        rw [List.mem_singleton] at hy2
        subst hy2
        exact hfresh (h.worldLampReg w' hw' _ hy)
      · simp only [hww, if_false]; exact h.worldElemNodup w' hw'
    · intro w' hw' p hp
      replace hp : ElemRef.product p ∈ (if w' = w then ({ u.worlds w with
          elements := (u.worlds w).elements ++ [ElemRef.lamp u.nextLamp] } : VasnecovWorld)
        else u.worlds w').elements := hp
      by_cases hww : w' = w
      · subst hww
        simp only [if_true, List.mem_append, List.mem_singleton] at hp
        rcases hp with hp | hp
        · exact h.worldElemReg w' hw' p hp
        · cases hp
      · simp only [hww, if_false] at hp; exact h.worldElemReg w' hw' p hp
    · intro w' hw' l hl
      replace hl : ElemRef.lamp l ∈ (if w' = w then ({ u.worlds w with
          elements := (u.worlds w).elements ++ [ElemRef.lamp u.nextLamp] } : VasnecovWorld)
        else u.worlds w').elements := hl
      show l ∈ u.m_lamps.raw ++ [u.nextLamp]
      simp only [List.mem_append, List.mem_singleton]
      by_cases hww : w' = w
      · subst hww
        simp only [if_true, List.mem_append, List.mem_singleton] at hl
        rcases hl with hl | hl
        · exact Or.inl (h.worldLampReg w' hw' l hl)
        · exact Or.inr (ElemRef.lamp.inj hl)
      · simp only [hww, if_false] at hl; exact Or.inl (h.worldLampReg w' hw' l hl)
    · exact h.levelMax
    · exact h.levelRoot
    · exact h.levelChild
    · exact h.childOfParent
    · exact h.childrenOk
    · exact h.childrenNodup

theorem length_filter_mem_of_nodup {raw A : List Nat} {p : Nat} (hnd : raw.Nodup)
    (hp : p ∈ raw) (hself : p ∉ A) :
    (raw.filter (fun x => decide (x ∈ A ++ [p]))).length =
      (A.dedup.filter (fun x => decide (x ∈ raw))).length + 1 := by
  have h1 : (raw.filter (fun x => decide (x ∈ A ++ [p]))).Nodup := hnd.filter _
  have h2 : (p :: A.dedup.filter (fun x => decide (x ∈ raw))).Nodup := by
    refine List.nodup_cons.2 ⟨?_, (List.nodup_dedup A).filter _⟩
    intro hmem
    exact hself (List.mem_dedup.1 (List.mem_filter.1 hmem).1)
  have hperm : (raw.filter (fun x => decide (x ∈ A ++ [p]))).Perm
      (p :: A.dedup.filter (fun x => decide (x ∈ raw))) := by
    rw [List.perm_ext_iff_of_nodup h1 h2]
    intro a
    simp only [List.mem_filter, List.mem_append, List.mem_singleton, decide_eq_true_eq,
      List.mem_cons, List.mem_dedup, List.not_mem_nil, or_false]
    constructor
    · rintro ⟨ha, hA | rfl⟩
      · exact Or.inr ⟨hA, ha⟩
      · exact Or.inl rfl
    · rintro (rfl | ⟨hA, ha⟩)
      · exact ⟨hp, Or.inr rfl⟩
      · exact ⟨ha, Or.inl hA⟩
  rw [hperm.length_eq, List.length_cons]

theorem sameScene_refl (u : Universe) : SameScene u u := by
  constructor <;> rfl

theorem sameScene_trans {u v w : Universe} (h1 : SameScene u v) (h2 : SameScene v w) :
    SameScene u w := by
  constructor
  · exact h2.m_products.trans h1.m_products
  · exact h2.m_lamps.trans h1.m_lamps
  · exact h2.m_worlds.trans h1.m_worlds
  · exact h2.products.trans h1.products
  · exact h2.lamps.trans h1.lamps
  · exact h2.worlds.trans h1.worlds
  · exact h2.nextProduct.trans h1.nextProduct
  · exact h2.nextLamp.trans h1.nextLamp
  · exact h2.nextWorld.trans h1.nextWorld

theorem sameScene_WF {cfg : Config} {u v : Universe} (hs : SameScene u v) (h : WF cfg u) :
    WF cfg v :=
  WF_of_same h (by rw [hs.m_products]) (by rw [hs.m_lamps]) (by rw [hs.m_worlds])
    hs.products hs.worlds hs.nextProduct hs.nextLamp hs.nextWorld

theorem addTexture_sameScene (u : Universe) (texture : Option Nat) (fileId : List Char) :
    SameScene u (u.addTexture texture fileId).1 := by
  unfold addTexture
  split
  · split
    · exact sameScene_refl u
    · constructor <;> rfl
  · exact sameScene_refl u

theorem loadTextureFile_sameScene (cfg : Config) (fs : FileSystem) (u : Universe)
    (fileName : List Char) : SameScene u (loadTextureFile cfg fs u fileName).1 := by
  unfold loadTextureFile
  have hnext : SameScene u { u with nextTexture := u.nextTexture + 1 } := by
    constructor <;> rfl
  have hadd := fun fileId => sameScene_trans hnext
    (addTexture_sameScene { u with nextTexture := u.nextTexture + 1 } (some u.nextTexture) fileId)
  simp only
  repeat' split
  all_goals first
    | exact sameScene_refl u
    | exact hadd _

theorem insertMaterial_sameScene (u : Universe) (texture : Option Nat) :
    SameScene u (u.insertMaterial texture).1 := by
  unfold insertMaterial
  simp only
  split
  · constructor <;> rfl
  · exact sameScene_refl u

theorem addMaterialTexture_sameScene (cfg : Config) (fs : FileSystem) (u : Universe)
    (textureName : List Char) : SameScene u (addMaterialTexture cfg fs u textureName).1 := by
  unfold addMaterialTexture
  have hl := loadTextureFile_sameScene cfg fs u (correctFileId textureName cfg.cfg_textureFormat)
  simp only
  repeat' split
  all_goals first
    | exact insertMaterial_sameScene u _
    | exact hl
    | exact sameScene_trans hl (insertMaterial_sameScene _ _)

theorem addPartTexture_WF {cfg : Config} (hcfg : cfg.cfg_elementMaxLevel + 1 < GLuintRange)
    (fs : FileSystem) {u : Universe} (h : WF cfg u) (name : String) (world : Option Nat)
    (meshName textureName : List Char) (parent : Option Nat) :
    WF cfg (addPartTexture cfg fs u name world meshName textureName parent).1 := by
  unfold addPartTexture
  split
  · exact addPart_WF hcfg fs (sameScene_WF (addMaterialTexture_sameScene cfg fs u _) h) _ _ _ _ _
  · exact addPart_WF hcfg fs h _ _ _ _ _

theorem step_WF {cfg : Config} (hcfg : cfg.cfg_elementMaxLevel + 1 < GLuintRange)
    {u : Universe} (h : WF cfg u) (op : Op) : WF cfg (step cfg u op) := by
  cases op with
  | addWorld posX posY width height => exact addWorld_WF h _ _ _ _
  | addLamp name world type => exact addLamp_WF h _ _ _
  | referLampToWorld lamp world => exact referLampToWorld_WF h _ _
  | addMaterial => exact addMaterial_WF h
  | addMaterialTexture fs textureName => exact sameScene_WF (addMaterialTexture_sameScene cfg fs u _) h
  | addAssembly name world parent => exact addAssembly_WF hcfg h _ _ _
  | addPart fs name world meshName material parent => exact addPart_WF hcfg fs h _ _ _ _ _
  | addPartTexture fs name world meshName textureName parent =>
    exact addPartTexture_WF hcfg fs h _ _ _ _ _
  | referProductToWorld product world => exact referProductToWorld_WF h _ _
  | removeProduct product => exact removeProduct_WF h _

theorem run_WF {cfg : Config} (hcfg : cfg.cfg_elementMaxLevel + 1 < GLuintRange)
    (ops : List Op) {u : Universe} (h : WF cfg u) : WF cfg (run cfg u ops) := by
  induction ops generalizing u with
  | nil => exact h
  | cons op ops ih => exact ih (step_WF hcfg h op)

theorem exampleConfig_ok : exampleConfig.cfg_elementMaxLevel + 1 < GLuintRange := by decide

theorem sharedMaterialScene_WF : WF exampleConfig sharedMaterialScene :=
  run_WF exampleConfig_ok _ (empty_WF _ _)

theorem clearRefs_spec (D : List Nat) (cur : Option ElemRef) :
    (∀ d ∈ D, clearRefs D cur ≠ some (ElemRef.product d)) ∧
    ((∀ d ∈ D, cur ≠ some (ElemRef.product d)) → clearRefs D cur = cur) := by
  unfold clearRefs
  by_cases h : ∃ d ∈ D, cur = some (ElemRef.product d)
  · rw [if_pos h]
    constructor
    · intro d _ hc
      cases hc
    · intro hn
      obtain ⟨d, hd, hc⟩ := h
      exact absurd hc (hn d hd)
  · rw [if_neg h]
    constructor
    · intro d hd hc
      exact h ⟨d, hd, hc⟩
    · intro _
      rfl

theorem removeProduct_true_registered (u : Universe) (p : Nat)
    (hret : (u.removeProduct (some p)).2 = true) : p ∈ u.m_products.raw := by
  by_contra hp
  rw [removeProduct_unregistered u p hp] at hret
  cases hret

/-- In a well-formed state `designerAllChildren` lists every descendant of a
registered product: the recursion does not run out of fuel. -/
theorem designerAllChildren_complete {cfg : Config} {u : Universe} (h : WF cfg u) (p : Nat)
    (hp : p ∈ u.m_products.raw) (d : Nat) (hd : IsDescendant u p d) :
    d ∈ u.designerAllChildren p := by
  induction hd with
  | child hc => exact designerAllChildren_children h p hp _ hc
  | step _ hx ih => exact designerAllChildren_closed h p hp _ ih _ hx

/-- Every product listed by `designerAllChildren` is a descendant. -/
theorem allChildrenAux_isDescendant (u : Universe) (fuel : Nat) :
    ∀ p d, d ∈ allChildrenAux u.products fuel p → IsDescendant u p d := by
  induction fuel with
  | zero => intro p d hd; simp [allChildrenAux] at hd
  | succ fuel ih =>
    intro p d hd
    rw [allChildrenAux_succ, List.mem_append, List.mem_flatMap] at hd
    rcases hd with hd | ⟨c, hc, hd⟩
    · exact IsDescendant.child hd
    · have hcd := ih c d hd
      clear hd
      induction hcd with
      | child hx => exact IsDescendant.step (IsDescendant.child hc) hx
      | step _ hx ih2 => exact IsDescendant.step ih2 hx

theorem insertProduct_result (u : Universe) (w : Nat) (node : VasnecovProduct) :
    (u.insertProduct w node).2 = some u.nextProduct ∧
    ((u.insertProduct w node).1.products u.nextProduct).level = node.level := by
  unfold insertProduct
  refine ⟨rfl, ?_⟩
  cases hp : node.parent with
  | none => simp [setProduct, setWorld]
  | some q =>
    by_cases hq : u.nextProduct = q
    · simp [setProduct, setWorld, hq, VasnecovProduct.designerAddChild,
        VasnecovProduct.designerSetMatrixM1]
    · simp [setProduct, setWorld, hq, VasnecovProduct.designerAddChild,
        VasnecovProduct.designerSetMatrixM1]

theorem childLevel_parent (cfg : Config) (u : Universe) (w q : Nat)
    (hq : ElemRef.product q ∈ (u.worlds w).elements) :
    childLevel cfg u w (some q) =
      if ((u.products q).level + 1) % GLuintRange > cfg.cfg_elementMaxLevel then none
      else some (((u.products q).level + 1) % GLuintRange) := by
  simp [childLevel, VasnecovWorld.designerFindElement, hq]

theorem deepScene_WF : WF exampleConfig deepScene :=
  run_WF exampleConfig_ok _ (empty_WF _ _)

/-- The lamp loop of `renderUpdateData` started at index `b`: lamps outside the
list keep their data, and the lamps of a duplicate-free list hold
`b`, `b + 1`, ... afterwards. -/
theorem reindex_fold (L : List Nat) (u : Universe) (b : Nat) (hnd : L.Nodup)
    (hlen : b + L.length ≤ GLuintRange) :
    (∀ l, l ∉ L →
      ((L.foldl (fun (acc : Universe × Nat) l =>
          (acc.1.setLamp l ((acc.1.lamps l).renderSetIndex acc.2), (acc.2 + 1) % GLuintRange))
        (u, b)).1.lamps l) = u.lamps l) ∧
    L.map (fun l =>
      ((L.foldl (fun (acc : Universe × Nat) l =>
          (acc.1.setLamp l ((acc.1.lamps l).renderSetIndex acc.2), (acc.2 + 1) % GLuintRange))
        (u, b)).1.lamps l).index) = List.range' b L.length ∧
    (L.foldl (fun (acc : Universe × Nat) l =>
          (acc.1.setLamp l ((acc.1.lamps l).renderSetIndex acc.2), (acc.2 + 1) % GLuintRange))
        (u, b)).1.m_lamps = u.m_lamps := by
  induction L generalizing u b with
  | nil => simp
  | cons l L ih =>
    have hl : l ∉ L := (List.nodup_cons.1 hnd).1
    have hnd' : L.Nodup := (List.nodup_cons.1 hnd).2
    simp only [List.foldl_cons, List.length_cons, List.map_cons, List.range'_succ]
    cases L with
    | nil =>
      simp only [List.foldl_nil, List.map_nil, List.length_nil, List.range'_zero]
      refine ⟨?_, ?_, rfl⟩
      · intro x hx
        have : x ≠ l := fun hc => hx (by simp [hc])
        simp [setLamp, this]
      · simp [setLamp, VasnecovLamp.renderSetIndex]
    | cons l2 L2 =>
      have hb : (b + 1) % GLuintRange = b + 1 := by
        apply Nat.mod_eq_of_lt
        simp only [List.length_cons] at hlen
        omega
      rw [hb]
      have hlen' : b + 1 + (l2 :: L2).length ≤ GLuintRange := by
        simp only [List.length_cons] at hlen ⊢
        omega
      obtain ⟨ih1, ih2, ih3⟩ := ih (u.setLamp l ((u.lamps l).renderSetIndex b)) (b + 1) hnd' hlen'
      refine ⟨?_, ?_, ?_⟩
      · intro x hx
        have hxl : x ≠ l := fun hc => hx (by simp [hc])
        have hxL : x ∉ l2 :: L2 := fun hc => hx (List.mem_cons_of_mem _ hc)
        rw [ih1 x hxL]
        simp [setLamp, hxl]
      · rw [ih1 l hl, ih2]
        simp [setLamp, VasnecovLamp.renderSetIndex]
      · rw [ih3]; rfl

theorem reindexLamps_spec (u : Universe) (hnd : u.m_lamps.pure.Nodup)
    (hlen : GL_LIGHT0 + u.m_lamps.pure.length ≤ GLuintRange) :
    u.reindexLamps.m_lamps = u.m_lamps ∧
    u.reindexLamps.pureLampIndices = List.range' GL_LIGHT0 u.m_lamps.pure.length := by
  obtain ⟨-, h2, h3⟩ := reindex_fold u.m_lamps.pure u GL_LIGHT0 hnd hlen
  refine ⟨h3, ?_⟩
  unfold pureLampIndices
  rw [show u.reindexLamps.m_lamps = u.m_lamps from h3]
  exact h2

theorem updateSettings_lamps (u : Universe) :
    u.updateSettings.m_lamps = u.m_lamps ∧ u.updateSettings.lamps = u.lamps ∧
    u.updateSettings.synchronizeAll.2 = u.synchronizeAll.2 ∧
    u.updateSettings.mtxLocked = u.mtxLocked :=
  ⟨rfl, rfl, rfl, rfl⟩

/-- One pass of `renderUpdateData` that acquires the data lock: when
`synchronizeAll` reports a change the lamps of the committed list hold
`GL_LIGHT0`, `GL_LIGHT0 + 1`, ... in list order afterwards, and when it
reports none the committed lamp list and every lamp stay as they were. -/
theorem renderUpdateData_reindexes_on_change (u : Universe) (hlock : u.mtxLocked = false)
    (hraw : u.m_lamps.raw.Nodup) (hpure : u.m_lamps.pure.Nodup)
    (hlenr : GL_LIGHT0 + u.m_lamps.raw.length ≤ GLuintRange)
    (hlenp : GL_LIGHT0 + u.m_lamps.pure.length ≤ GLuintRange) :
    (u.synchronizeAll.2 = true →
      u.renderUpdateData.1.pureLampIndices =
        List.range' GL_LIGHT0 u.renderUpdateData.1.m_lamps.pure.length) ∧
    (u.synchronizeAll.2 = false →
      u.renderUpdateData.1.m_lamps.pure = u.m_lamps.pure ∧
      u.renderUpdateData.1.lamps = u.lamps) := by
  have hsame : ∀ v : Universe, v.m_lamps = u.m_lamps → v.lamps = u.lamps →
      v.synchronizeAll.2 = u.synchronizeAll.2 →
      (u.synchronizeAll.2 = true →
        (if v.synchronizeAll.2 = true then v.synchronizeAll.1.reindexLamps
          else v.synchronizeAll.1).pureLampIndices =
          List.range' GL_LIGHT0
            (if v.synchronizeAll.2 = true then v.synchronizeAll.1.reindexLamps
              else v.synchronizeAll.1).m_lamps.pure.length) ∧
      (u.synchronizeAll.2 = false →
        (if v.synchronizeAll.2 = true then v.synchronizeAll.1.reindexLamps
          else v.synchronizeAll.1).m_lamps.pure = u.m_lamps.pure ∧
        (if v.synchronizeAll.2 = true then v.synchronizeAll.1.reindexLamps
          else v.synchronizeAll.1).lamps = u.lamps) := by
    intro v hv1 hv2 hv3
    have hsl : v.synchronizeAll.1.lamps = u.lamps := hv2
    have hsp : v.synchronizeAll.1.m_lamps.pure = u.m_lamps.raw ∨
        v.synchronizeAll.1.m_lamps.pure = u.m_lamps.pure := by
      have hbox : v.synchronizeAll.1.m_lamps = (u.m_lamps.synchronize).1 := by
        rw [← hv1]; rfl
      rw [hbox]
      cases hf : u.m_lamps.wasUpdated
      · right; simp [ElementBox.synchronize, hf]
      · left; simp [ElementBox.synchronize, hf]
    constructor
    · intro hch
      rw [hv3, hch]
      simp only [if_true]
      have hnd : v.synchronizeAll.1.m_lamps.pure.Nodup := by
        rcases hsp with h | h <;> rw [h] <;> assumption
      have hlen : GL_LIGHT0 + v.synchronizeAll.1.m_lamps.pure.length ≤ GLuintRange := by
        rcases hsp with h | h <;> rw [h] <;> assumption
      obtain ⟨h1, h2⟩ := reindexLamps_spec v.synchronizeAll.1 hnd hlen
      rw [h2, h1]
    · intro hch
      rw [hv3, hch]
      simp only [Bool.false_eq_true, if_false]
      refine ⟨?_, hsl⟩
      have hbox : v.synchronizeAll.1.m_lamps = (u.m_lamps.synchronize).1 := by
        rw [← hv1]; rfl
      rw [hbox]
      have hf : u.m_lamps.wasUpdated = false := by
        have : u.synchronizeAll.2 = false := hch
        simp only [synchronizeAll, ElementBox.synchronize] at this
        by_contra hc
        simp only [Bool.not_eq_false] at hc
        simp [hc] at this
      simp [ElementBox.synchronize, hf]
  have hmain := hsame (if u.wasUpdated ≠ [] then u.updateSettings else u)
    (by split <;> rfl) (by split <;> rfl) (by split <;> rfl)
  have hout : u.renderUpdateData.1.m_lamps =
      (if (if u.wasUpdated ≠ [] then u.updateSettings else u).synchronizeAll.2 = true then
        (if u.wasUpdated ≠ [] then u.updateSettings else u).synchronizeAll.1.reindexLamps
        else (if u.wasUpdated ≠ [] then u.updateSettings else u).synchronizeAll.1).m_lamps ∧
      u.renderUpdateData.1.lamps =
      (if (if u.wasUpdated ≠ [] then u.updateSettings else u).synchronizeAll.2 = true then
        (if u.wasUpdated ≠ [] then u.updateSettings else u).synchronizeAll.1.reindexLamps
        else (if u.wasUpdated ≠ [] then u.updateSettings else u).synchronizeAll.1).lamps := by
    unfold renderUpdateData
    simp only [hlock, Bool.false_eq_true, if_false]
    generalize (if u.wasUpdated ≠ [] then u.updateSettings else u) = v
    cases hs : v.synchronizeAll.2
    · simp only [Bool.false_eq_true, if_false, if_true, ne_eq, not_true_eq_false]
      repeat' split
      all_goals exact ⟨rfl, rfl⟩
    · simp only [if_true, ne_eq, one_ne_zero, not_false_eq_true]
      repeat' split
      all_goals exact ⟨rfl, rfl⟩
  have hidx : u.renderUpdateData.1.pureLampIndices =
      (if (if u.wasUpdated ≠ [] then u.updateSettings else u).synchronizeAll.2 = true then
        (if u.wasUpdated ≠ [] then u.updateSettings else u).synchronizeAll.1.reindexLamps
        else (if u.wasUpdated ≠ [] then u.updateSettings else u).synchronizeAll.1).pureLampIndices := by
    unfold pureLampIndices
    rw [hout.1, hout.2]
  rw [hidx, hout.1, hout.2]
  exact hmain

/-! ## Lemmas on the resource caches -/

theorem land_pred_eq_zero_iff (w : Nat) (hw : 1 ≤ w) :
    w &&& (w - 1) = 0 ↔ ∃ k, w = 2 ^ k := by
  induction w using Nat.strong_induction_on with
  | _ w ih =>
    have hzero : ∀ a : Nat, a = 0 ↔ a / 2 = 0 ∧ ¬ (a % 2 = 1) := by
      intro a; omega
    rw [hzero (w &&& (w - 1)), Nat.and_div_two, Nat.and_mod_two_eq_one]
    rcases Nat.even_or_odd' w with ⟨m, hm | hm⟩
    · -- w = 2 * m
      have hm1 : 1 ≤ m := by omega
      have h1 : w / 2 = m := by omega
      have h2 : (w - 1) / 2 = m - 1 := by omega
      have h3 : ¬ (w % 2 = 1 ∧ (w - 1) % 2 = 1) := by omega
      rw [h1, h2]
      simp only [h3, not_false_eq_true, and_true]
      rw [ih m (by omega) hm1]
      constructor
      · rintro ⟨k, hk⟩
        exact ⟨k + 1, by rw [hm, hk, pow_succ]; ring⟩
      · rintro ⟨k, hk⟩
        cases k with
        | zero => simp at hk; omega
        | succ k =>
          refine ⟨k, ?_⟩
          rw [pow_succ] at hk
          omega
    · -- w = 2 * m + 1
      have h1 : w / 2 = m := by omega
      have h2 : (w - 1) / 2 = m := by omega
      have h3 : ¬ (w % 2 = 1 ∧ (w - 1) % 2 = 1) := by omega
      rw [h1, h2, Nat.and_self]
      simp only [h3, not_false_eq_true, and_true]
      constructor
      · intro h0
        exact ⟨0, by rw [hm, h0]; rfl⟩
      · rintro ⟨k, hk⟩
        cases k with
        | zero => simp at hk; omega
        | succ k =>
          rw [pow_succ] at hk
          omega

theorem sizeTest_iff (w : Nat) (hw : 1 ≤ w) : sizeTest w = true ↔ ∃ k, w = 2 ^ k := by
  unfold sizeTest
  rw [beq_iff_eq]
  exact land_pred_eq_zero_iff w hw

theorem mapCount_eq_false_iff (m : List (List Char × Nat)) (name : List Char) :
    mapCount m name = false ↔ name ∉ m.map Prod.fst := by
  unfold mapCount
  rw [Bool.eq_false_iff]
  simp only [ne_eq, List.any_eq_true, beq_iff_eq, List.mem_map, not_exists, not_and]

/-- A failed texture load leaves the whole state as it was. -/
theorem loadTextureFile_false (cfg : Config) (fs : FileSystem) (u : Universe)
    (fileName : List Char) (h : (loadTextureFile cfg fs u fileName).2 = false) :
    loadTextureFile cfg fs u fileName = (u, false) := by
  unfold loadTextureFile at h ⊢
  simp only at h ⊢
  repeat' split
  all_goals first
    | rfl
    | simp_all

/-- A failed mesh load leaves the whole state as it was. -/
theorem loadMeshFile_false (cfg : Config) (fs : FileSystem) (u : Universe)
    (fileName : List Char) (h : (loadMeshFile cfg fs u fileName).2 = false) :
    loadMeshFile cfg fs u fileName = (u, false) := by
  unfold loadMeshFile at h ⊢
  simp only at h ⊢
  repeat' split
  all_goals first
    | rfl
    | simp_all

/-- A successful mesh load appends one entry for a new key to the cache. -/
theorem loadMeshFile_true (cfg : Config) (fs : FileSystem) (u : Universe)
    (fileName : List Char) (h : (loadMeshFile cfg fs u fileName).2 = true) :
    mapCount u.meshes
      (correctPath fs (u.dirMeshes ++ fileName) fileName cfg.cfg_meshFormat).2.2 = false ∧
    loadMeshFile cfg fs u fileName =
      ({ u with nextMesh := u.nextMesh + 1,
                meshes := u.meshes ++
                  [((correctPath fs (u.dirMeshes ++ fileName) fileName cfg.cfg_meshFormat).2.2,
                    u.nextMesh)] }, true) := by
  unfold loadMeshFile at h ⊢
  simp only at h ⊢
  split at h
  · rename_i h1
    split at h
    · rename_i h2
      split at h
      · rename_i h3
        have hc : mapCount u.meshes
            (correctPath fs (u.dirMeshes ++ fileName) fileName cfg.cfg_meshFormat).2.2 = false := by
          simpa using h2
        simp only [h1, h2, h3, if_true, addMesh, hc, Bool.false_eq_true, if_false]
        exact ⟨trivial, rfl⟩
      · cases h
    · cases h
  · cases h

/-- A successful texture load appends one entry for a new key to the cache. -/
theorem loadTextureFile_true (cfg : Config) (fs : FileSystem) (u : Universe)
    (fileName : List Char) (h : (loadTextureFile cfg fs u fileName).2 = true) :
    mapCount u.textures
      (correctPath fs (u.dirTextures ++ fileName) fileName cfg.cfg_textureFormat).2.2 = false ∧
    (loadTextureFile cfg fs u fileName).1.textures = u.textures ++
      [((correctPath fs (u.dirTextures ++ fileName) fileName cfg.cfg_textureFormat).2.2,
        u.nextTexture)] := by
  cases h1 : (correctPath fs (u.dirTextures ++ fileName) fileName cfg.cfg_textureFormat).1
  · simp [loadTextureFile, h1] at h
  cases hc : mapCount u.textures
      (correctPath fs (u.dirTextures ++ fileName) fileName cfg.cfg_textureFormat).2.2
  swap
  · simp [loadTextureFile, h1, hc] at h
  refine ⟨rfl, ?_⟩
  cases himg : fs.imageSize
      (correctPath fs (u.dirTextures ++ fileName) fileName cfg.cfg_textureFormat).2.1 with
  | none => simp [loadTextureFile, h1, hc, himg] at h
  | some wh =>
    obtain ⟨w, hh⟩ := wh
    cases h3 : (sizeTest w && sizeTest hh)
    · simp only [Bool.and_eq_false_iff] at h3
      rcases h3 with h3 | h3 <;> simp [loadTextureFile, h1, hc, himg, h3] at h
    · simp only [Bool.and_eq_true] at h3
      cases hty : u.textureTypeOf fileName <;>
        simp [loadTextureFile, h1, hc, himg, h3.1, h3.2, hty, addTexture, setUpdateFlag] at h ⊢

/-! ## Lemmas on labels -/

theorem addTexture_frame (u : Universe) (texture : Option Nat) (fileId : List Char) :
    ∃ t wu tl, (u.addTexture texture fileId).1 =
      { u with textures := t, wasUpdated := wu, texturesForLoading := tl } := by
  unfold addTexture
  split
  · split
    · exact ⟨u.textures, u.wasUpdated, u.texturesForLoading, rfl⟩
    · exact ⟨_, _, _, rfl⟩
  · exact ⟨u.textures, u.wasUpdated, u.texturesForLoading, rfl⟩

theorem loadTextureFile_frame (cfg : Config) (fs : FileSystem) (u : Universe)
    (fileName : List Char) :
    ∃ t n wu tl, (loadTextureFile cfg fs u fileName).1 =
      { u with textures := t, nextTexture := n, wasUpdated := wu, texturesForLoading := tl } := by
  have hu : ∃ t n wu tl, u =
      { u with textures := t, nextTexture := n, wasUpdated := wu, texturesForLoading := tl } :=
    ⟨u.textures, u.nextTexture, u.wasUpdated, u.texturesForLoading, rfl⟩
  have hadd : ∀ fileId, ∃ t n wu tl,
      (({ u with nextTexture := u.nextTexture + 1 }).addTexture (some u.nextTexture) fileId).1 =
      { u with textures := t, nextTexture := n, wasUpdated := wu, texturesForLoading := tl } := by
    intro fileId
    obtain ⟨t, wu, tl, h⟩ :=
      addTexture_frame { u with nextTexture := u.nextTexture + 1 } (some u.nextTexture) fileId
    exact ⟨t, u.nextTexture + 1, wu, tl, h⟩
  unfold loadTextureFile
  simp only
  repeat' split
  all_goals first
    | exact hu
    | exact hadd _

theorem findOrLoadInterfaceTexture_frame (cfg : Config) (fs : FileSystem) (u : Universe)
    (textureName : List Char) :
    ∃ t n wu tl, (findOrLoadInterfaceTexture cfg fs u textureName).1 =
      { u with textures := t, nextTexture := n, wasUpdated := wu, texturesForLoading := tl } := by
  unfold findOrLoadInterfaceTexture
  simp only
  split
  · exact ⟨u.textures, u.nextTexture, u.wasUpdated, u.texturesForLoading, rfl⟩
  · split <;> exact loadTextureFile_frame cfg fs u _

theorem addLabelTail_some (u : Universe) (name : String) (w : Nat) (width height : Int)
    (texture : Option Nat) (l : Nat)
    (h : (u.addLabelTail name w width height texture).2 = some l) :
    l = u.nextLabel ∧ w ∈ u.m_worlds.raw ∧ u.nextLabel ∉ u.m_labels.raw ∧
    (u.addLabelTail name w width height texture).1 =
      { u with
        nextLabel := u.nextLabel + 1
        labels := fun q => if q = u.nextLabel then VasnecovLabel.create name width height texture
                           else u.labels q
        m_labels := { u.m_labels with raw := u.m_labels.raw ++ [u.nextLabel], wasUpdated := true }
        worlds := fun q => if q = w then
            { u.worlds w with elements := (u.worlds w).elements ++ [ElemRef.label u.nextLabel] }
          else u.worlds q } := by
  unfold addLabelTail at h ⊢
  by_cases hw : w ∈ u.m_worlds.raw
  · by_cases hl : u.nextLabel ∈ u.m_labels.raw
    · simp [ElementBox.findRawElement, ElementBox.addElement, hw, hl, setLabel] at h
    · simp [ElementBox.findRawElement, ElementBox.addElement, hw, hl, setLabel, setWorld,
        VasnecovWorld.designerAddElement] at h ⊢
      exact h.symm
  · simp [ElementBox.findRawElement, hw] at h

theorem addLabelTail_none (u : Universe) (name : String) (w : Nat) (width height : Int)
    (texture : Option Nat) (h : (u.addLabelTail name w width height texture).2 = none) :
    (u.addLabelTail name w width height texture).1 = u := by
  unfold addLabelTail at h ⊢
  by_cases hw : w ∈ u.m_worlds.raw
  · by_cases hl : u.nextLabel ∈ u.m_labels.raw
    · simp [ElementBox.findRawElement, ElementBox.addElement, hw, hl, setLabel]
    · simp [ElementBox.findRawElement, ElementBox.addElement, hw, hl, setLabel] at h
  · simp [ElementBox.findRawElement, hw]

theorem removeLabel_unregistered (u : Universe) (l : Nat) (hl : l ∉ u.m_labels.raw) :
    u.removeLabel (some l) = (u, false) := by
  simp [removeLabel, ElementBox.findRawElement, hl]

theorem removeLabel_registered (u : Universe) (l : Nat) (hl : l ∈ u.m_labels.raw) :
    (u.removeLabel (some l)).2 = true ∧
    (u.removeLabel (some l)).1.m_labels.raw = u.m_labels.raw.erase l ∧
    (u.removeLabel (some l)).1.m_worlds = u.m_worlds ∧
    (∀ w, ((u.removeLabel (some l)).1.worlds w).elements.Sublist (u.worlds w).elements) ∧
    (∀ w x, x ≠ ElemRef.label l → x ∈ (u.worlds w).elements →
      x ∈ ((u.removeLabel (some l)).1.worlds w).elements) ∧
    (∀ w ∈ u.m_worlds.raw, (u.worlds w).elements.Nodup →
      ElemRef.label l ∉ ((u.removeLabel (some l)).1.worlds w).elements) ∧
    (∀ w, w ∉ u.m_worlds.raw → (u.removeLabel (some l)).1.worlds w = u.worlds w) := by
  obtain ⟨g, hg, h1, h2, h3, h4⟩ := removeFromWorlds_fold (ElemRef.label l) u.m_worlds.raw
    { u with m_labels := u.m_labels.removeElement l }
  have hrem : u.removeLabel (some l) =
      (((({ u with m_labels := u.m_labels.removeElement l }).removeFromWorlds
        (ElemRef.label l)).designerRemoveThisAlienMatrix (ElemRef.label l)).1, true) := by
    simp [removeLabel, ElementBox.findRawElement, hl, VasnecovLabel.designerExportingMatrix]
  have hfw : ({ u with m_labels := u.m_labels.removeElement l }).removeFromWorlds
      (ElemRef.label l) = { u with m_labels := u.m_labels.removeElement l, worlds := g } := by
    unfold removeFromWorlds
    exact hg
  rw [hrem, hfw, designerRemoveThisAlienMatrix_eq]
  refine ⟨rfl, ?_, rfl, h1, h2, h3, h4⟩
  simp [ElementBox.removeElement, hl]

theorem referLabelToWorld_effect (u : Universe) (l w : Nat) :
    (u.referLabelToWorld (some l) (some w)).1.m_labels = u.m_labels ∧
    (u.referLabelToWorld (some l) (some w)).1.m_worlds = u.m_worlds ∧
    (∀ q, (u.worlds q).elements.Nodup →
      ((u.referLabelToWorld (some l) (some w)).1.worlds q).elements.Nodup) ∧
    (∀ q x, x ∈ (u.worlds q).elements →
      x ∈ ((u.referLabelToWorld (some l) (some w)).1.worlds q).elements) ∧
    (l ∈ u.m_labels.raw → w ∈ u.m_worlds.raw →
      ElemRef.label l ∈ ((u.referLabelToWorld (some l) (some w)).1.worlds w).elements) := by
  unfold referLabelToWorld
  by_cases hl : l ∈ u.m_labels.raw
  · by_cases hw : w ∈ u.m_worlds.raw
    · by_cases he : ElemRef.label l ∈ (u.worlds w).elements
      · simp [ElementBox.findRawElement, hl, hw, VasnecovWorld.designerAddElement, he]
      · simp only [ElementBox.findRawElement, hl, hw, VasnecovWorld.designerAddElement, he,
          decide_True, decide_False, Bool.not_true, Bool.false_eq_true, if_false, Bool.and_false,
          if_true, setWorld]
        refine ⟨trivial, trivial, ?_, ?_, ?_⟩
        · intro q hq
          by_cases hqw : q = w
          · subst hqw
            simp only [if_true]
            exact List.Nodup.append hq (List.nodup_singleton _) (by simpa using he)
          · simpa [hqw] using hq
        · intro q x hx
          by_cases hqw : q = w
          · subst hqw
            simp [hx]
          · simpa [hqw] using hx
        · intro _ _
          simp
    · simp [ElementBox.findRawElement, hl, hw]
  · simp [ElementBox.findRawElement, hl]

theorem referLabelToWorlds_effect (l : Nat) (ws : List Nat) (u : Universe) :
    (u.referLabelToWorlds l ws).m_labels = u.m_labels ∧
    (u.referLabelToWorlds l ws).m_worlds = u.m_worlds ∧
    (∀ q, (u.worlds q).elements.Nodup → ((u.referLabelToWorlds l ws).worlds q).elements.Nodup) ∧
    (∀ q x, x ∈ (u.worlds q).elements → x ∈ ((u.referLabelToWorlds l ws).worlds q).elements) ∧
    (l ∈ u.m_labels.raw → ∀ w ∈ ws, w ∈ u.m_worlds.raw →
      ElemRef.label l ∈ ((u.referLabelToWorlds l ws).worlds w).elements) := by
  induction ws generalizing u with
  | nil =>
    exact ⟨rfl, rfl, fun _ h => h, fun _ _ h => h, fun _ w hw => absurd hw (List.not_mem_nil w)⟩
  | cons a ws ih =>
    obtain ⟨e1, e2, e3, e4, e5⟩ := referLabelToWorld_effect u l a
    obtain ⟨i1, i2, i3, i4, i5⟩ := ih (u.referLabelToWorld (some l) (some a)).1
    have hcons : u.referLabelToWorlds l (a :: ws) =
        (u.referLabelToWorld (some l) (some a)).1.referLabelToWorlds l ws := rfl
    rw [hcons]
    refine ⟨i1.trans e1, i2.trans e2, fun q h => i3 q (e3 q h), fun q x h => i4 q x (e4 q x h), ?_⟩
    intro hl w hw hreg
    rcases List.mem_cons.1 hw with h | h
    · subst h
      exact i4 _ _ (e5 hl hreg)
    · exact i5 (by rw [e1]; exact hl) w h (by rw [e2]; exact hreg)

theorem addLabel_some (cfg : Config) (fs : FileSystem) (u : Universe) (name : String)
    (w : Nat) (width height : Int) (textureName : List Char) (l : Nat)
    (h : (addLabel cfg fs u name (some w) width height textureName).2 = some l) :
    ∃ (u0 : Universe) (texture : Option Nat),
      u0.m_worlds = u.m_worlds ∧ u0.worlds = u.worlds ∧ u0.m_labels = u.m_labels ∧
      u0.nextLabel = u.nextLabel ∧
      addLabel cfg fs u name (some w) width height textureName =
        u0.addLabelTail name w width height texture := by
  unfold addLabel at h ⊢
  simp only at h ⊢
  cases hm : textureName.isEmpty
  · simp only [hm, Bool.not_false, if_true] at h ⊢
    obtain ⟨t, n, wu, tl, hf⟩ := findOrLoadInterfaceTexture_frame cfg fs u textureName
    cases hr : (findOrLoadInterfaceTexture cfg fs u textureName).2 with
    | none => rw [hr] at h; cases h
    | some texture =>
      refine ⟨(findOrLoadInterfaceTexture cfg fs u textureName).1, some texture, ?_, ?_, ?_, ?_, rfl⟩
      all_goals rw [hf]
  · simp only [hm, Bool.not_true, Bool.false_eq_true, if_false] at h ⊢
    exact ⟨u, none, rfl, rfl, rfl, rfl, rfl⟩

/-! ## Committed values are kept by every call -/

theorem loadMeshFile_committed (cfg : Config) (fs : FileSystem) (u : Universe)
    (fileName : List Char) :
    committedValues (loadMeshFile cfg fs u fileName).1 = committedValues u := by
  obtain ⟨m, n, h⟩ := loadMeshFile_frame cfg fs u fileName
  rw [h]
  rfl

theorem disciplinedFrom_append (a b : List LockEvent) (held : Bool) :
    disciplinedFrom held (a ++ b) =
      (disciplinedFrom held a && disciplinedFrom (heldAfter held a) b) := by
  induction a generalizing held with
  | nil => simp [disciplinedFrom, heldAfter]
  | cons e a ih =>
    cases e <;> simp [disciplinedFrom, heldAfter, ih, Bool.and_assoc]

theorem heldAfter_append (a b : List LockEvent) (held : Bool) :
    heldAfter held (a ++ b) = heldAfter (heldAfter held a) b := by
  induction a generalizing held with
  | nil => simp [heldAfter]
  | cons e a ih =>
    cases e <;> simp [heldAfter, ih]

theorem worldList_loop (n : Nat) :
    disciplinedFrom true (List.replicate n LockEvent.worldList) = true ∧
    heldAfter true (List.replicate n LockEvent.worldList) = true := by
  induction n with
  | zero => simp [disciplinedFrom, heldAfter]
  | succ n ih => simp [List.replicate_succ, disciplinedFrom, heldAfter, ih]

theorem worldList_loops {α : Type} (D : List α) (n : Nat) :
    disciplinedFrom true (D.flatMap (fun _ => List.replicate n LockEvent.worldList)) = true ∧
    heldAfter true (D.flatMap (fun _ => List.replicate n LockEvent.worldList)) = true := by
  induction D with
  | nil => simp [disciplinedFrom, heldAfter]
  | cons a D ih =>
    simp only [List.flatMap_cons, disciplinedFrom_append, heldAfter_append, worldList_loop, ih,
      Bool.and_self]
    exact ⟨trivial, trivial⟩

theorem loadMeshFileTrace_ok (cfg : Config) (fs : FileSystem) (u : Universe)
    (fileName : List Char) :
    disciplinedFrom false (loadMeshFileTrace cfg fs u fileName) = true ∧
    heldAfter false (loadMeshFileTrace cfg fs u fileName) = false := by
  simp only [loadMeshFileTrace, addMeshTrace]
  repeat' split
  all_goals simp [disciplinedFrom, heldAfter]

theorem loadTextureFileTrace_ok (cfg : Config) (fs : FileSystem) (u : Universe)
    (fileName : List Char) :
    disciplinedFrom false (loadTextureFileTrace cfg fs u fileName) = true ∧
    heldAfter false (loadTextureFileTrace cfg fs u fileName) = false := by
  simp only [loadTextureFileTrace, addTextureTrace]
  repeat' split
  all_goals simp [disciplinedFrom, heldAfter]

theorem addPartTailTrace_ok (cfg : Config) (u : Universe) (w : Nat)
    (material parent : Option Nat) :
    disciplinedFrom true (addPartTailTrace cfg u w material parent) = true := by
  simp only [addPartTailTrace]
  repeat' split
  all_goals simp [disciplinedFrom]

theorem addLabelTailTrace_ok (u : Universe) (w : Nat) :
    disciplinedFrom true (u.addLabelTailTrace w) = true := by
  simp only [addLabelTailTrace]
  repeat' split
  all_goals simp [disciplinedFrom]

theorem addMaterialTextureTrace_ok (cfg : Config) (fs : FileSystem) (u : Universe)
    (textureName : List Char) :
    disciplinedFrom false (addMaterialTextureTrace cfg fs u textureName) = true ∧
    heldAfter false (addMaterialTextureTrace cfg fs u textureName) = false := by
  have hl := loadTextureFileTrace_ok cfg fs u (correctFileId textureName cfg.cfg_textureFormat)
  simp only [addMaterialTextureTrace]
  repeat' split
  all_goals
    simp [disciplinedFrom, heldAfter, disciplinedFrom_append, heldAfter_append, hl.1, hl.2]

theorem addPartTrace_ok (cfg : Config) (fs : FileSystem) (u : Universe) (world : Option Nat)
    (meshName : List Char) (material parent : Option Nat) :
    disciplinedFrom false (addPartTrace cfg fs u world meshName material parent) = true := by
  have hl := loadMeshFileTrace_ok cfg fs u (correctFileId meshName cfg.cfg_meshFormat)
  simp only [addPartTrace]
  repeat' split
  all_goals
    simp [disciplinedFrom, heldAfter, disciplinedFrom_append, heldAfter_append, hl.1, hl.2,
      addPartTailTrace_ok]

theorem addLabelTrace_ok (cfg : Config) (fs : FileSystem) (u : Universe) (world : Option Nat)
    (textureName : List Char) :
    disciplinedFrom false (addLabelTrace cfg fs u world textureName) = true := by
  have hl := loadTextureFileTrace_ok cfg fs u
    (u.dirTexturesIPref ++ correctFileId textureName cfg.cfg_textureFormat)
  simp only [addLabelTrace]
  repeat' split
  all_goals
    simp [disciplinedFrom, heldAfter, disciplinedFrom_append, heldAfter_append, hl.1, hl.2,
      addLabelTailTrace_ok]

theorem stepTrace_ok (cfg : Config) (u : Universe) (op : Op) (hop : op ≠ Op.addMaterial) :
    disciplined (stepTrace cfg u op) = true := by
  unfold disciplined
  cases op with
  | addWorld posX posY width height =>
    simp only [stepTrace, addWorldTrace]
    split <;> simp [disciplinedFrom]
  | addLamp name world type =>
    simp only [stepTrace, addLampTrace]
    repeat' split
    all_goals simp [disciplinedFrom]
  | referLampToWorld lamp world =>
    simp only [stepTrace, referLampToWorldTrace]
    repeat' split
    all_goals simp [disciplinedFrom]
  | addMaterial => exact absurd rfl hop
  | addMaterialTexture fs textureName => exact (addMaterialTextureTrace_ok cfg fs u _).1
  | addAssembly name world parent =>
    simp only [stepTrace, addAssemblyTrace]
    repeat' split
    all_goals simp [disciplinedFrom]
  | addPart fs name world meshName material parent => exact addPartTrace_ok cfg fs u _ _ _ _
  | addPartTexture fs name world meshName textureName parent =>
    simp only [stepTrace, addPartTextureTrace]
    split
    · rw [disciplinedFrom_append, (addMaterialTextureTrace_ok cfg fs u _).1,
        (addMaterialTextureTrace_ok cfg fs u _).2, addPartTrace_ok]
      rfl
    · exact addPartTrace_ok cfg fs u _ _ _ _
  | referProductToWorld product world =>
    simp only [stepTrace, referProductToWorldTrace]
    repeat' split
    all_goals simp [disciplinedFrom]
  | removeProduct product =>
    simp only [stepTrace, removeProductTrace]
    repeat' split
    all_goals
      simp [disciplinedFrom, heldAfter, disciplinedFrom_append, heldAfter_append,
        worldList_loops, worldList_loop]

theorem callTrace_ok (cfg : Config) (u : Universe) (c : Call)
    (hc : c ≠ Call.scene Op.addMaterial) : disciplined (callTrace cfg u c) = true := by
  cases c with
  | scene op => exact stepTrace_ok cfg u op (fun h => hc (by rw [h]))
  | addFigure name world =>
    simp only [callTrace, addFigureTrace, disciplined]
    repeat' split
    all_goals simp [disciplinedFrom]
  | removeFigure figure =>
    simp only [callTrace, removeFigureTrace, disciplined]
    repeat' split
    all_goals
      simp [disciplinedFrom, heldAfter, disciplinedFrom_append, heldAfter_append, worldList_loop]
  | addLabel fs name world width height textureName => exact addLabelTrace_ok cfg fs u _ _
  | referLabelToWorld label world =>
    simp only [callTrace, referLabelToWorldTrace, disciplined]
    repeat' split
    all_goals simp [disciplinedFrom]
  | removeLabel label =>
    simp only [callTrace, removeLabelTrace, disciplined]
    repeat' split
    all_goals
      simp [disciplinedFrom, heldAfter, disciplinedFrom_append, heldAfter_append, worldList_loop]
  | setTexturesDir fs dir =>
    simp only [callTrace, setTexturesDirTrace, setDirectoryTrace, disciplined]
    repeat' split
    all_goals simp [disciplinedFrom]
  | setMeshesDir fs dir =>
    simp only [callTrace, setMeshesDirTrace, setDirectoryTrace, disciplined]
    repeat' split
    all_goals simp [disciplinedFrom]

/-! ## Failure of `addPart` -/

theorem addPartTail_none (cfg : Config) (u : Universe) (name : String) (w : Nat) (mesh : Nat)
    (material parent : Option Nat)
    (h : (addPartTail cfg u name w mesh material parent).2 = none) :
    (addPartTail cfg u name w mesh material parent).1 = u := by
  unfold addPartTail at h ⊢
  cases material <;> simp only at h ⊢ <;> repeat' split
  all_goals first
    | rfl
    | (rename_i heq
       simp only [heq, insertProduct_result] at h
       split at h <;> simp_all [insertProduct_result])

theorem addPart_none_frame (cfg : Config) (fs : FileSystem) (u : Universe) (name : String)
    (world : Option Nat) (meshName : List Char) (material parent : Option Nat)
    (h : (addPart cfg fs u name world meshName material parent).2 = none) :
    ∃ m n, (addPart cfg fs u name world meshName material parent).1 =
      { u with meshes := m, nextMesh := n } := by
  unfold addPart at h ⊢
  cases world with
  | none => exact ⟨u.meshes, u.nextMesh, rfl⟩
  | some w =>
    simp only at h ⊢
    split
    · rename_i hm
      simp only [hm, if_true] at h
      obtain ⟨m, n, hf⟩ := findOrLoadMesh_frame cfg fs u meshName
      cases hr : (findOrLoadMesh cfg fs u meshName).2 with
      | none => exact ⟨m, n, hf⟩
      | some mesh =>
        simp only [hr] at h ⊢
        rw [addPartTail_none cfg _ name w mesh material parent h]
        exact ⟨m, n, hf⟩
    · exact ⟨u.meshes, u.nextMesh, rfl⟩

/-! ## The element lists stay well-formed -/

theorem SceneWF_of {u v : Universe} (h : SceneWF u)
    (hlabN : v.m_labels.raw.Nodup)
    (hlamp : ∀ l ∈ v.m_lamps.raw, l < v.nextLamp)
    (hprod : ∀ p ∈ v.m_products.raw, p < v.nextProduct)
    (hfig : ∀ f ∈ v.m_figures.raw, f < v.nextFigure)
    (hlab : ∀ l ∈ v.m_labels.raw, l < v.nextLabel)
    (hmono : ∀ x, allocated u x → allocated v x)
    (hworld : ∀ w ∈ v.m_worlds.raw,
      (v.worlds w).elements = [] ∨
      (w ∈ u.m_worlds.raw ∧ ((v.worlds w).elements.Sublist (u.worlds w).elements ∨
        ∃ x, x ∉ (u.worlds w).elements ∧ allocated v x ∧
          (v.worlds w).elements = (u.worlds w).elements ++ [x]))) : SceneWF v := by
  refine ⟨hlabN, hlamp, hprod, hfig, hlab, ?_, ?_⟩
  · intro w hw
    rcases hworld w hw with h0 | ⟨hwu, hs | ⟨x, hx, _, he⟩⟩
    · rw [h0]; exact List.nodup_nil
    · exact (h.worldNodup w hwu).sublist hs
    · rw [he]
      exact List.Nodup.append (h.worldNodup w hwu) (List.nodup_singleton _) (by simpa using hx)
  · intro w hw y hy
    rcases hworld w hw with h0 | ⟨hwu, hs | ⟨x, hx, hax, he⟩⟩
    · rw [h0] at hy; cases hy
    · exact hmono y (h.worldAlloc w hwu y (hs.subset hy))
    · rw [he] at hy
      rcases List.mem_append.1 hy with hy | hy
      · exact hmono y (h.worldAlloc w hwu y hy)
      · rw [List.mem_singleton.1 hy]; exact hax

/-- A step that allocates nothing, registers nothing and only shortens lists. -/
theorem SceneWF_shrink {u v : Universe} (h : SceneWF u)
    (hlabels : v.m_labels.raw.Sublist u.m_labels.raw)
    (hlamps : v.m_lamps.raw.Sublist u.m_lamps.raw)
    (hprods : v.m_products.raw.Sublist u.m_products.raw)
    (hfigs : v.m_figures.raw.Sublist u.m_figures.raw)
    (hnLamp : v.nextLamp = u.nextLamp) (hnProd : v.nextProduct = u.nextProduct)
    (hnFig : v.nextFigure = u.nextFigure) (hnLab : v.nextLabel = u.nextLabel)
    (hworlds : v.m_worlds = u.m_worlds)
    (hlists : ∀ w, (v.worlds w).elements.Sublist (u.worlds w).elements) : SceneWF v := by
  refine SceneWF_of h (h.labelNodup.sublist hlabels) ?_ ?_ ?_ ?_ ?_ ?_
  · intro l hl; rw [hnLamp]; exact h.lampAlloc l (hlamps.subset hl)
  · intro l hl; rw [hnProd]; exact h.productAlloc l (hprods.subset hl)
  · intro l hl; rw [hnFig]; exact h.figureAlloc l (hfigs.subset hl)
  · intro l hl; rw [hnLab]; exact h.labelAlloc l (hlabels.subset hl)
  · intro x hx
    cases x <;> simp only [allocated] at hx ⊢
    · rw [hnLamp]; exact hx
    · rw [hnProd]; exact hx
    · rw [hnFig]; exact hx
    · rw [hnLab]; exact hx
  · intro w hw
    exact Or.inr ⟨by rw [← hworlds]; exact hw, Or.inl (hlists w)⟩

/-- A step that changes neither the element registries, nor the allocation
counters of the elements, nor the worlds. -/
theorem SceneWF_same {u v : Universe} (h : SceneWF u)
    (hlabels : v.m_labels = u.m_labels) (hlamps : v.m_lamps = u.m_lamps)
    (hprods : v.m_products = u.m_products) (hfigs : v.m_figures = u.m_figures)
    (hnLamp : v.nextLamp = u.nextLamp) (hnProd : v.nextProduct = u.nextProduct)
    (hnFig : v.nextFigure = u.nextFigure) (hnLab : v.nextLabel = u.nextLabel)
    (hworlds : v.m_worlds = u.m_worlds) (hlists : v.worlds = u.worlds) : SceneWF v :=
  SceneWF_shrink h (by rw [hlabels]) (by rw [hlamps]) (by rw [hprods]) (by rw [hfigs])
    hnLamp hnProd hnFig hnLab hworlds (fun w => by rw [hlists])

/-- Appending to the list of one world an allocated element it does not list. -/
theorem SceneWF_append {u : Universe} (h : SceneWF u) (w : Nat) (x : ElemRef)
    (hw : w ∈ u.m_worlds.raw) (hx : x ∉ (u.worlds w).elements) (ha : allocated u x) :
    SceneWF (u.setWorld w { u.worlds w with elements := (u.worlds w).elements ++ [x] }) := by
  refine SceneWF_of h h.labelNodup h.lampAlloc h.productAlloc h.figureAlloc h.labelAlloc
    (fun y hy => by cases y <;> exact hy) ?_
  intro q hq
  refine Or.inr ⟨hq, ?_⟩
  by_cases hqw : q = w
  · subst hqw
    refine Or.inr ⟨x, hx, by cases x <;> exact ha, ?_⟩
    simp [setWorld]
  · refine Or.inl ?_
    simp [setWorld, hqw]

theorem allocated_fresh {u : Universe} (h : SceneWF u) (w : Nat) (hw : w ∈ u.m_worlds.raw) :
    ElemRef.lamp u.nextLamp ∉ (u.worlds w).elements ∧
    ElemRef.product u.nextProduct ∉ (u.worlds w).elements ∧
    ElemRef.figure u.nextFigure ∉ (u.worlds w).elements ∧
    ElemRef.label u.nextLabel ∉ (u.worlds w).elements := by
  refine ⟨?_, ?_, ?_, ?_⟩ <;> intro hmem <;>
    exact absurd (h.worldAlloc w hw _ hmem) (by simp [allocated])

theorem addWorld_SceneWF {u : Universe} (cfg : Config) (h : SceneWF u)
    (posX posY width height : Int) :
    SceneWF (u.addWorld cfg posX posY width height).1 := by
  unfold addWorld
  split
  swap
  · exact h
  refine SceneWF_of h h.labelNodup h.lampAlloc h.productAlloc h.figureAlloc h.labelAlloc
    (fun y hy => by cases y <;> exact hy) ?_
  intro w hw
  by_cases hwn : w = u.nextWorld
  · left
    subst hwn
    simp [setWorld, VasnecovWorld.create]
  · right
    have hwu : w ∈ u.m_worlds.raw := by
      simp only [ElementBox.addElement, setWorld] at hw
      split at hw
      · exact hw
      · simp only [List.mem_append, List.mem_singleton] at hw
        rcases hw with hw | hw
        · exact hw
        · exact absurd hw hwn
    refine ⟨hwu, Or.inl ?_⟩
    simp [setWorld, hwn]

theorem refer_SceneWF {u : Universe} (h : SceneWF u) (w : Nat) (x : ElemRef)
    (hw : w ∈ u.m_worlds.raw) (ha : allocated u x) :
    SceneWF (if ((u.worlds w).designerAddElement x true).2 = true then
      u.setWorld w ((u.worlds w).designerAddElement x true).1 else u) := by
  by_cases hx : x ∈ (u.worlds w).elements
  · simp only [VasnecovWorld.designerAddElement, hx, decide_True, Bool.and_self, if_true,
      Bool.false_eq_true, if_false]
    exact h
  · simp only [VasnecovWorld.designerAddElement, hx, decide_False, Bool.and_false,
      Bool.false_eq_true, if_false, if_true]
    exact SceneWF_append h w x hw hx ha

theorem referLampToWorld_SceneWF {u : Universe} (h : SceneWF u) (lamp world : Option Nat) :
    SceneWF (u.referLampToWorld lamp world).1 := by
  unfold referLampToWorld
  split
  swap
  · exact h
  rename_i l w
  by_cases hl : l ∈ u.m_lamps.raw
  · by_cases hw : w ∈ u.m_worlds.raw
    · have := refer_SceneWF h w (ElemRef.lamp l) hw (h.lampAlloc l hl)
      simp only [ElementBox.findRawElement, hl, hw, decide_True, Bool.not_true,
        Bool.false_eq_true, if_false]
      split
      · rename_i hr; simpa [hr] using this
      · exact h
    · simp only [ElementBox.findRawElement, hl, hw, decide_True, decide_False, Bool.not_true,
        Bool.not_false, Bool.false_eq_true, if_false, if_true]
      exact h
  · simp only [ElementBox.findRawElement, hl, decide_False, Bool.not_false, if_true]
    exact h

theorem referProductToWorld_SceneWF {u : Universe} (h : SceneWF u)
    (product world : Option Nat) : SceneWF (u.referProductToWorld product world).1 := by
  unfold referProductToWorld
  split
  swap
  · exact h
  rename_i p w
  by_cases hl : p ∈ u.m_products.raw
  · by_cases hw : w ∈ u.m_worlds.raw
    · have := refer_SceneWF h w (ElemRef.product p) hw (h.productAlloc p hl)
      simp only [ElementBox.findRawElement, hl, hw, decide_True, Bool.not_true,
        Bool.false_eq_true, if_false]
      split
      · rename_i hr; simpa [hr] using this
      · exact h
    · simp only [ElementBox.findRawElement, hl, hw, decide_True, decide_False, Bool.not_true,
        Bool.not_false, Bool.false_eq_true, if_false, if_true]
      exact h
  · simp only [ElementBox.findRawElement, hl, decide_False, Bool.not_false, if_true]
    exact h

theorem referLabelToWorld_SceneWF {u : Universe} (h : SceneWF u) (label world : Option Nat) :
    SceneWF (u.referLabelToWorld label world).1 := by
  unfold referLabelToWorld
  split
  swap
  · exact h
  rename_i l w
  by_cases hl : l ∈ u.m_labels.raw
  · by_cases hw : w ∈ u.m_worlds.raw
    · have := refer_SceneWF h w (ElemRef.label l) hw (h.labelAlloc l hl)
      simp only [ElementBox.findRawElement, hl, hw, decide_True, Bool.not_true,
        Bool.false_eq_true, if_false]
      split
      · rename_i hr; simpa [hr] using this
      · exact h
    · simp only [ElementBox.findRawElement, hl, hw, decide_True, decide_False, Bool.not_true,
        Bool.not_false, Bool.false_eq_true, if_false, if_true]
      exact h
  · simp only [ElementBox.findRawElement, hl, decide_False, Bool.not_false, if_true]
    exact h

theorem addLamp_SceneWF {u : Universe} (h : SceneWF u) (name : String) (world : Option Nat)
    (type : Nat) : SceneWF (u.addLamp name world type).1 := by
  unfold addLamp
  cases world with
  | none => exact h
  | some w =>
    by_cases hw : w ∈ u.m_worlds.raw
    swap
    · simp only [ElementBox.findRawElement, hw, decide_False, Bool.not_false, if_true]
      exact h
    have hfresh : u.nextLamp ∉ u.m_lamps.raw := fun hm => absurd (h.lampAlloc _ hm) (by simp)
    simp only [ElementBox.findRawElement, hw, decide_True, Bool.not_true, Bool.false_eq_true,
      if_false, setLamp, ElementBox.addElement, hfresh, if_true,
      VasnecovWorld.designerAddElement, Bool.false_and]
    refine SceneWF_append (u := { u with
        lamps := _, nextLamp := u.nextLamp + 1,
        m_lamps := { u.m_lamps with raw := u.m_lamps.raw ++ [u.nextLamp], wasUpdated := true } })
      ?_ w (ElemRef.lamp u.nextLamp) hw (allocated_fresh h w hw).1 (by simp [allocated])
    refine SceneWF_of h h.labelNodup ?_ h.productAlloc h.figureAlloc h.labelAlloc ?_ ?_
    · intro l hl
      simp only [List.mem_append, List.mem_singleton] at hl
      rcases hl with hl | hl
      · exact Nat.lt_succ_of_lt (h.lampAlloc l hl)
      · rw [hl]; exact Nat.lt_succ_self _
    · intro y hy
      cases y <;> simp only [allocated] at hy ⊢
      · exact Nat.lt_succ_of_lt hy
      · exact hy
      · exact hy
      · exact hy
    · intro q hq
      exact Or.inr ⟨hq, Or.inl (List.Sublist.refl _)⟩

theorem addFigure_SceneWF {u : Universe} (h : SceneWF u) (name : String) (world : Option Nat) :
    SceneWF (u.addFigure name world).1 := by
  unfold addFigure
  cases world with
  | none => exact h
  | some w =>
    by_cases hw : w ∈ u.m_worlds.raw
    swap
    · simp only [ElementBox.findRawElement, hw, decide_False, Bool.not_false, if_true]
      exact h
    have hfresh : u.nextFigure ∉ u.m_figures.raw :=
      fun hm => absurd (h.figureAlloc _ hm) (by simp)
    simp only [ElementBox.findRawElement, hw, decide_True, Bool.not_true, Bool.false_eq_true,
      if_false, setFigure, ElementBox.addElement, hfresh, if_true,
      VasnecovWorld.designerAddElement, Bool.false_and]
    refine SceneWF_append (u := { u with
        figures := _, nextFigure := u.nextFigure + 1,
        m_figures := { u.m_figures with raw := u.m_figures.raw ++ [u.nextFigure],
                                        wasUpdated := true } })
      ?_ w (ElemRef.figure u.nextFigure) hw (allocated_fresh h w hw).2.2.1 (by simp [allocated])
    refine SceneWF_of h h.labelNodup h.lampAlloc h.productAlloc ?_ h.labelAlloc ?_ ?_
    · intro l hl
      simp only [List.mem_append, List.mem_singleton] at hl
      rcases hl with hl | hl
      · exact Nat.lt_succ_of_lt (h.figureAlloc l hl)
      · rw [hl]; exact Nat.lt_succ_self _
    · intro y hy
      cases y <;> simp only [allocated] at hy ⊢
      · exact hy
      · exact hy
      · exact Nat.lt_succ_of_lt hy
      · exact hy
    · intro q hq
      exact Or.inr ⟨hq, Or.inl (List.Sublist.refl _)⟩

theorem addLabelTail_SceneWF {u : Universe} (h : SceneWF u) (name : String) (w : Nat)
    (width height : Int) (texture : Option Nat) :
    SceneWF (u.addLabelTail name w width height texture).1 := by
  unfold addLabelTail
  by_cases hw : w ∈ u.m_worlds.raw
  swap
  · simp only [ElementBox.findRawElement, hw, decide_False, Bool.not_false, if_true]
    exact h
  have hfresh : u.nextLabel ∉ u.m_labels.raw := fun hm => absurd (h.labelAlloc _ hm) (by simp)
  simp only [ElementBox.findRawElement, hw, decide_True, Bool.not_true, Bool.false_eq_true,
    if_false, setLabel, ElementBox.addElement, hfresh, if_true,
    VasnecovWorld.designerAddElement, Bool.false_and]
  refine SceneWF_append (u := { u with
      labels := _, nextLabel := u.nextLabel + 1,
      m_labels := { u.m_labels with raw := u.m_labels.raw ++ [u.nextLabel],
                                    wasUpdated := true } })
    ?_ w (ElemRef.label u.nextLabel) hw (allocated_fresh h w hw).2.2.2 (by simp [allocated])
  refine SceneWF_of h ?_ h.lampAlloc h.productAlloc h.figureAlloc ?_ ?_ ?_
  · exact List.Nodup.append h.labelNodup (List.nodup_singleton _) (by simpa using hfresh)
  · intro l hl
    simp only [List.mem_append, List.mem_singleton] at hl
    rcases hl with hl | hl
    · exact Nat.lt_succ_of_lt (h.labelAlloc l hl)
    · rw [hl]; exact Nat.lt_succ_self _
  · intro y hy
    cases y <;> simp only [allocated] at hy ⊢
    · exact hy
    · exact hy
    · exact hy
    · exact Nat.lt_succ_of_lt hy
  · intro q hq
    exact Or.inr ⟨hq, Or.inl (List.Sublist.refl _)⟩

theorem addLabel_SceneWF {u : Universe} (cfg : Config) (fs : FileSystem) (h : SceneWF u)
    (name : String) (world : Option Nat) (width height : Int) (textureName : List Char) :
    SceneWF (addLabel cfg fs u name world width height textureName).1 := by
  have hf : SceneWF (findOrLoadInterfaceTexture cfg fs u textureName).1 := by
    obtain ⟨t, n, wu, tl, hfr⟩ := findOrLoadInterfaceTexture_frame cfg fs u textureName
    rw [hfr]
    exact SceneWF_same h rfl rfl rfl rfl rfl rfl rfl rfl rfl rfl
  unfold addLabel
  cases world with
  | none => exact h
  | some w =>
    simp only
    split
    · split
      · exact hf
      · exact addLabelTail_SceneWF hf _ _ _ _ _
    · exact addLabelTail_SceneWF h _ _ _ _ _

theorem insertMaterial_SceneWF {u : Universe} (h : SceneWF u) (texture : Option Nat) :
    SceneWF (u.insertMaterial texture).1 := by
  unfold insertMaterial
  simp only
  split
  · exact SceneWF_same h rfl rfl rfl rfl rfl rfl rfl rfl rfl rfl
  · exact h

theorem loadTextureFile_SceneWF {u : Universe} (cfg : Config) (fs : FileSystem)
    (h : SceneWF u) (fileName : List Char) : SceneWF (loadTextureFile cfg fs u fileName).1 := by
  obtain ⟨t, n, wu, tl, hfr⟩ := loadTextureFile_frame cfg fs u fileName
  rw [hfr]
  exact SceneWF_same h rfl rfl rfl rfl rfl rfl rfl rfl rfl rfl

theorem addMaterialTexture_SceneWF {u : Universe} (cfg : Config) (fs : FileSystem)
    (h : SceneWF u) (textureName : List Char) :
    SceneWF (addMaterialTexture cfg fs u textureName).1 := by
  have hl := loadTextureFile_SceneWF cfg fs h (correctFileId textureName cfg.cfg_textureFormat)
  unfold addMaterialTexture
  simp only
  repeat' split
  all_goals first
    | exact insertMaterial_SceneWF h _
    | exact hl
    | exact insertMaterial_SceneWF hl _

theorem insertProduct_SceneWF {u : Universe} (h : SceneWF u) (w : Nat) (node : VasnecovProduct)
    (hw : w ∈ u.m_worlds.raw) (hpar : node.parent ≠ some u.nextProduct) :
    SceneWF (u.insertProduct w node).1 := by
  have hfresh : u.nextProduct ∉ u.m_products.raw :=
    fun hm => absurd (h.productAlloc _ hm) (by simp)
  rw [insertProduct_eq u w node hfresh hpar]
  refine SceneWF_append (u := { u with
      products := _, nextProduct := u.nextProduct + 1,
      m_products := { u.m_products with raw := u.m_products.raw ++ [u.nextProduct],
                                        wasUpdated := true } })
    ?_ w (ElemRef.product u.nextProduct) hw (allocated_fresh h w hw).2.1 (by simp [allocated])
  refine SceneWF_of h h.labelNodup h.lampAlloc ?_ h.figureAlloc h.labelAlloc ?_ ?_
  · intro l hl
    simp only [List.mem_append, List.mem_singleton] at hl
    rcases hl with hl | hl
    · exact Nat.lt_succ_of_lt (h.productAlloc l hl)
    · rw [hl]; exact Nat.lt_succ_self _
  · intro y hy
    cases y <;> simp only [allocated] at hy ⊢
    · exact hy
    · exact Nat.lt_succ_of_lt hy
    · exact hy
    · exact hy
  · intro q hq
    exact Or.inr ⟨hq, Or.inl (List.Sublist.refl _)⟩

theorem childLevel_parent_allocated {u : Universe} (cfg : Config) (h : SceneWF u) (w : Nat)
    (hw : w ∈ u.m_worlds.raw) (parent : Option Nat) (level : Nat)
    (hc : childLevel cfg u w parent = some level) : parent ≠ some u.nextProduct := by
  intro hp
  subst hp
  unfold childLevel at hc
  simp only [VasnecovWorld.designerFindElement] at hc
  by_cases hm : ElemRef.product u.nextProduct ∈ (u.worlds w).elements
  · exact (allocated_fresh h w hw).2.1 hm
  · simp [hm] at hc

theorem addAssembly_SceneWF {u : Universe} (cfg : Config) (h : SceneWF u) (name : String)
    (world parent : Option Nat) : SceneWF (u.addAssembly cfg name world parent).1 := by
  unfold addAssembly
  cases world with
  | none => exact h
  | some w =>
    by_cases hw : w ∈ u.m_worlds.raw
    swap
    · simp only [ElementBox.findRawElement, hw, decide_False, Bool.not_false, if_true]
      exact h
    simp only [ElementBox.findRawElement, hw, decide_True, Bool.not_true, Bool.false_eq_true,
      if_false]
    cases hc : childLevel cfg u w parent with
    | none => exact h
    | some level =>
      exact insertProduct_SceneWF h w _ hw
        (childLevel_parent_allocated cfg h w hw parent level hc)

theorem addPartTail_SceneWF {u : Universe} (cfg : Config) (h : SceneWF u) (name : String)
    (w mesh : Nat) (material parent : Option Nat) :
    SceneWF (addPartTail cfg u name w mesh material parent).1 := by
  unfold addPartTail
  by_cases hw : w ∈ u.m_worlds.raw
  swap
  · simp only [ElementBox.findRawElement, hw, decide_False, Bool.not_false, if_true]
    exact h
  simp only [ElementBox.findRawElement, hw, decide_True, Bool.not_true, Bool.false_eq_true,
    if_false]
  split
  · exact h
  · cases hc : childLevel cfg u w parent with
    | none => exact h
    | some level =>
      exact insertProduct_SceneWF h w _ hw
        (childLevel_parent_allocated cfg h w hw parent level hc)

theorem addPart_SceneWF {u : Universe} (cfg : Config) (fs : FileSystem) (h : SceneWF u)
    (name : String) (world : Option Nat) (meshName : List Char) (material parent : Option Nat) :
    SceneWF (addPart cfg fs u name world meshName material parent).1 := by
  have hf : SceneWF (findOrLoadMesh cfg fs u meshName).1 := by
    obtain ⟨m, n, hfr⟩ := findOrLoadMesh_frame cfg fs u meshName
    rw [hfr]
    exact SceneWF_same h rfl rfl rfl rfl rfl rfl rfl rfl rfl rfl
  unfold addPart
  cases world with
  | none => exact h
  | some w =>
    simp only
    split
    · split
      · exact hf
      · exact addPartTail_SceneWF cfg hf _ _ _ _ _
    · exact h

theorem removeProduct_SceneWF {u : Universe} (h : SceneWF u) (product : Option Nat) :
    SceneWF (u.removeProduct product).1 := by
  cases product with
  | none => exact h
  | some p =>
    by_cases hp : p ∈ u.m_products.raw
    swap
    · rw [removeProduct_unregistered u p hp]; exact h
    have hs := (removeProduct_spec u p hp).2
    have hf := hs.frame
    refine SceneWF_shrink h ?_ ?_ ?_ ?_ ?_ ?_ ?_ ?_ ?_ ?_
    · rw [hf.m_labels]; exact List.Sublist.refl _
    · rw [hf.m_lamps]; exact List.Sublist.refl _
    · rw [hf.m_products, afterRegistryRemoval_products_raw]
      exact List.diff_sublist _ _
    · rw [hf.m_figures]; exact List.Sublist.refl _
    · rw [hf.nextLamp]; rfl
    · rw [hf.nextProduct]; rfl
    · rw [hf.nextFigure]; rfl
    · rw [hf.nextLabel]; rfl
    · rw [hf.m_worlds]; rfl
    · intro w
      exact hs.worldSub w

theorem removeFigure_SceneWF {u : Universe} (h : SceneWF u) (figure : Option Nat) :
    SceneWF (u.removeFigure figure).1 := by
  cases figure with
  | none => exact h
  | some f =>
    by_cases hf : f ∈ u.m_figures.raw
    swap
    · simp only [removeFigure, ElementBox.findRawElement, hf, decide_False,
        Bool.false_eq_true, if_false]
      exact h
    obtain ⟨g, hg, h1, _⟩ := removeFromWorlds_fold (ElemRef.figure f) u.m_worlds.raw
      { u with m_figures := u.m_figures.removeElement f }
    have hfw : ({ u with m_figures := u.m_figures.removeElement f }).removeFromWorlds
        (ElemRef.figure f) = { u with m_figures := u.m_figures.removeElement f, worlds := g } := by
      unfold removeFromWorlds
      exact hg
    simp only [removeFigure, ElementBox.findRawElement, hf, decide_True, if_true, hfw,
      designerRemoveThisAlienMatrix_eq]
    refine SceneWF_shrink h (List.Sublist.refl _) (List.Sublist.refl _) (List.Sublist.refl _)
      ?_ rfl rfl rfl rfl rfl h1
    simp only [ElementBox.removeElement, hf, if_true]
    exact List.erase_sublist _ _

theorem removeLabel_SceneWF {u : Universe} (h : SceneWF u) (label : Option Nat) :
    SceneWF (u.removeLabel label).1 := by
  cases label with
  | none => exact h
  | some l =>
    by_cases hl : l ∈ u.m_labels.raw
    swap
    · rw [removeLabel_unregistered u l hl]; exact h
    obtain ⟨g, hg, h1, _⟩ := removeFromWorlds_fold (ElemRef.label l) u.m_worlds.raw
      { u with m_labels := u.m_labels.removeElement l }
    have hfw : ({ u with m_labels := u.m_labels.removeElement l }).removeFromWorlds
        (ElemRef.label l) = { u with m_labels := u.m_labels.removeElement l, worlds := g } := by
      unfold removeFromWorlds
      exact hg
    simp only [removeLabel, ElementBox.findRawElement, hl, decide_True, if_true, hfw,
      designerRemoveThisAlienMatrix_eq]
    refine SceneWF_shrink h ?_ (List.Sublist.refl _) (List.Sublist.refl _)
      (List.Sublist.refl _) rfl rfl rfl rfl rfl h1
    simp only [ElementBox.removeElement, hl, if_true]
    exact List.erase_sublist _ _

theorem call_SceneWF {u : Universe} (cfg : Config) (h : SceneWF u) (c : Call) :
    SceneWF (call cfg u c) := by
  cases c with
  | scene op =>
    cases op with
    | addWorld posX posY width height => exact addWorld_SceneWF cfg h _ _ _ _
    | addLamp name world type => exact addLamp_SceneWF h _ _ _
    | referLampToWorld lamp world => exact referLampToWorld_SceneWF h _ _
    | addMaterial =>
      simp only [call, step, addMaterial]
      split
      · exact SceneWF_same h rfl rfl rfl rfl rfl rfl rfl rfl rfl rfl
      · exact h
    | addMaterialTexture fs textureName => exact addMaterialTexture_SceneWF cfg fs h _
    | addAssembly name world parent => exact addAssembly_SceneWF cfg h _ _ _
    | addPart fs name world meshName material parent =>
      exact addPart_SceneWF cfg fs h _ _ _ _ _
    | addPartTexture fs name world meshName textureName parent =>
      simp only [call, step, addPartTexture]
      split
      · exact addPart_SceneWF cfg fs (addMaterialTexture_SceneWF cfg fs h _) _ _ _ _ _
      · exact addPart_SceneWF cfg fs h _ _ _ _ _
    | referProductToWorld product world => exact referProductToWorld_SceneWF h _ _
    | removeProduct product => exact removeProduct_SceneWF h _
  | addFigure name world => exact addFigure_SceneWF h _ _
  | removeFigure figure => exact removeFigure_SceneWF h _
  | addLabel fs name world width height textureName => exact addLabel_SceneWF cfg fs h _ _ _ _ _
  | referLabelToWorld label world => exact referLabelToWorld_SceneWF h _ _
  | removeLabel label => exact removeLabel_SceneWF h _
  | setTexturesDir fs dir => exact SceneWF_same h rfl rfl rfl rfl rfl rfl rfl rfl rfl rfl
  | setMeshesDir fs dir => exact SceneWF_same h rfl rfl rfl rfl rfl rfl rfl rfl rfl rfl

theorem calls_SceneWF {u : Universe} (cfg : Config) (h : SceneWF u) (cs : List Call) :
    SceneWF (calls cfg u cs) := by
  induction cs generalizing u with
  | nil => exact h
  | cons c cs ih => exact ih (call_SceneWF cfg h c)

theorem empty_SceneWF (cfg : Config)
    (dirs : List Char × List Char × List Char × List Char × List Char) :
    SceneWF (Universe.empty cfg dirs) := by
  constructor <;> simp [Universe.empty]

/-- In every state reached from the fresh universe by calls of `Call` the label
registry and the element lists of the registered worlds have no duplicate,
and no registered world lists the address the next label gets. -/
theorem reachable_label_lists (cfg : Config)
    (dirs : List Char × List Char × List Char × List Char × List Char) (cs : List Call) :
    (calls cfg (Universe.empty cfg dirs) cs).m_labels.raw.Nodup ∧
    (∀ w ∈ (calls cfg (Universe.empty cfg dirs) cs).m_worlds.raw,
      ((calls cfg (Universe.empty cfg dirs) cs).worlds w).elements.Nodup) ∧
    (∀ w ∈ (calls cfg (Universe.empty cfg dirs) cs).m_worlds.raw,
      ElemRef.label (calls cfg (Universe.empty cfg dirs) cs).nextLabel ∉
        ((calls cfg (Universe.empty cfg dirs) cs).worlds w).elements) := by
  have h := calls_SceneWF cfg (empty_SceneWF cfg dirs) cs
  exact ⟨h.labelNodup, h.worldNodup, fun w hw => (allocated_fresh h w hw).2.2.2⟩

/-! ## Lemmas on `rfind` and the file names -/

theorem find?_some_split {α : Type} (p : α → Bool) (l : List α) (a : α)
    (h : l.find? p = some a) :
    p a = true ∧ ∃ as bs, l = as ++ a :: bs ∧ ∀ x ∈ as, p x = false := by
  induction l with
  | nil => simp at h
  | cons b l ih =>
    rw [List.find?_cons] at h
    cases hb : p b
    · rw [hb] at h
      obtain ⟨hp, as, bs, hl, has⟩ := ih h
      refine ⟨hp, b :: as, bs, by rw [hl]; rfl, ?_⟩
      intro x hx
      rcases List.mem_cons.1 hx with hx | hx
      · rw [hx]; exact hb
      · exact has x hx
    · rw [hb] at h
      simp only [Option.some.injEq] at h
      subst h
      exact ⟨hb, [], l, rfl, fun x hx => absurd hx (List.not_mem_nil x)⟩

/-- The position found by `rfind` is an occurrence, and no later position is. -/
theorem rfind_some (s pat : List Char) (p : Nat) (h : rfind s pat = some p) :
    pat.isPrefixOf (s.drop p) = true ∧ p ≤ s.length ∧
    ∀ q, p < q → q ≤ s.length → pat.isPrefixOf (s.drop q) = false := by
  unfold rfind at h
  obtain ⟨hp, as, bs, hl, has⟩ := find?_some_split _ _ _ h
  have hmem : p ∈ (List.range (s.length + 1)).reverse := by rw [hl]; simp
  have hple : p ≤ s.length := by
    have := List.mem_range.1 (List.mem_reverse.1 hmem)
    omega
  refine ⟨hp, hple, ?_⟩
  intro q hq hqs
  have hqmem : q ∈ (List.range (s.length + 1)).reverse :=
    List.mem_reverse.2 (List.mem_range.2 (by omega))
  have hsorted : ((List.range (s.length + 1)).reverse).Pairwise (fun a b => b < a) := by
    rw [List.pairwise_reverse]
    exact List.pairwise_lt_range _
  rw [hl] at hqmem hsorted
  rcases List.mem_append.1 hqmem with hq1 | hq1
  · exact has q hq1
  · rcases List.mem_cons.1 hq1 with hq2 | hq2
    · omega
    · have h1 := (List.pairwise_append.1 hsorted).2.1
      have := (List.pairwise_cons.1 h1).1 q hq2
      omega

theorem rfind_none (s pat : List Char) (h : rfind s pat = none) :
    ∀ q, q ≤ s.length → pat.isPrefixOf (s.drop q) = false := by
  unfold rfind at h
  intro q hq
  have := List.find?_eq_none.1 h q (List.mem_reverse.2 (List.mem_range.2 (by omega)))
  cases hc : pat.isPrefixOf (s.drop q)
  · rfl
  · exact absurd hc this

theorem isPrefixOf_length {pat s : List Char} (h : pat.isPrefixOf s = true) :
    pat.length ≤ s.length :=
  (List.isPrefixOf_iff_prefix.1 h).length_le

/-- When `s` ends with the non-empty pattern, `rfind` finds that last occurrence. -/
theorem rfind_suffix (t pat : List Char) (hpat : pat ≠ []) :
    rfind (t ++ pat) pat = some t.length := by
  have hocc : pat.isPrefixOf ((t ++ pat).drop t.length) = true := by
    rw [List.drop_left]
    exact List.isPrefixOf_iff_prefix.2 (List.prefix_refl _)
  cases h : rfind (t ++ pat) pat with
  | none =>
    have := rfind_none _ _ h t.length (by simp)
    rw [hocc] at this
    cases this
  | some p =>
    obtain ⟨hp, hple, hmax⟩ := rfind_some _ _ _ h
    have h1 : pat.length ≤ ((t ++ pat).drop p).length := isPrefixOf_length hp
    simp only [List.length_drop, List.length_append] at h1
    have hpos : 0 < pat.length := List.length_pos.2 hpat
    have hpt : p ≤ t.length := by omega
    rcases Nat.lt_or_ge p t.length with hlt | hge
    · have := hmax t.length hlt (by simp)
      rw [hocc] at this
      cases this
    · congr 1
      omega

/-- When the position found by `rfind` leaves exactly the pattern, the string is
the part before that position followed by the pattern. -/
theorem rfind_at_end (s pat : List Char) (p : Nat) (h : rfind s pat = some p)
    (hlen : p + pat.length = s.length) : s = s.take p ++ pat := by
  obtain ⟨hp, hple, _⟩ := rfind_some _ _ _ h
  have hpre := List.isPrefixOf_iff_prefix.1 hp
  have hl : (s.drop p).length = pat.length := by
    rw [List.length_drop]; omega
  have heq : pat = s.drop p := hpre.eq_of_length hl.symm
  rw [heq, List.take_append_drop]

theorem correctFileId_suffix (t format : List Char) (hf : format ≠ []) :
    correctFileId (t ++ '.' :: format) format = t := by
  unfold correctFileId
  have hne : format.isEmpty = false := by
    cases format with
    | nil => exact absurd rfl hf
    | cons a l => rfl
  rw [hne, rfind_suffix t ('.' :: format) (by simp)]
  have : t.length + 1 + format.length = (t ++ '.' :: format).length := by
    simp only [List.length_append, List.length_cons]; omega
  simp [this]

theorem correctFileId_not_suffix (fileId format : List Char)
    (h : ¬ ('.' :: format) <:+ fileId) : correctFileId fileId format = fileId := by
  unfold correctFileId
  split
  · rfl
  · split
    · rename_i posR hr
      split
      · rename_i hlen
        exfalso
        apply h
        have := rfind_at_end fileId ('.' :: format) posR hr (by simp; omega)
        exact ⟨fileId.take posR, this.symm⟩
      · rfl
    · rfl

theorem correctPath_fileId (fs : FileSystem) (path fileId format : List Char) :
    (correctPath fs path fileId format).2.2 = correctFileId fileId format := by
  unfold correctPath correctFileId
  simp only
  split
  · rfl
  · split
    · split <;> rfl
    · rfl

theorem correctPath_path (fs : FileSystem) (path fileId format : List Char) :
    (correctPath fs path fileId format).2.1 =
      if format ≠ [] ∧ ¬ ('.' :: format) <:+ fileId then path ++ '.' :: format else path := by
  unfold correctPath
  simp only
  cases format with
  | nil => simp
  | cons a l =>
    simp only [List.isEmpty_cons, Bool.false_eq_true, if_false, ne_eq, not_false_eq_true,
      true_and, reduceCtorEq]
    by_cases hs : ('.' :: a :: l) <:+ fileId
    · obtain ⟨t, ht⟩ := hs
      subst ht
      rw [rfind_suffix t ('.' :: a :: l) (by simp)]
      have : t.length + 1 + (a :: l).length = (t ++ '.' :: a :: l).length := by
        simp only [List.length_append, List.length_cons]; omega
      simp only [this, if_true]
      simp
    · simp only [hs, not_false_eq_true, if_true]
      split
      · rename_i posR hr
        split
        · rename_i hlen
          exfalso
          apply hs
          have := rfind_at_end fileId ('.' :: a :: l) posR hr (by simp at hlen ⊢; omega)
          exact ⟨fileId.take posR, this.symm⟩
        · rfl
      · rfl

theorem designerFindMesh_isSome (u : Universe) (name : List Char)
    (h : mapCount u.meshes name = true) : (u.designerFindMesh name).isSome = true := by
  unfold designerFindMesh
  rw [if_pos h]
  unfold mapCount at h
  obtain ⟨e, he, hp⟩ := List.any_eq_true.1 h
  cases hf : u.meshes.find? (fun e => e.1 == name) with
  | none =>
    have := List.find?_eq_none.1 hf e he
    exact absurd hp this
  | some x => rfl

/-- After a successful forced load of a name that does not end with the mesh
extension, the mesh is found under that name. -/
theorem loadMeshFile_then_find (cfg : Config) (fs : FileSystem) (u : Universe)
    (name : List Char) (hs : ¬ ('.' :: cfg.cfg_meshFormat) <:+ name)
    (h : (loadMeshFile cfg fs u name).2 = true) :
    ((loadMeshFile cfg fs u name).1.designerFindMesh name).isSome = true := by
  apply designerFindMesh_isSome
  rw [(loadMeshFile_true cfg fs u name h).2, correctPath_fileId,
    correctFileId_not_suffix name _ hs]
  simp [mapCount]

/-! ## Materials left without a product -/

/-- A candidate that no remaining product references survives the pruning loop. -/
theorem pruneMaterials_keeps (u : Universe) (m : Nat) (delMat : List Nat)
    (hfree : ∀ q ∈ u.m_products.raw, (u.products q).material ≠ some m)
    (hm : m ∈ delMat) : m ∈ u.pruneMaterials delMat := by
  unfold pruneMaterials
  generalize u.m_products.raw = L at hfree
  induction L generalizing delMat with
  | nil => exact hm
  | cons q L ih =>
    rw [List.foldl_cons]
    refine ih _ ?_ (fun x hx => hfree x (List.mem_cons_of_mem _ hx))
    cases hq : (u.products q).material with
    | none => exact hm
    | some m' =>
      have hne : m ≠ m' := by
        intro h
        apply hfree q (List.mem_cons_self _ _)
        rw [hq, h]
      exact (List.mem_erase_of_ne hne).2 hm

theorem removeProduct_materials_raw (u : Universe) (p : Nat) (hp : p ∈ u.m_products.raw) :
    (u.removeProduct (some p)).1.m_materials.raw =
      u.m_materials.raw.diff
        (({ u with m_products := u.m_products.removeElements (u.delProd p) }).pruneMaterials
          (u.collectMaterials (u.delProd p))) := by
  rw [(removeProduct_spec u p hp).2.frame.m_materials]
  simp only [afterRegistryRemoval, ElementBox_removeElements_raw]
  rfl

/-! ## Light units given by `addLamp` -/

/-- Effect of `addLamp` in a registered world when the address of the new lamp
is not in the registry. -/
theorem addLamp_eq (u : Universe) (name : String) (w type : Nat)
    (hw : w ∈ u.m_worlds.raw) (hfresh : u.nextLamp ∉ u.m_lamps.raw) :
    u.addLamp name (some w) type =
      ({ u with
          nextLamp := u.nextLamp + 1
          m_lamps := { u.m_lamps with raw := u.m_lamps.raw ++ [u.nextLamp], wasUpdated := true }
          lamps := fun q =>
            if q = u.nextLamp then
              VasnecovLamp.create name type
                (if u.m_lamps.raw.length < u.m_lampsCountMax then
                  (GL_LIGHT0 + u.m_lamps.raw.length) % GLuintRange
                else GL_LIGHT0)
            else u.lamps q
          worlds := fun x =>
            if x = w then
              { u.worlds w with elements := (u.worlds w).elements ++ [ElemRef.lamp u.nextLamp] }
            else u.worlds x },
        some u.nextLamp) := by
  simp [addLamp, ElementBox.findRawElement, hw, setLamp, ElementBox.addElement, hfresh,
    VasnecovWorld.designerAddElement, setWorld]

theorem addLamp_fields (u : Universe) (name : String) (w type : Nat)
    (hw : w ∈ u.m_worlds.raw) (hfresh : u.nextLamp ∉ u.m_lamps.raw) :
    (u.addLamp name (some w) type).2 = some u.nextLamp ∧
    (u.addLamp name (some w) type).1.nextLamp = u.nextLamp + 1 ∧
    (u.addLamp name (some w) type).1.m_lamps.raw = u.m_lamps.raw ++ [u.nextLamp] ∧
    (u.addLamp name (some w) type).1.m_worlds = u.m_worlds ∧
    (u.addLamp name (some w) type).1.m_lampsCountMax = u.m_lampsCountMax ∧
    ((u.addLamp name (some w) type).1.lamps u.nextLamp).index =
      (if u.m_lamps.raw.length < u.m_lampsCountMax then
        (GL_LIGHT0 + u.m_lamps.raw.length) % GLuintRange
      else GL_LIGHT0) ∧
    (∀ q, q ≠ u.nextLamp → (u.addLamp name (some w) type).1.lamps q = u.lamps q) := by
  rw [addLamp_eq u name w type hw hfresh]
  refine ⟨rfl, rfl, rfl, rfl, rfl, ?_, ?_⟩
  · simp [VasnecovLamp.create]
  · intro q hq
    simp [hq]

/-- Indices given by consecutive calls of `addLamp`. -/
theorem addLamps_spec (cs : List (String × Nat × Nat)) (u : Universe)
    (halloc : ∀ l ∈ u.m_lamps.raw, l < u.nextLamp)
    (hworlds : ∀ c ∈ cs, c.2.1 ∈ u.m_worlds.raw) :
    (u.addLamps cs).m_lamps.raw.length = u.m_lamps.raw.length + cs.length ∧
    (∀ q, q < u.nextLamp → (u.addLamps cs).lamps q = u.lamps q) ∧
    (∀ i, i < cs.length →
      ((u.addLamps cs).lamps (u.nextLamp + i)).index =
        if u.m_lamps.raw.length + i < u.m_lampsCountMax then
          (GL_LIGHT0 + (u.m_lamps.raw.length + i)) % GLuintRange
        else GL_LIGHT0) := by
  induction cs generalizing u with
  | nil => exact ⟨rfl, fun _ _ => rfl, fun i hi => absurd hi (Nat.not_lt_zero i)⟩
  | cons c cs ih =>
    have hfresh : u.nextLamp ∉ u.m_lamps.raw := fun hm => absurd (halloc _ hm) (by simp)
    have hw : c.2.1 ∈ u.m_worlds.raw := hworlds c (List.mem_cons_self _ _)
    obtain ⟨_, f1, f2, f3, f4, f5, f6⟩ := addLamp_fields u c.1 c.2.1 c.2.2 hw hfresh
    have hcons : u.addLamps (c :: cs) = (u.addLamp c.1 (some c.2.1) c.2.2).1.addLamps cs := rfl
    rw [hcons]
    generalize (u.addLamp c.1 (some c.2.1) c.2.2).1 = v at f1 f2 f3 f4 f5 f6
    obtain ⟨i1, i2, i3⟩ := ih v
      (by
        intro l hl
        rw [f2] at hl
        rw [f1]
        simp only [List.mem_append, List.mem_singleton] at hl
        rcases hl with hl | hl
        · exact Nat.lt_succ_of_lt (halloc l hl)
        · rw [hl]; exact Nat.lt_succ_self _)
      (fun x hx => by rw [f3]; exact hworlds x (List.mem_cons_of_mem _ hx))
    rw [f1, f2, f4] at *
    simp only [List.length_append, List.length_singleton] at i1 i3
    refine ⟨?_, ?_, ?_⟩
    · rw [i1, List.length_cons]; omega
    · intro q hq
      rw [i2 q (by omega), f6 q (Nat.ne_of_lt hq)]
    · intro i hi
      cases i with
      | zero =>
        rw [Nat.add_zero, Nat.add_zero, i2 u.nextLamp (Nat.lt_succ_self _), f5]
      | succ i =>
        have := i3 i (by simpa using hi)
        have e1 : u.nextLamp + (i + 1) = u.nextLamp + 1 + i := by omega
        have e2 : u.m_lamps.raw.length + (i + 1) = u.m_lamps.raw.length + 1 + i := by omega
        rw [e1, e2]
        exact this

/-! ## Balanced locking around the forced loads -/

theorem filterMap_toEvent (t : List LockEvent) :
    List.filterMap (LockStep.toEvent ∘ LockStep.event) t = t := by
  induction t with
  | nil => rfl
  | cons e t ih => simp [LockStep.toEvent, ih]

theorem eventsOf_map (t : List LockEvent) : eventsOf (t.map LockStep.event) = t := by
  simp [eventsOf, List.filterMap_map, filterMap_toEvent]

theorem eventsOf_append (a b : List LockStep) : eventsOf (a ++ b) = eventsOf a ++ eventsOf b := by
  simp [eventsOf, List.filterMap_append]

theorem loadMeshFileSteps_run (cfg : Config) (fs : FileSystem) (u : Universe)
    (fileName : List Char) :
    (loadMeshFileSteps cfg fs u fileName).foldl lockStep (some false) = some false := by
  simp only [loadMeshFileSteps, loadMeshFileTrace, addMeshTrace]
  repeat' split
  all_goals simp [lockStep]

theorem loadTextureFileSteps_run (cfg : Config) (fs : FileSystem) (u : Universe)
    (fileName : List Char) :
    (loadTextureFileSteps cfg fs u fileName).foldl lockStep (some false) = some false := by
  simp only [loadTextureFileSteps, loadTextureFileTrace, addTextureTrace]
  repeat' split
  all_goals simp [lockStep]

theorem addPartTailSteps_run (cfg : Config) (u : Universe) (w : Nat)
    (material parent : Option Nat) :
    ((addPartTailTrace cfg u w material parent).map LockStep.event).foldl lockStep (some true) =
      some false := by
  simp only [addPartTailTrace]
  repeat' split
  all_goals simp [lockStep]

theorem addLabelTailSteps_run (u : Universe) (w : Nat) :
    ((u.addLabelTailTrace w).map LockStep.event).foldl lockStep (some true) = some false := by
  simp only [addLabelTailTrace]
  repeat' split
  all_goals simp [lockStep]

theorem addPartSteps_balanced (cfg : Config) (fs : FileSystem) (u : Universe)
    (world : Option Nat) (meshName : List Char) (material parent : Option Nat) :
    balanced (addPartSteps cfg fs u world meshName material parent) = true := by
  simp only [addPartSteps, balanced]
  repeat' split
  all_goals
    simp [List.foldl_append, lockStep, loadMeshFileSteps_run, addPartTailSteps_run]

theorem addLabelSteps_balanced (cfg : Config) (fs : FileSystem) (u : Universe)
    (world : Option Nat) (textureName : List Char) :
    balanced (addLabelSteps cfg fs u world textureName) = true := by
  simp only [addLabelSteps, balanced]
  repeat' split
  all_goals
    simp [List.foldl_append, lockStep, loadTextureFileSteps_run, addLabelTailSteps_run]

theorem addMaterialTextureSteps_balanced (cfg : Config) (fs : FileSystem) (u : Universe)
    (textureName : List Char) :
    balanced (addMaterialTextureSteps cfg fs u textureName) = true := by
  simp only [addMaterialTextureSteps, balanced]
  repeat' split
  all_goals
    simp [List.foldl_append, lockStep, loadTextureFileSteps_run]

theorem addPartSteps_events (cfg : Config) (fs : FileSystem) (u : Universe)
    (world : Option Nat) (meshName : List Char) (material parent : Option Nat) :
    eventsOf (addPartSteps cfg fs u world meshName material parent) =
      addPartTrace cfg fs u world meshName material parent := by
  simp only [addPartSteps, addPartTrace, loadMeshFileSteps]
  repeat' split
  all_goals
    simp [eventsOf, List.filterMap_append, List.filterMap_map, filterMap_toEvent,
      LockStep.toEvent]

theorem addLabelSteps_events (cfg : Config) (fs : FileSystem) (u : Universe)
    (world : Option Nat) (textureName : List Char) :
    eventsOf (addLabelSteps cfg fs u world textureName) =
      addLabelTrace cfg fs u world textureName := by
  simp only [addLabelSteps, addLabelTrace, loadTextureFileSteps]
  repeat' split
  all_goals
    simp [eventsOf, List.filterMap_append, List.filterMap_map, filterMap_toEvent,
      LockStep.toEvent]

theorem addMaterialTextureSteps_events (cfg : Config) (fs : FileSystem) (u : Universe)
    (textureName : List Char) :
    eventsOf (addMaterialTextureSteps cfg fs u textureName) =
      addMaterialTextureTrace cfg fs u textureName := by
  simp only [addMaterialTextureSteps, addMaterialTextureTrace, loadTextureFileSteps]
  repeat' split
  all_goals
    simp [eventsOf, List.filterMap_append, List.filterMap_map, filterMap_toEvent,
      LockStep.toEvent]

/-! ## The texture cache does not influence `addPart` -/

theorem insertProduct_withTextures (u : Universe) (t : List (List Char × Nat)) (n : Nat)
    (wu : List UpdateFlag) (tl : List Nat) (w : Nat) (node : VasnecovProduct) :
    (u.withTextures t n wu tl).insertProduct w node =
      ((u.insertProduct w node).1.withTextures t n wu tl, (u.insertProduct w node).2) := by
  unfold insertProduct withTextures
  cases node.parent <;> rfl

theorem addPartTail_withTextures (cfg : Config) (u : Universe) (t : List (List Char × Nat))
    (n : Nat) (wu : List UpdateFlag) (tl : List Nat) (name : String) (w mesh : Nat)
    (material parent : Option Nat) :
    addPartTail cfg (u.withTextures t n wu tl) name w mesh material parent =
      ((addPartTail cfg u name w mesh material parent).1.withTextures t n wu tl,
        (addPartTail cfg u name w mesh material parent).2) := by
  have hc : childLevel cfg (u.withTextures t n wu tl) w parent = childLevel cfg u w parent := rfl
  have hw : (u.withTextures t n wu tl).m_worlds = u.m_worlds := rfl
  have hm : (u.withTextures t n wu tl).m_materials = u.m_materials := rfl
  unfold addPartTail
  rw [hc, hw, hm]
  simp only [insertProduct_withTextures]
  split
  · rfl
  · split
    · rfl
    · split <;> rfl

theorem loadMeshFile_withTextures (cfg : Config) (fs : FileSystem) (u : Universe)
    (t : List (List Char × Nat)) (n : Nat) (wu : List UpdateFlag) (tl : List Nat)
    (fileName : List Char) :
    loadMeshFile cfg fs (u.withTextures t n wu tl) fileName =
      ((loadMeshFile cfg fs u fileName).1.withTextures t n wu tl,
        (loadMeshFile cfg fs u fileName).2) := by
  simp only [loadMeshFile, addMesh, withTextures]
  split_ifs <;> rfl

theorem findOrLoadMesh_withTextures (cfg : Config) (fs : FileSystem) (u : Universe)
    (t : List (List Char × Nat)) (n : Nat) (wu : List UpdateFlag) (tl : List Nat)
    (meshName : List Char) :
    findOrLoadMesh cfg fs (u.withTextures t n wu tl) meshName =
      ((findOrLoadMesh cfg fs u meshName).1.withTextures t n wu tl,
        (findOrLoadMesh cfg fs u meshName).2) := by
  have hf : ∀ (v : Universe) (name : List Char),
      (v.withTextures t n wu tl).designerFindMesh name = v.designerFindMesh name :=
    fun _ _ => rfl
  unfold findOrLoadMesh
  simp only [loadMeshFile_withTextures, hf]
  split
  · rfl
  · split <;> rfl

theorem addPart_withTextures (cfg : Config) (fs : FileSystem) (u : Universe)
    (t : List (List Char × Nat)) (n : Nat) (wu : List UpdateFlag) (tl : List Nat)
    (name : String) (world : Option Nat) (meshName : List Char) (material parent : Option Nat) :
    addPart cfg fs (u.withTextures t n wu tl) name world meshName material parent =
      ((addPart cfg fs u name world meshName material parent).1.withTextures t n wu tl,
        (addPart cfg fs u name world meshName material parent).2) := by
  unfold addPart
  cases world with
  | none => rfl
  | some w =>
    simp only [findOrLoadMesh_withTextures, addPartTail_withTextures]
    split
    · split <;> rfl
    · rfl

/-- When `addMaterial(textureName)` returns null the state differs from the one
before at most in the texture cache. -/
theorem addMaterialTexture_none (cfg : Config) (fs : FileSystem) (u : Universe)
    (textureName : List Char) (h : (addMaterialTexture cfg fs u textureName).2 = none) :
    ∃ t n wu tl, (addMaterialTexture cfg fs u textureName).1 = u.withTextures t n wu tl := by
  have hu : ∃ t n wu tl, u = u.withTextures t n wu tl :=
    ⟨u.textures, u.nextTexture, u.wasUpdated, u.texturesForLoading, rfl⟩
  have hl := loadTextureFile_frame cfg fs u (correctFileId textureName cfg.cfg_textureFormat)
  have hins : ∀ (v : Universe) (tex : Option Nat), (v.insertMaterial tex).2 = none →
      (v.insertMaterial tex).1 = v := by
    intro v tex hn
    unfold insertMaterial at hn ⊢
    simp only at hn ⊢
    split
    · rename_i hr
      rw [if_pos hr] at hn
      cases hn
    · rfl
  obtain ⟨t, n, wu, tl, hl⟩ := hl
  have hl2 : ∃ t n wu tl, (loadTextureFile cfg fs u
      (correctFileId textureName cfg.cfg_textureFormat)).1 = u.withTextures t n wu tl :=
    ⟨t, n, wu, tl, hl⟩
  unfold addMaterialTexture at h ⊢
  cases hm : textureName.isEmpty
  · simp only [hm, Bool.not_false, if_true] at h ⊢
    cases hf : u.designerFindTexture (correctFileId textureName cfg.cfg_textureFormat) with
    | some tex =>
      simp only [hf] at h ⊢
      rw [hins u _ h]; exact hu
    | none =>
      simp only [hf] at h ⊢
      cases hr : (loadTextureFile cfg fs u (correctFileId textureName cfg.cfg_textureFormat)).2
      · simp only [hr, Bool.not_false, if_true]
        exact hl2
      · simp only [hr, Bool.not_true, Bool.false_eq_true, if_false] at h ⊢
        cases hf2 : (loadTextureFile cfg fs u
            (correctFileId textureName cfg.cfg_textureFormat)).1.designerFindTexture
            (correctFileId textureName cfg.cfg_textureFormat) with
        | none =>
          simp only [hf2]
          exact hl2
        | some tex =>
          simp only [hf2] at h ⊢
          rw [hins _ _ h]; exact hl2
  · simp only [hm, Bool.not_true, Bool.false_eq_true, if_false] at h ⊢
    rw [hins u _ h]; exact hu

/-! ## The materials of the registry stay distinct -/

theorem insertProduct_materials (u : Universe) (w : Nat) (node : VasnecovProduct) :
    (u.insertProduct w node).1.m_materials = u.m_materials := by
  unfold insertProduct
  cases node.parent <;> rfl

theorem insertMaterial_nodup {u : Universe} (h : u.m_materials.raw.Nodup)
    (texture : Option Nat) : (u.insertMaterial texture).1.m_materials.raw.Nodup := by
  unfold insertMaterial
  simp only [ElementBox.addElement]
  by_cases hm : u.nextMaterial ∈ u.m_materials.raw
  · simp only [hm, if_true, Bool.false_eq_true, if_false]
    exact h
  · simp only [hm, if_false, if_true]
    exact List.Nodup.append h (List.nodup_singleton _) (by simpa using hm)

theorem addMaterialTexture_nodup {u : Universe} (cfg : Config) (fs : FileSystem)
    (h : u.m_materials.raw.Nodup) (textureName : List Char) :
    (addMaterialTexture cfg fs u textureName).1.m_materials.raw.Nodup := by
  have hl : (loadTextureFile cfg fs u
      (correctFileId textureName cfg.cfg_textureFormat)).1.m_materials.raw.Nodup := by
    obtain ⟨t, n, wu, tl, hfr⟩ := loadTextureFile_frame cfg fs u
      (correctFileId textureName cfg.cfg_textureFormat)
    rw [hfr]
    exact h
  unfold addMaterialTexture
  simp only
  repeat' split
  all_goals first
    | exact insertMaterial_nodup h _
    | exact hl
    | exact insertMaterial_nodup hl _

theorem addPart_materials (cfg : Config) (fs : FileSystem) (u : Universe) (name : String)
    (world : Option Nat) (meshName : List Char) (material parent : Option Nat) :
    (addPart cfg fs u name world meshName material parent).1.m_materials = u.m_materials := by
  have hf : (findOrLoadMesh cfg fs u meshName).1.m_materials = u.m_materials := by
    obtain ⟨m, n, h⟩ := findOrLoadMesh_frame cfg fs u meshName
    rw [h]
  have ht : ∀ (v : Universe) (w mesh : Nat),
      (addPartTail cfg v name w mesh material parent).1.m_materials = v.m_materials := by
    intro v w mesh
    unfold addPartTail
    cases material <;> simp only <;> repeat' split
    all_goals first
      | rfl
      | exact insertProduct_materials v _ _
  unfold addPart
  cases world with
  | none => rfl
  | some w =>
    simp only
    split
    · split
      · exact hf
      · exact (ht _ _ _).trans hf
    · rfl

theorem removeFigure_materials (u : Universe) (figure : Option Nat) :
    (u.removeFigure figure).1.m_materials = u.m_materials := by
  cases figure with
  | none => rfl
  | some f =>
    by_cases hf : f ∈ u.m_figures.raw
    swap
    · simp only [removeFigure, ElementBox.findRawElement, hf, decide_False,
        Bool.false_eq_true, if_false]
    obtain ⟨g, hg, _⟩ := removeFromWorlds_fold (ElemRef.figure f) u.m_worlds.raw
      { u with m_figures := u.m_figures.removeElement f }
    have hfw : ({ u with m_figures := u.m_figures.removeElement f }).removeFromWorlds
        (ElemRef.figure f) = { u with m_figures := u.m_figures.removeElement f, worlds := g } := by
      unfold removeFromWorlds
      exact hg
    simp only [removeFigure, ElementBox.findRawElement, hf, decide_True, if_true, hfw,
      designerRemoveThisAlienMatrix_eq]

theorem removeLabel_materials (u : Universe) (label : Option Nat) :
    (u.removeLabel label).1.m_materials = u.m_materials := by
  cases label with
  | none => rfl
  | some l =>
    by_cases hl : l ∈ u.m_labels.raw
    swap
    · rw [removeLabel_unregistered u l hl]
    obtain ⟨g, hg, _⟩ := removeFromWorlds_fold (ElemRef.label l) u.m_worlds.raw
      { u with m_labels := u.m_labels.removeElement l }
    have hfw : ({ u with m_labels := u.m_labels.removeElement l }).removeFromWorlds
        (ElemRef.label l) = { u with m_labels := u.m_labels.removeElement l, worlds := g } := by
      unfold removeFromWorlds
      exact hg
    simp only [removeLabel, ElementBox.findRawElement, hl, decide_True, if_true, hfw,
      designerRemoveThisAlienMatrix_eq]

/-- Every call keeps the materials of the registry distinct. -/
theorem call_materials_nodup {u : Universe} (cfg : Config) (h : u.m_materials.raw.Nodup)
    (c : Call) : (call cfg u c).m_materials.raw.Nodup := by
  cases c with
  | scene op =>
    cases op with
    | addWorld posX posY width height =>
      simp only [call, step, addWorld]
      split <;> exact h
    | addLamp name world type =>
      simp only [call, step, addLamp]
      repeat' split
      all_goals exact h
    | referLampToWorld lamp world =>
      simp only [call, step, referLampToWorld]
      repeat' split
      all_goals exact h
    | addMaterial =>
      have := insertMaterial_nodup h none
      simp only [call, step, addMaterial]
      simp only [insertMaterial] at this
      exact this
    | addMaterialTexture fs textureName => exact addMaterialTexture_nodup cfg fs h _
    | addAssembly name world parent =>
      simp only [call, step, addAssembly]
      repeat' split
      all_goals first
        | exact h
        | (rw [insertProduct_materials]; exact h)
    | addPart fs name world meshName material parent =>
      simp only [call, step]
      rw [addPart_materials]
      exact h
    | addPartTexture fs name world meshName textureName parent =>
      simp only [call, step, addPartTexture]
      split
      · rw [addPart_materials]
        exact addMaterialTexture_nodup cfg fs h _
      · rw [addPart_materials]
        exact h
    | referProductToWorld product world =>
      simp only [call, step, referProductToWorld]
      repeat' split
      all_goals exact h
    | removeProduct product =>
      simp only [call, step]
      cases product with
      | none => exact h
      | some p =>
        by_cases hp : p ∈ u.m_products.raw
        · rw [removeProduct_materials_raw u p hp]
          exact h.sublist (List.diff_sublist _ _)
        · rw [removeProduct_unregistered u p hp]
          exact h
  | addFigure name world =>
    simp only [call, addFigure]
    repeat' split
    all_goals exact h
  | removeFigure figure =>
    simp only [call]
    rw [removeFigure_materials]
    exact h
  | addLabel fs name world width height textureName =>
    have htail : ∀ (v : Universe) (w : Nat) (t : Option Nat),
        (v.addLabelTail name w width height t).1.m_materials = v.m_materials := by
      intro v w t
      simp only [addLabelTail]
      repeat' split
      all_goals rfl
    have hf : (findOrLoadInterfaceTexture cfg fs u textureName).1.m_materials =
        u.m_materials := by
      obtain ⟨t, n, wu, tl, hfr⟩ := findOrLoadInterfaceTexture_frame cfg fs u textureName
      rw [hfr]
    simp only [call, addLabel]
    repeat' split
    all_goals first
      | exact h
      | (rw [hf]; exact h)
      | (rw [htail, hf]; exact h)
      | (rw [htail]; exact h)
  | referLabelToWorld label world =>
    simp only [call, referLabelToWorld]
    repeat' split
    all_goals exact h
  | removeLabel label =>
    simp only [call]
    rw [removeLabel_materials]
    exact h
  | setTexturesDir fs dir => exact h
  | setMeshesDir fs dir => exact h

/-- In every state reached from the fresh universe by calls of `Call` the
registry lists every material once. -/
theorem reachable_materials_nodup (cfg : Config)
    (dirs : List Char × List Char × List Char × List Char × List Char) (cs : List Call) :
    (calls cfg (Universe.empty cfg dirs) cs).m_materials.raw.Nodup := by
  have hgen : ∀ (cs : List Call) (u : Universe), u.m_materials.raw.Nodup →
      (calls cfg u cs).m_materials.raw.Nodup := by
    intro cs
    induction cs with
    | nil => exact fun u h => h
    | cons c cs ih => exact fun u h => ih _ (call_materials_nodup cfg h c)
  exact hgen cs _ (by simp [Universe.empty])

theorem removeFromWorlds_lampView (u : Universe) (e : ElemRef) :
    lampView (u.removeFromWorlds e) = lampView u := by
  obtain ⟨g, hg, _⟩ := removeFromWorlds_fold e u.m_worlds.raw u
  unfold removeFromWorlds
  rw [hg]
  rfl

theorem designerRemoveThisAlienMatrix_lampView (u : Universe) (a : ElemRef) :
    lampView (u.designerRemoveThisAlienMatrix a).1 = lampView u := by
  rw [designerRemoveThisAlienMatrix_eq]
  unfold lampView
  simp only [Prod.mk.injEq, true_and]
  funext l
  split <;> rfl

theorem removeProduct_lampView (u : Universe) (product : Option Nat) :
    lampView (u.removeProduct product).1 = lampView u := by
  cases product with
  | none => rfl
  | some p =>
    by_cases hp : p ∈ u.m_products.raw
    · have hs := (removeProduct_spec u p hp).2
      unfold lampView
      rw [hs.frame.m_lamps, hs.frame.nextLamp]
      simp only [Prod.mk.injEq]
      refine ⟨rfl, rfl, ?_⟩
      funext l
      rw [hs.lampEq l]
      split <;> rfl
    · rw [removeProduct_unregistered u p hp]

theorem insertProduct_lampView (u : Universe) (w : Nat) (node : VasnecovProduct) :
    lampView (u.insertProduct w node).1 = lampView u := by
  unfold insertProduct
  simp only
  split <;> rfl

theorem loadTextureFile_lampView (cfg : Config) (fs : FileSystem) (u : Universe)
    (fileName : List Char) :
    lampView (loadTextureFile cfg fs u fileName).1 = lampView u := by
  obtain ⟨t, n, wu, tl, h⟩ := loadTextureFile_frame cfg fs u fileName
  rw [h]
  rfl

theorem insertMaterial_lampView (u : Universe) (texture : Option Nat) :
    lampView (u.insertMaterial texture).1 = lampView u := by
  unfold insertMaterial
  simp only
  split <;> rfl

theorem addMaterialTexture_lampView (cfg : Config) (fs : FileSystem) (u : Universe)
    (textureName : List Char) :
    lampView (addMaterialTexture cfg fs u textureName).1 = lampView u := by
  have hl := loadTextureFile_lampView cfg fs u (correctFileId textureName cfg.cfg_textureFormat)
  unfold addMaterialTexture
  simp only
  repeat' split
  all_goals first
    | exact insertMaterial_lampView u _
    | exact hl
    | exact (insertMaterial_lampView _ _).trans hl

theorem addPartTail_lampView (cfg : Config) (u : Universe) (name : String) (w : Nat)
    (mesh : Nat) (material parent : Option Nat) :
    lampView (addPartTail cfg u name w mesh material parent).1 = lampView u := by
  unfold addPartTail
  cases material <;> simp only <;> repeat' split
  all_goals first
    | rfl
    | exact insertProduct_lampView u _ _

theorem addPart_lampView (cfg : Config) (fs : FileSystem) (u : Universe) (name : String)
    (world : Option Nat) (meshName : List Char) (material parent : Option Nat) :
    lampView (addPart cfg fs u name world meshName material parent).1 = lampView u := by
  have hf : lampView (findOrLoadMesh cfg fs u meshName).1 = lampView u := by
    obtain ⟨m, n, h⟩ := findOrLoadMesh_frame cfg fs u meshName
    rw [h]
    rfl
  unfold addPart
  cases world with
  | none => rfl
  | some w =>
    simp only
    split
    · split
      · exact hf
      · exact (addPartTail_lampView cfg _ _ _ _ _ _).trans hf
    · rfl

/-- Every call other than `addLamp` leaves the lamp registry, the allocation
counter of the lamps and the light unit of every lamp as they were. -/
theorem call_lampView (cfg : Config) (u : Universe) (c : Call)
    (hc : ∀ name world type, c ≠ Call.scene (Op.addLamp name world type)) :
    lampView (call cfg u c) = lampView u := by
  cases c with
  | scene op =>
    cases op with
    | addWorld posX posY width height =>
      simp only [call, step, addWorld]
      split <;> rfl
    | addLamp name world type => exact absurd rfl (hc name world type)
    | referLampToWorld lamp world =>
      simp only [call, step, referLampToWorld]
      repeat' split
      all_goals rfl
    | addMaterial =>
      simp only [call, step, addMaterial]
      split <;> rfl
    | addMaterialTexture fs textureName => exact addMaterialTexture_lampView cfg fs u _
    | addAssembly name world parent =>
      simp only [call, step, addAssembly]
      repeat' split
      all_goals first
        | rfl
        | exact insertProduct_lampView u _ _
    | addPart fs name world meshName material parent =>
      exact addPart_lampView cfg fs u _ _ _ _ _
    | addPartTexture fs name world meshName textureName parent =>
      simp only [call, step, addPartTexture]
      split
      · exact (addPart_lampView cfg fs _ _ _ _ _ _).trans (addMaterialTexture_lampView cfg fs u _)
      · exact addPart_lampView cfg fs u _ _ _ _ _
    | referProductToWorld product world =>
      simp only [call, step, referProductToWorld]
      repeat' split
      all_goals rfl
    | removeProduct product => exact removeProduct_lampView u _
  | addFigure name world =>
    simp only [call, addFigure]
    repeat' split
    all_goals rfl
  | removeFigure figure =>
    simp only [call, removeFigure]
    repeat' split
    all_goals first
      | rfl
      | exact (designerRemoveThisAlienMatrix_lampView _ _).trans (removeFromWorlds_lampView _ _)
  | addLabel fs name world width height textureName =>
    have htail : ∀ (v : Universe) (w : Nat) (t : Option Nat),
        lampView (v.addLabelTail name w width height t).1 = lampView v := by
      intro v w t
      simp only [addLabelTail]
      repeat' split
      all_goals rfl
    have hf : lampView (findOrLoadInterfaceTexture cfg fs u textureName).1 = lampView u := by
      obtain ⟨t, n, wu, tl, h⟩ := findOrLoadInterfaceTexture_frame cfg fs u textureName
      rw [h]
      rfl
    simp only [call, addLabel]
    repeat' split
    all_goals first
      | rfl
      | exact hf
      | exact (htail _ _ _).trans hf
      | exact htail _ _ _
  | referLabelToWorld label world =>
    simp only [call, referLabelToWorld]
    repeat' split
    all_goals rfl
  | removeLabel label =>
    simp only [call, removeLabel]
    repeat' split
    all_goals first
      | rfl
      | exact (designerRemoveThisAlienMatrix_lampView _ _).trans (removeFromWorlds_lampView _ _)
  | setTexturesDir fs dir => rfl
  | setMeshesDir fs dir => rfl

theorem LampInv_of_view {u v : Universe} (h : LampInv u) (hv : lampView v = lampView u) :
    LampInv v := by
  unfold lampView at hv
  simp only [Prod.mk.injEq] at hv
  obtain ⟨h1, h2, h3⟩ := hv
  have hidx : v.pureLampIndices = u.pureLampIndices := by
    unfold pureLampIndices
    rw [h1]
    exact congrArg (fun f => u.m_lamps.pure.map f) h3
  refine ⟨?_, ?_, ?_, ?_, ?_⟩
  · rw [h1]; exact h.rawNodup
  · rw [h1, h2]; exact h.rawAlloc
  · rw [h1]; exact h.pureSub
  · rw [h1]; exact h.clean
  · rw [h1, hidx]; exact h.contiguous

theorem addLamp_LampInv {u : Universe} (h : LampInv u) (name : String) (world : Option Nat)
    (type : Nat) : LampInv (u.addLamp name world type).1 := by
  cases world with
  | none => exact h
  | some w =>
    by_cases hw : w ∈ u.m_worlds.raw
    swap
    · have : u.addLamp name (some w) type = (u, none) := by
        simp [addLamp, ElementBox.findRawElement, hw]
      rw [this]
      exact h
    have hfresh : u.nextLamp ∉ u.m_lamps.raw := fun hm => absurd (h.rawAlloc _ hm) (by simp)
    rw [addLamp_eq u name w type hw hfresh]
    refine ⟨?_, ?_, ?_, ?_, ?_⟩
    · exact List.Nodup.append h.rawNodup (List.nodup_singleton _) (by simpa using hfresh)
    · intro l hl
      simp only [List.mem_append, List.mem_singleton] at hl
      rcases hl with hl | hl
      · exact Nat.lt_succ_of_lt (h.rawAlloc l hl)
      · rw [hl]; exact Nat.lt_succ_self _
    · exact h.pureSub.trans (List.sublist_append_left _ _)
    · intro hc
      cases hc
    · intro hlen
      simp only [List.length_append, List.length_singleton] at hlen
      have hold := h.contiguous (by omega)
      unfold pureLampIndices at hold ⊢
      simp only
      rw [← hold]
      apply List.map_congr_left
      intro l hl
      have hlt : l < u.nextLamp := h.rawAlloc l (h.pureSub.subset hl)
      simp [Nat.ne_of_lt hlt]

theorem reindex_fold_frame (L : List Nat) (u : Universe) (b : Nat) :
    (L.foldl (fun (acc : Universe × Nat) l =>
        (acc.1.setLamp l ((acc.1.lamps l).renderSetIndex acc.2), (acc.2 + 1) % GLuintRange))
      (u, b)).1.m_lamps = u.m_lamps ∧
    (L.foldl (fun (acc : Universe × Nat) l =>
        (acc.1.setLamp l ((acc.1.lamps l).renderSetIndex acc.2), (acc.2 + 1) % GLuintRange))
      (u, b)).1.nextLamp = u.nextLamp := by
  induction L generalizing u b with
  | nil => exact ⟨rfl, rfl⟩
  | cons l L ih =>
    rw [List.foldl_cons]
    obtain ⟨h1, h2⟩ := ih (u.setLamp l ((u.lamps l).renderSetIndex b)) ((b + 1) % GLuintRange)
    exact ⟨h1, h2⟩

/-- The lamp registry after a pass that acquires the lock is the synchronized
one, and the pass allocates no lamp. -/
theorem renderUpdateData_lamps_box (u : Universe) (hlock : u.mtxLocked = false) :
    u.renderUpdateData.1.m_lamps = u.m_lamps.synchronize.1 ∧
    u.renderUpdateData.1.nextLamp = u.nextLamp := by
  have hre : ∀ v : Universe, v.reindexLamps.m_lamps = v.m_lamps ∧
      v.reindexLamps.nextLamp = v.nextLamp := fun v => reindex_fold_frame _ v _
  have hsync : ∀ v : Universe, v.m_lamps = u.m_lamps → v.nextLamp = u.nextLamp →
      (if (if v.synchronizeAll.2 = true then (1 : Nat) else 0) ≠ 0 then
          v.synchronizeAll.1.reindexLamps else v.synchronizeAll.1).m_lamps =
        u.m_lamps.synchronize.1 ∧
      (if (if v.synchronizeAll.2 = true then (1 : Nat) else 0) ≠ 0 then
          v.synchronizeAll.1.reindexLamps else v.synchronizeAll.1).nextLamp = u.nextLamp := by
    intro v hv1 hv2
    have hb : v.synchronizeAll.1.m_lamps = u.m_lamps.synchronize.1 := by
      rw [← hv1]; rfl
    have hn : v.synchronizeAll.1.nextLamp = u.nextLamp := hv2
    cases hs : v.synchronizeAll.2
    · simp only [Bool.false_eq_true, if_false, ne_eq, not_true_eq_false]
      exact ⟨hb, hn⟩
    · simp only [if_true, ne_eq, one_ne_zero, not_false_eq_true]
      rw [(hre v.synchronizeAll.1).1, (hre v.synchronizeAll.1).2]
      exact ⟨hb, hn⟩
  have hmain := hsync (if u.wasUpdated ≠ [] then u.updateSettings else u)
    (by split <;> rfl) (by split <;> rfl)
  unfold renderUpdateData
  simp only [hlock, Bool.false_eq_true, if_false]
  generalize (if u.wasUpdated ≠ [] then u.updateSettings else u) = v at hmain
  generalize (if (if v.synchronizeAll.2 = true then (1 : Nat) else 0) ≠ 0 then
    v.synchronizeAll.1.reindexLamps else v.synchronizeAll.1) = x at hmain
  repeat' split
  all_goals exact hmain

theorem renderUpdateData_LampInv {u : Universe} (h : LampInv u) :
    LampInv u.renderUpdateData.1 := by
  cases hlock : u.mtxLocked
  swap
  · have : u.renderUpdateData = (u, 0) := by
      unfold renderUpdateData
      rw [if_pos hlock]
    rw [this]
    exact h
  obtain ⟨hbox, hnext⟩ := renderUpdateData_lamps_box u hlock
  have hraw : u.renderUpdateData.1.m_lamps.raw = u.m_lamps.raw := by
    rw [hbox]
    unfold ElementBox.synchronize
    split <;> rfl
  have hpure : u.renderUpdateData.1.m_lamps.pure = u.m_lamps.raw := by
    rw [hbox]
    unfold ElementBox.synchronize
    split
    · rfl
    · rename_i hd
      exact h.clean (by simpa using hd)
  have hpnd : u.m_lamps.pure.Nodup := h.rawNodup.sublist h.pureSub
  have hplen : u.m_lamps.pure.length ≤ u.m_lamps.raw.length := h.pureSub.length_le
  refine ⟨?_, ?_, ?_, ?_, ?_⟩
  · rw [hraw]; exact h.rawNodup
  · rw [hraw, hnext]; exact h.rawAlloc
  · rw [hraw, hpure]
  · intro _
    rw [hraw, hpure]
  · intro hlen
    rw [hraw] at hlen
    obtain ⟨hch, hno⟩ := renderUpdateData_reindexes_on_change u hlock h.rawNodup hpnd hlen
      (by omega)
    cases hs : u.synchronizeAll.2
    · obtain ⟨hp, hl⟩ := hno hs
      unfold pureLampIndices
      rw [hp, hl]
      exact h.contiguous hlen
    · exact hch hs

theorem renderInitialize_lampView (gl : GLInfo) (u : Universe) :
    lampView (renderInitialize gl u) = lampView u := by
  have h1 : (renderInitialize gl u).m_lamps = u.m_lamps := rfl
  have h2 : (renderInitialize gl u).nextLamp = u.nextLamp := rfl
  have h3 : (renderInitialize gl u).lamps = u.lamps := rfl
  unfold lampView
  rw [h1, h2, h3]

theorem info_lampView (u : Universe) (type : Nat) : lampView (info u type).1 = lampView u := by
  have hv : ∀ v : Universe, lampView v.updateTechVersion = lampView v := fun _ => rfl
  have hr : ∀ v : Universe, lampView v.updateTechRenderer = lampView v := fun _ => rfl
  have hs : ∀ v : Universe, lampView v.updateTechSL = lampView v := fun _ => rfl
  have he : ∀ v : Universe, lampView v.updateTechExtensions = lampView v := fun _ => rfl
  unfold info
  repeat' split
  · exact hv u
  · exact hr u
  · exact hs u
  · exact he u
  · exact (he _).trans ((hs _).trans ((hr _).trans (hv u)))

theorem act_LampInv {u : Universe} (cfg : Config) (h : LampInv u) (a : Act) :
    LampInv (act cfg u a) := by
  cases a with
  | call c =>
    by_cases hc : ∃ name world type, c = Call.scene (Op.addLamp name world type)
    · obtain ⟨name, world, type, rfl⟩ := hc
      exact addLamp_LampInv h name world type
    · exact LampInv_of_view h (call_lampView cfg u c
        (fun name world type he => hc ⟨name, world, type, he⟩))
  | renderUpdateData => exact renderUpdateData_LampInv h
  | renderInitialize gl => exact LampInv_of_view h (renderInitialize_lampView gl u)
  | info type => exact LampInv_of_view h (info_lampView u type)
  | otherThreadLock locked =>
    refine LampInv_of_view h ?_
    simp only [act, lampView]

theorem perform_LampInv {u : Universe} (cfg : Config) (h : LampInv u) (acts : List Act) :
    LampInv (perform cfg u acts) := by
  induction acts generalizing u with
  | nil => exact h
  | cons a acts ih => exact ih (act_LampInv cfg h a)

theorem empty_LampInv (cfg : Config)
    (dirs : List Char × List Char × List Char × List Char × List Char) :
    LampInv (Universe.empty cfg dirs) := by
  constructor <;> simp [Universe.empty, pureLampIndices]

end Universe
end Vasnecov

/-! ## The claims -/

namespace Vasnecov
namespace Universe

/-- C1. The failing input of the material pruning loop of `removeProduct`:
in `sharedMaterialScene` the parts 1 and 2 below assembly 0 and the part 3
outside it share material 0. `removeProduct(0)` returns true, part 3 stays
registered and still references material 0, but material 0 has left the
registry. -/
theorem removeProduct_drops_shared_material :
    (sharedMaterialScene.removeProduct (some 0)).2 = true ∧
    3 ∈ (sharedMaterialScene.removeProduct (some 0)).1.m_products.raw ∧
    ((sharedMaterialScene.removeProduct (some 0)).1.products 3).material = some 0 ∧
    0 ∉ (sharedMaterialScene.removeProduct (some 0)).1.m_materials.raw := by
  decide

/-- C2. For a registered product `p` whose descendant list has `N` distinct
registered members, `removeProduct(p)` returns true, the products registered
afterwards are exactly the old ones other than `p` and its descendants, and
exactly `N + 1` products leave the registry. The registry lists each product
once and `p` is not among its own descendants (both hold in every well-formed
state, see `WF.prodNodup` and `designerAllChildren_sound`). -/
theorem removeProduct_removes_exactly_subtree (u : Universe) (p : Nat)
    (hp : p ∈ u.m_products.raw) (hnd : u.m_products.raw.Nodup)
    (hself : p ∉ u.designerAllChildren p) :
    (u.removeProduct (some p)).2 = true ∧
    (∀ q, q ∈ (u.removeProduct (some p)).1.m_products.raw ↔
      q ∈ u.m_products.raw ∧ q ≠ p ∧ q ∉ u.designerAllChildren p) ∧
    (u.removeProduct (some p)).1.m_products.raw.length +
        (((u.designerAllChildren p).dedup.filter (fun x => decide (x ∈ u.m_products.raw))).length
          + 1) =
      u.m_products.raw.length := by
  refine ⟨(removeProduct_spec u p hp).1, ?_, ?_⟩
  · intro q
    rw [removeProduct_products_raw u p hp, hnd.mem_diff_iff]
    simp only [delProd, List.mem_append, List.mem_singleton, not_or]
    tauto
  · rw [removeProduct_products_raw u p hp, hnd.diff_eq_filter,
      ← length_filter_mem_of_nodup hnd hp hself,
      List.length_eq_length_filter_add (l := u.m_products.raw)
        (fun x => decide (x ∈ u.designerAllChildren p ++ [p]))]
    rw [Nat.add_comm]
    congr 2
    apply List.filter_congr
    intro x _
    simp [delProd]

/-- Witness of C2: assembly 0 of `sharedMaterialScene` has two registered
descendants, and three of the four products leave the registry. -/
theorem removeProduct_removes_exactly_subtree_witness :
    0 ∈ sharedMaterialScene.m_products.raw ∧ sharedMaterialScene.m_products.raw.Nodup ∧
    0 ∉ sharedMaterialScene.designerAllChildren 0 ∧
    (sharedMaterialScene.removeProduct (some 0)).2 = true ∧
    (∀ q, q ∈ (sharedMaterialScene.removeProduct (some 0)).1.m_products.raw ↔
      q ∈ sharedMaterialScene.m_products.raw ∧ q ≠ 0 ∧
        q ∉ sharedMaterialScene.designerAllChildren 0) ∧
    (sharedMaterialScene.removeProduct (some 0)).1.m_products.raw.length +
        (((sharedMaterialScene.designerAllChildren 0).dedup.filter
            (fun x => decide (x ∈ sharedMaterialScene.m_products.raw))).length + 1) =
      sharedMaterialScene.m_products.raw.length :=
  ⟨by decide, by decide, by decide,
    removeProduct_removes_exactly_subtree sharedMaterialScene 0 (by decide) (by decide)
      (by decide)⟩

/-- C3. After `removeProduct(p)` has returned true in a well-formed state,
`p` and each of its descendants `d` (every product listed by
`designerAllChildren`, which lists exactly the descendants) is no longer found
in the registry, is in the element list of no registered world, and is in the
child list of no product that is still registered. -/
theorem removeProduct_no_dangling_reference (cfg : Config) (u : Universe) (p : Nat)
    (h : WF cfg u) (hret : (u.removeProduct (some p)).2 = true) :
    (∀ d, IsDescendant u p d ↔ d ∈ u.designerAllChildren p) ∧
    ∀ d, d = p ∨ IsDescendant u p d →
      (u.removeProduct (some p)).1.m_products.findRawElement d = false ∧
      (∀ w ∈ (u.removeProduct (some p)).1.m_worlds.raw,
        ElemRef.product d ∉ ((u.removeProduct (some p)).1.worlds w).elements) ∧
      (∀ q ∈ (u.removeProduct (some p)).1.m_products.raw,
        d ∉ ((u.removeProduct (some p)).1.products q).children) := by
  have hp := removeProduct_true_registered u p hret
  have hiff : ∀ d, IsDescendant u p d ↔ d ∈ u.designerAllChildren p := fun d =>
    ⟨designerAllChildren_complete h p hp d, allChildrenAux_isDescendant u _ p d⟩
  refine ⟨hiff, ?_⟩
  intro d hdesc
  have hd : d ∈ u.designerAllChildren p ++ [p] := by
    rcases hdesc with rfl | hdesc
    · simp
    · exact List.mem_append_left _ ((hiff d).1 hdesc)
  have hWF := removeProduct_WF h (some p)
  obtain ⟨-, hs⟩ := removeProduct_spec u p hp
  have hraw := removeProduct_products_raw u p hp
  have hgone : d ∉ (u.removeProduct (some p)).1.m_products.raw := by
    rw [hraw, h.prodNodup.mem_diff_iff]
    exact fun hc => hc.2 hd
  refine ⟨?_, ?_, ?_⟩
  · simp [ElementBox.findRawElement, hgone]
  · intro w hw
    have hw' : w ∈ u.m_worlds.raw := by rw [hs.frame.m_worlds] at hw; exact hw
    exact hs.worldGone w d hw' hd (h.worldElemNodup w hw')
  · intro q hq hc
    exact hgone (hWF.childrenOk q hq d hc).1

/-- Witness of C3: assembly 0 of `sharedMaterialScene` and its part 1. -/
theorem removeProduct_no_dangling_reference_witness :
    WF exampleConfig sharedMaterialScene ∧
    (sharedMaterialScene.removeProduct (some 0)).2 = true ∧
    (sharedMaterialScene.removeProduct (some 0)).1.m_products.findRawElement 1 = false ∧
    (∀ w ∈ (sharedMaterialScene.removeProduct (some 0)).1.m_worlds.raw,
      ElemRef.product 1 ∉ ((sharedMaterialScene.removeProduct (some 0)).1.worlds w).elements) ∧
    (∀ q ∈ (sharedMaterialScene.removeProduct (some 0)).1.m_products.raw,
      1 ∉ ((sharedMaterialScene.removeProduct (some 0)).1.products q).children) :=
  ⟨sharedMaterialScene_WF, by decide,
    (removeProduct_no_dangling_reference exampleConfig sharedMaterialScene 0
      sharedMaterialScene_WF (by decide)).2 1
      (Or.inr (IsDescendant.child (by decide)))⟩

/-- C4. After `removeProduct(p)` has returned true, no lamp, product, figure
or label left in the registry holds an alien-matrix reference to the exporting
matrix of `p` or of one of its descendants, and a reference of such an element
that pointed at none of those matrices is unchanged. -/
theorem removeProduct_clears_alien_matrices (u : Universe) (p : Nat)
    (hret : (u.removeProduct (some p)).2 = true) :
    (∀ l ∈ (u.removeProduct (some p)).1.m_lamps.raw,
      (∀ d ∈ u.designerAllChildren p ++ [p],
        ((u.removeProduct (some p)).1.lamps l).alienMs ≠ some (ElemRef.product d)) ∧
      ((∀ d ∈ u.designerAllChildren p ++ [p], (u.lamps l).alienMs ≠ some (ElemRef.product d)) →
        ((u.removeProduct (some p)).1.lamps l).alienMs = (u.lamps l).alienMs)) ∧
    (∀ q ∈ (u.removeProduct (some p)).1.m_products.raw,
      (∀ d ∈ u.designerAllChildren p ++ [p],
        ((u.removeProduct (some p)).1.products q).alienMs ≠ some (ElemRef.product d)) ∧
      ((∀ d ∈ u.designerAllChildren p ++ [p],
          (u.products q).alienMs ≠ some (ElemRef.product d)) →
        ((u.removeProduct (some p)).1.products q).alienMs = (u.products q).alienMs)) ∧
    (∀ f ∈ (u.removeProduct (some p)).1.m_figures.raw,
      (∀ d ∈ u.designerAllChildren p ++ [p],
        ((u.removeProduct (some p)).1.figures f).alienMs ≠ some (ElemRef.product d)) ∧
      ((∀ d ∈ u.designerAllChildren p ++ [p],
          (u.figures f).alienMs ≠ some (ElemRef.product d)) →
        ((u.removeProduct (some p)).1.figures f).alienMs = (u.figures f).alienMs)) ∧
    (∀ l ∈ (u.removeProduct (some p)).1.m_labels.raw,
      (∀ d ∈ u.designerAllChildren p ++ [p],
        ((u.removeProduct (some p)).1.labels l).alienMs ≠ some (ElemRef.product d)) ∧
      ((∀ d ∈ u.designerAllChildren p ++ [p], (u.labels l).alienMs ≠ some (ElemRef.product d)) →
        ((u.removeProduct (some p)).1.labels l).alienMs = (u.labels l).alienMs)) := by
  have hp := removeProduct_true_registered u p hret
  obtain ⟨-, hs⟩ := removeProduct_spec u p hp
  have hD : u.delProd p = u.designerAllChildren p ++ [p] := rfl
  rw [hD] at hs
  refine ⟨?_, ?_, ?_, ?_⟩
  · intro l hl
    have hl' : l ∈ (u.afterRegistryRemoval p).m_lamps.raw := by
      rw [← hs.frame.m_lamps]; exact hl
    rw [hs.lampEq l]
    simp only [hl', if_true]
    exact clearRefs_spec _ _
  · intro q hq
    have hq' : q ∈ (u.afterRegistryRemoval p).m_products.raw := by
      rw [← hs.frame.m_products]; exact hq
    rw [hs.prodAlien q]
    simp only [hq', if_true]
    exact clearRefs_spec _ _
  · intro f hf
    have hf' : f ∈ (u.afterRegistryRemoval p).m_figures.raw := by
      rw [← hs.frame.m_figures]; exact hf
    rw [hs.figureEq f]
    simp only [hf', if_true]
    exact clearRefs_spec _ _
  · intro l hl
    have hl' : l ∈ (u.afterRegistryRemoval p).m_labels.raw := by
      rw [← hs.frame.m_labels]; exact hl
    rw [hs.labelEq l]
    simp only [hl', if_true]
    exact clearRefs_spec _ _

/-- Witness of C4: in `alienScene` the removal of assembly 0 clears the
reference of lamp 0 to part 1 and keeps the reference of lamp 1 to part 3. -/
theorem removeProduct_clears_alien_matrices_witness :
    (alienScene.removeProduct (some 0)).2 = true ∧
    ((alienScene.removeProduct (some 0)).1.lamps 0).alienMs ≠ some (ElemRef.product 1) ∧
    ((alienScene.removeProduct (some 0)).1.lamps 1).alienMs = some (ElemRef.product 3) :=
  ⟨by decide,
    ((removeProduct_clears_alien_matrices alienScene 0 (by decide)).1 0 (by decide)).1 1
      (by decide),
    ((removeProduct_clears_alien_matrices alienScene 0 (by decide)).1 1 (by decide)).2
      (by decide)⟩

/-- C5. For a registered world `w` and a parent product `q` listed in `w`:
with the parent one level below `cfg_elementMaxLevel`, `addAssembly` succeeds
and the new node has level `cfg_elementMaxLevel`, and so does `addPart` once
its mesh is found and its material is null or registered; with the parent at
`cfg_elementMaxLevel`, `addAssembly` returns null and leaves the whole state
as it was, and `addPart` returns null and leaves the registry, every world
and every product as they were. -/
theorem addProduct_depth_limit (cfg : Config)
    (hcfg : cfg.cfg_elementMaxLevel + 1 < GLuintRange) (fs : FileSystem) (u : Universe)
    (name : String) (w q : Nat) (meshName : List Char) (material : Option Nat)
    (hw : w ∈ u.m_worlds.raw) (hq : ElemRef.product q ∈ (u.worlds w).elements) :
    ((u.products q).level + 1 = cfg.cfg_elementMaxLevel →
      (∃ n, (u.addAssembly cfg name (some w) (some q)).2 = some n ∧
        ((u.addAssembly cfg name (some w) (some q)).1.products n).level =
          cfg.cfg_elementMaxLevel) ∧
      (∀ mesh, meshName ≠ [] → (findOrLoadMesh cfg fs u meshName).2 = some mesh →
        (∀ m, material = some m → m ∈ u.m_materials.raw) →
        ∃ n, (addPart cfg fs u name (some w) meshName material (some q)).2 = some n ∧
          ((addPart cfg fs u name (some w) meshName material (some q)).1.products n).level =
            cfg.cfg_elementMaxLevel)) ∧
    ((u.products q).level = cfg.cfg_elementMaxLevel →
      u.addAssembly cfg name (some w) (some q) = (u, none) ∧
      (addPart cfg fs u name (some w) meshName material (some q)).2 = none ∧
      (addPart cfg fs u name (some w) meshName material (some q)).1.m_worlds = u.m_worlds ∧
      (addPart cfg fs u name (some w) meshName material (some q)).1.m_materials =
        u.m_materials ∧
      (addPart cfg fs u name (some w) meshName material (some q)).1.m_lamps = u.m_lamps ∧
      (addPart cfg fs u name (some w) meshName material (some q)).1.m_products =
        u.m_products ∧
      (addPart cfg fs u name (some w) meshName material (some q)).1.m_figures = u.m_figures ∧
      (addPart cfg fs u name (some w) meshName material (some q)).1.m_labels = u.m_labels ∧
      (addPart cfg fs u name (some w) meshName material (some q)).1.worlds = u.worlds ∧
      (addPart cfg fs u name (some w) meshName material (some q)).1.products = u.products) := by
  obtain ⟨ms, nm, hload⟩ := findOrLoadMesh_frame cfg fs u meshName
  constructor
  · intro hlev
    have hmod : ((u.products q).level + 1) % GLuintRange = cfg.cfg_elementMaxLevel := by
      rw [hlev]; exact Nat.mod_eq_of_lt (by omega)
    have hcl : childLevel cfg u w (some q) = some cfg.cfg_elementMaxLevel := by
      rw [childLevel_parent cfg u w q hq, hmod]; simp
    constructor
    · refine ⟨u.nextProduct, ?_⟩
      simp only [addAssembly, ElementBox.findRawElement, hw, decide_True, Bool.not_true,
        Bool.false_eq_true, if_false, hcl]
      exact insertProduct_result u w _
    · intro mesh hne hmesh hmat
      refine ⟨u.nextProduct, ?_⟩
      have hcl2 : childLevel cfg (findOrLoadMesh cfg fs u meshName).1 w (some q) =
          some cfg.cfg_elementMaxLevel := by
        rw [hload]; exact hcl
      have hw2 : w ∈ (findOrLoadMesh cfg fs u meshName).1.m_worlds.raw := by
        rw [hload]; exact hw
      have hmat2 : ∀ m, material = some m →
          decide (m ∈ (findOrLoadMesh cfg fs u meshName).1.m_materials.raw) = true := by
        intro m hm
        rw [hload]
        simp [hmat m hm]
      have hnext : (findOrLoadMesh cfg fs u meshName).1.nextProduct = u.nextProduct := by
        rw [hload]
      have hemp : meshName.isEmpty = false := by
        cases meshName with
        | nil => exact absurd rfl hne
        | cons c cs => rfl
      rw [← hnext]
      cases material with
      | none =>
        simp only [addPart, hemp, Bool.not_false, if_true, hmesh, addPartTail,
          ElementBox.findRawElement, hw2, decide_True, Bool.not_true, Bool.false_eq_true,
          if_false, hcl2]
        exact insertProduct_result _ w _
      | some m =>
        simp only [addPart, hemp, Bool.not_false, if_true, hmesh, addPartTail,
          ElementBox.findRawElement, hw2, decide_True, Bool.not_true, Bool.false_eq_true,
          if_false, hcl2, hmat2 m rfl]
        exact insertProduct_result _ w _
  · intro hlev
    have hmod : ((u.products q).level + 1) % GLuintRange = cfg.cfg_elementMaxLevel + 1 := by
      rw [hlev]; exact Nat.mod_eq_of_lt hcfg
    have hcl : childLevel cfg u w (some q) = none := by
      rw [childLevel_parent cfg u w q hq, hmod]; simp
    constructor
    · simp [addAssembly, ElementBox.findRawElement, hw, hcl]
    · have hcl2 : childLevel cfg (findOrLoadMesh cfg fs u meshName).1 w (some q) = none := by
        rw [hload]; exact hcl
      have key : (addPart cfg fs u name (some w) meshName material (some q)).2 = none ∧
          ((addPart cfg fs u name (some w) meshName material (some q)).1 = u ∨
           (addPart cfg fs u name (some w) meshName material (some q)).1 =
             (findOrLoadMesh cfg fs u meshName).1) := by
        unfold addPart
        simp only
        split
        · split
          · exact ⟨rfl, Or.inr rfl⟩
          · unfold addPartTail
            simp only [hcl2]
            repeat' split
            all_goals exact ⟨rfl, Or.inr rfl⟩
        · exact ⟨rfl, Or.inl rfl⟩
      refine ⟨key.1, ?_⟩
      rcases key.2 with hk | hk
      · rw [hk]; exact ⟨rfl, rfl, rfl, rfl, rfl, rfl, rfl, rfl⟩
      · rw [hk, hload]; exact ⟨rfl, rfl, rfl, rfl, rfl, rfl, rfl, rfl⟩

/-- C6. `addAssembly(name, world, parent)` returns a product exactly when
the world is non-null and registered and the parent is null or is listed in
that world with `parent.level + 1 <= cfg_elementMaxLevel`; a parent that is
not in the world's list is rejected. The level is a `GLuint`, and
`parent.level + 1` is assumed not to wrap. -/
theorem addAssembly_succeeds_iff (cfg : Config) (u : Universe) (name : String)
    (world parent : Option Nat)
    (hlev : ∀ q, parent = some q → (u.products q).level + 1 < GLuintRange) :
    ((u.addAssembly cfg name world parent).2 ≠ none ↔
      ∃ w, world = some w ∧ w ∈ u.m_worlds.raw ∧
        (parent = none ∨
          ∃ q, parent = some q ∧ ElemRef.product q ∈ (u.worlds w).elements ∧
            (u.products q).level + 1 ≤ cfg.cfg_elementMaxLevel)) ∧
    (∀ w q, world = some w → parent = some q →
      ElemRef.product q ∉ (u.worlds w).elements →
      (u.addAssembly cfg name world parent).2 = none) := by
  have hins : ∀ w node, (u.insertProduct w node).2 ≠ none := by
    intro w node hc
    rw [(insertProduct_result u w node).1] at hc
    cases hc
  constructor
  · cases world with
    | none => simp [addAssembly]
    | some w =>
      by_cases hw : w ∈ u.m_worlds.raw
      swap
      · simp [addAssembly, ElementBox.findRawElement, hw]
      cases parent with
      | none =>
        simp [addAssembly, ElementBox.findRawElement, hw, childLevel]
        exact hins _ _
      | some q =>
        have hmod : ((u.products q).level + 1) % GLuintRange = (u.products q).level + 1 :=
          Nat.mod_eq_of_lt (hlev q rfl)
        by_cases hq : ElemRef.product q ∈ (u.worlds w).elements
        swap
        · simp [addAssembly, ElementBox.findRawElement, hw, childLevel,
            VasnecovWorld.designerFindElement, hq]
        by_cases hle : (u.products q).level + 1 ≤ cfg.cfg_elementMaxLevel
        · have hgt : ¬ ((u.products q).level + 1 > cfg.cfg_elementMaxLevel) := by omega
          simp only [addAssembly, ElementBox.findRawElement, hw, decide_True, Bool.not_true,
            Bool.false_eq_true, if_false, childLevel_parent cfg u w q hq, hmod, hgt]
          constructor
          · intro _
            exact ⟨w, rfl, hw, Or.inr ⟨q, rfl, hq, hle⟩⟩
          · intro _
            exact hins _ _
        · have hgt : (u.products q).level + 1 > cfg.cfg_elementMaxLevel := by omega
          simp only [addAssembly, ElementBox.findRawElement, hw, decide_True, Bool.not_true,
            Bool.false_eq_true, if_false, childLevel_parent cfg u w q hq, hmod, hgt, if_true]
          constructor
          · intro hc; exact absurd rfl hc
          · rintro ⟨w', hw', -, hc | ⟨q', hq', -, hle'⟩⟩
            · cases hc
            · cases hq'
              exact absurd hle' hle
  · intro w q hw hq hnot
    subst hw hq
    by_cases hw : w ∈ u.m_worlds.raw
    · simp [addAssembly, ElementBox.findRawElement, hw, childLevel,
        VasnecovWorld.designerFindElement, hnot]
    · simp [addAssembly, ElementBox.findRawElement, hw]

/-- C7. When `addAssembly(name, world, parent)` succeeds in a well-formed
state, the returned node `n` was not registered before and is registered
after the call, is in the world's element list while no other world changes,
has level 0 without a parent and `parent.level + 1` with one, and with a
parent it is in the parent's child list and its matrix `M1` is the parent's
`Ms` at the time of the call. -/
theorem addAssembly_success_effect (cfg : Config)
    (hcfg : cfg.cfg_elementMaxLevel + 1 < GLuintRange) (u : Universe) (h : WF cfg u)
    (name : String) (world parent : Option Nat) (n : Nat)
    (hres : (u.addAssembly cfg name world parent).2 = some n) :
    n ∉ u.m_products.raw ∧
    n ∈ (u.addAssembly cfg name world parent).1.m_products.raw ∧
    (∃ w, world = some w ∧
      ElemRef.product n ∈ ((u.addAssembly cfg name world parent).1.worlds w).elements ∧
      ∀ w', w' ≠ w → (u.addAssembly cfg name world parent).1.worlds w' = u.worlds w') ∧
    (parent = none → ((u.addAssembly cfg name world parent).1.products n).level = 0) ∧
    (∀ q, parent = some q →
      ((u.addAssembly cfg name world parent).1.products n).level = (u.products q).level + 1 ∧
      n ∈ ((u.addAssembly cfg name world parent).1.products q).children ∧
      ((u.addAssembly cfg name world parent).1.products n).M1 = (u.products q).Ms) := by
  have hfresh : u.nextProduct ∉ u.m_products.raw := fun hm =>
    Nat.lt_irrefl _ (h.prodAlloc _ hm)
  cases world with
  | none => simp [addAssembly] at hres
  | some w =>
    by_cases hw : w ∈ u.m_worlds.raw
    swap
    · simp [addAssembly, ElementBox.findRawElement, hw] at hres
    cases hl : childLevel cfg u w parent with
    | none => simp [addAssembly, ElementBox.findRawElement, hw, hl] at hres
    | some level =>
      have heq : u.addAssembly cfg name (some w) parent =
          u.insertProduct w (VasnecovProduct.create name false none none parent level) := by
        simp [addAssembly, ElementBox.findRawElement, hw, hl]
      rw [heq] at hres ⊢
      have hpar : parent ≠ some u.nextProduct := by
        rintro rfl
        rcases childLevel_some hl with ⟨hp, -⟩ | ⟨q, hp, hin, -, -⟩
        · cases hp
        · cases hp
          exact hfresh (h.worldElemReg w hw _ hin)
      rw [insertProduct_eq u w _ hfresh hpar] at hres ⊢
      simp only [Option.some.injEq] at hres
      subst hres
      obtain ⟨hnp, hnl, -, -, -, hM1⟩ := productsAfterInsert_new u
        (VasnecovProduct.create name false none none parent level) hpar
      refine ⟨hfresh, ?_, ⟨w, rfl, ?_, ?_⟩, ?_, ?_⟩
      · simp
      · simp
      · intro w' hw'
        simp [hw']
      · intro hp
        subst hp
        simp only [hnl]
        simp only [VasnecovProduct.create]
        simp [childLevel] at hl
        exact hl.symm
      · intro q hq
        subst hq
        rcases childLevel_some hl with ⟨hp, -⟩ | ⟨q', hp, hin, hlev, hle⟩
        · cases hp
        · cases hp
          have hqreg := h.worldElemReg w hw q hin
          have hqmax := h.levelMax q hqreg
          have hmod : ((u.products q).level + 1) % GLuintRange = (u.products q).level + 1 :=
            Nat.mod_eq_of_lt (by omega)
          have hqn : q ≠ u.nextProduct := fun hc => hfresh (hc ▸ hqreg)
          refine ⟨?_, ?_, ?_⟩
          · simp only [hnl]
            simp only [VasnecovProduct.create]
            rw [hlev, hmod]
          · simp only [(productsAfterInsert_old u _ q hqn).2.2.2.2]
            simp [VasnecovProduct.create]
          · exact hM1 q rfl

/-- Witness of C5: in `deepScene` assembly 2 is one level below the maximum
and assembly 3 is at the maximum. -/
theorem addProduct_depth_limit_witness :
    exampleConfig.cfg_elementMaxLevel + 1 < GLuintRange ∧
    0 ∈ deepScene.m_worlds.raw ∧
    ElemRef.product 2 ∈ (deepScene.worlds 0).elements ∧
    ElemRef.product 3 ∈ (deepScene.worlds 0).elements ∧
    (∃ n, (deepScene.addAssembly exampleConfig "a4" (some 0) (some 2)).2 = some n ∧
      ((deepScene.addAssembly exampleConfig "a4" (some 0) (some 2)).1.products n).level =
        exampleConfig.cfg_elementMaxLevel) ∧
    deepScene.addAssembly exampleConfig "a4" (some 0) (some 3) = (deepScene, none) ∧
    (addPart exampleConfig exampleFiles deepScene "p4" (some 0) ['m'] none (some 3)).2 = none :=
  ⟨by decide, by decide, by decide, by decide,
    ((addProduct_depth_limit exampleConfig (by decide) exampleFiles deepScene "a4" 0 2 ['m']
      none (by decide) (by decide)).1 (by decide)).1,
    ((addProduct_depth_limit exampleConfig (by decide) exampleFiles deepScene "a4" 0 3 ['m']
      none (by decide) (by decide)).2 (by decide)).1,
    ((addProduct_depth_limit exampleConfig (by decide) exampleFiles deepScene "p4" 0 3 ['m']
      none (by decide) (by decide)).2 (by decide)).2.1⟩

/-- Witness of C6: in `deepScene` assembly 1 belongs to world 0 only, so it is
rejected as a parent in world 1. -/
theorem addAssembly_succeeds_iff_witness :
    (∀ q, some 1 = some q → (deepScene.products q).level + 1 < GLuintRange) ∧
    (deepScene.addAssembly exampleConfig "b" (some 1) (some 1)).2 = none :=
  ⟨by intro q hq; cases hq; decide,
    (addAssembly_succeeds_iff exampleConfig deepScene "b" (some 1) (some 1)
      (by intro q hq; cases hq; decide)).2 1 1 rfl rfl (by decide)⟩

/-- Witness of C7: a new assembly below assembly 1 of `deepScene`. -/
theorem addAssembly_success_effect_witness :
    exampleConfig.cfg_elementMaxLevel + 1 < GLuintRange ∧
    WF exampleConfig deepScene ∧
    (deepScene.addAssembly exampleConfig "b" (some 0) (some 1)).2 = some 4 ∧
    4 ∉ deepScene.m_products.raw ∧
    4 ∈ (deepScene.addAssembly exampleConfig "b" (some 0) (some 1)).1.m_products.raw :=
  ⟨by decide, deepScene_WF, by decide,
    (addAssembly_success_effect exampleConfig (by decide) deepScene deepScene_WF "b" (some 0)
      (some 1) 4 (by decide)).1,
    (addAssembly_success_effect exampleConfig (by decide) deepScene deepScene_WF "b" (some 0)
      (some 1) 4 (by decide)).2.1⟩

/-- C8. After every sequence of `addAssembly`, `addPart` (each overload) and
`removeProduct` calls on a fresh universe, mixed with `addWorld`, `addLamp`,
`referLampToWorld`, `addMaterial` and `referProductToWorld` calls, every
registered product has a level of at most `cfg_elementMaxLevel`, a product
without a parent has level 0, and a product with a parent has a registered
parent and the parent's level plus one. -/
theorem product_levels_consistent (cfg : Config)
    (hcfg : cfg.cfg_elementMaxLevel + 1 < GLuintRange)
    (dirs : List Char × List Char × List Char × List Char × List Char) (ops : List Op) :
    ∀ p ∈ (run cfg (Universe.empty cfg dirs) ops).m_products.raw,
      ((run cfg (Universe.empty cfg dirs) ops).products p).level ≤ cfg.cfg_elementMaxLevel ∧
      (((run cfg (Universe.empty cfg dirs) ops).products p).parent = none →
        ((run cfg (Universe.empty cfg dirs) ops).products p).level = 0) ∧
      (∀ q, ((run cfg (Universe.empty cfg dirs) ops).products p).parent = some q →
        q ∈ (run cfg (Universe.empty cfg dirs) ops).m_products.raw ∧
        ((run cfg (Universe.empty cfg dirs) ops).products p).level =
          ((run cfg (Universe.empty cfg dirs) ops).products q).level + 1) := by
  have h := run_WF hcfg ops (empty_WF cfg dirs)
  intro p hp
  exact ⟨h.levelMax p hp, h.levelRoot p hp, h.levelChild p hp⟩

/-- Witness of C8: a chain of assemblies built to the maximum depth, one more
level refused, and the middle of the chain removed. -/
theorem product_levels_consistent_witness :
    exampleConfig.cfg_elementMaxLevel + 1 < GLuintRange ∧
    (run exampleConfig (Universe.empty exampleConfig ([], [], [], [], []))
      [Op.addWorld 0 0 10 10, Op.addAssembly "a0" (some 0) none,
       Op.addAssembly "a1" (some 0) (some 0), Op.addAssembly "a2" (some 0) (some 1),
       Op.addAssembly "a3" (some 0) (some 2), Op.addAssembly "a4" (some 0) (some 3),
       Op.removeProduct (some 2)]).m_products.raw = [0, 1] ∧
    ∀ p ∈ (run exampleConfig (Universe.empty exampleConfig ([], [], [], [], []))
      [Op.addWorld 0 0 10 10, Op.addAssembly "a0" (some 0) none,
       Op.addAssembly "a1" (some 0) (some 0), Op.addAssembly "a2" (some 0) (some 1),
       Op.addAssembly "a3" (some 0) (some 2), Op.addAssembly "a4" (some 0) (some 3),
       Op.removeProduct (some 2)]).m_products.raw,
      ((run exampleConfig (Universe.empty exampleConfig ([], [], [], [], []))
        [Op.addWorld 0 0 10 10, Op.addAssembly "a0" (some 0) none,
         Op.addAssembly "a1" (some 0) (some 0), Op.addAssembly "a2" (some 0) (some 1),
         Op.addAssembly "a3" (some 0) (some 2), Op.addAssembly "a4" (some 0) (some 3),
         Op.removeProduct (some 2)]).products p).level ≤ exampleConfig.cfg_elementMaxLevel :=
  ⟨by decide, by decide, fun p hp =>
    (product_levels_consistent exampleConfig (by decide) ([], [], [], [], [])
      [Op.addWorld 0 0 10 10, Op.addAssembly "a0" (some 0) none,
       Op.addAssembly "a1" (some 0) (some 0), Op.addAssembly "a2" (some 0) (some 1),
       Op.addAssembly "a3" (some 0) (some 2), Op.addAssembly "a4" (some 0) (some 3),
       Op.removeProduct (some 2)] p hp).1⟩

/-- C9. In every state reached from the fresh universe by calls of the public
operations, passes of `renderUpdateData`, `renderInitialize`, `info` and other
threads taking and giving back the data lock, a pass of `renderUpdateData`
leaves the lamps of the committed (pure) list with the light units
`GL_LIGHT0`, `GL_LIGHT0 + 1`, ..., `GL_LIGHT0 + lampCount - 1` in list order,
whatever units they held before and whether or not the pass detects a
change; and a pass that acquires the lock commits every lamp of the
registry. The number of lamps keeps the light units within the range of a
`GLuint`. -/
theorem renderUpdateData_contiguous_indices (cfg : Config)
    (dirs : List Char × List Char × List Char × List Char × List Char) (acts : List Act)
    (hlen : GL_LIGHT0 + (perform cfg (Universe.empty cfg dirs) acts).m_lamps.raw.length ≤
      GLuintRange) :
    (perform cfg (Universe.empty cfg dirs) acts).renderUpdateData.1.pureLampIndices =
      List.range' GL_LIGHT0
        (perform cfg (Universe.empty cfg dirs) acts).renderUpdateData.1.m_lamps.pure.length ∧
    ((perform cfg (Universe.empty cfg dirs) acts).mtxLocked = false →
      (perform cfg (Universe.empty cfg dirs) acts).renderUpdateData.1.m_lamps.pure =
        (perform cfg (Universe.empty cfg dirs) acts).m_lamps.raw) := by
  have h := perform_LampInv cfg (empty_LampInv cfg dirs) acts
  generalize perform cfg (Universe.empty cfg dirs) acts = u at h hlen
  have h2 := renderUpdateData_LampInv h
  have hraw : u.renderUpdateData.1.m_lamps.raw = u.m_lamps.raw := by
    cases hlock : u.mtxLocked
    · rw [(renderUpdateData_lamps_box u hlock).1]
      unfold ElementBox.synchronize
      split <;> rfl
    · have : u.renderUpdateData = (u, 0) := by
        unfold renderUpdateData
        rw [if_pos hlock]
      rw [this]
  refine ⟨h2.contiguous (by rw [hraw]; exact hlen), ?_⟩
  intro hlock
  rw [(renderUpdateData_lamps_box u hlock).1]
  unfold ElementBox.synchronize
  split
  · rfl
  · rename_i hd
    exact h.clean (by simpa using hd)

/-- Witness of C9: nine lamps are created with `m_lampsCountMax` = 8, so the
ninth is created with `GL_LIGHT0` like the first; the pass gives the nine
lamps the light units `GL_LIGHT0` to `GL_LIGHT0 + 8`, and a second pass, which
detects no change, leaves them so. -/
theorem renderUpdateData_contiguous_indices_witness :
    (perform exampleConfig emptyScene nineLampActs).m_lamps.raw.map
      (fun l => ((perform exampleConfig emptyScene nineLampActs).lamps l).index) =
      [GL_LIGHT0, GL_LIGHT0 + 1, GL_LIGHT0 + 2, GL_LIGHT0 + 3, GL_LIGHT0 + 4, GL_LIGHT0 + 5,
       GL_LIGHT0 + 6, GL_LIGHT0 + 7, GL_LIGHT0] ∧
    (perform exampleConfig emptyScene nineLampActs).renderUpdateData.1.pureLampIndices =
      List.range' GL_LIGHT0 9 ∧
    (perform exampleConfig emptyScene
      (nineLampActs ++ [Act.renderUpdateData])).synchronizeAll.2 = false ∧
    (perform exampleConfig emptyScene
      (nineLampActs ++ [Act.renderUpdateData])).renderUpdateData.1.pureLampIndices =
      List.range' GL_LIGHT0 9 :=
  ⟨by decide,
   (renderUpdateData_contiguous_indices exampleConfig ([], [], [], [], []) nineLampActs
     (by decide)).1.trans (by decide),
   by decide,
   (renderUpdateData_contiguous_indices exampleConfig ([], [], [], [], [])
     (nineLampActs ++ [Act.renderUpdateData]) (by decide)).1.trans (by decide)⟩

/-- C10. `referLampToWorld(lamp, world)` returns the lamp itself exactly when
the lamp and the world are non-null and registered and the lamp is not yet in
the world's element list, and the lamp is then in that list; in every other
case it returns null and leaves the whole state as it was. The registry is
the same after every call. -/
theorem referLampToWorld_spec (u : Universe) (lamp world : Option Nat) :
    ((∃ l, lamp = some l ∧ (u.referLampToWorld lamp world).2 = some l) ↔
      ∃ l w, lamp = some l ∧ world = some w ∧ l ∈ u.m_lamps.raw ∧ w ∈ u.m_worlds.raw ∧
        ElemRef.lamp l ∉ (u.worlds w).elements) ∧
    (∀ l w, lamp = some l → world = some w → l ∈ u.m_lamps.raw → w ∈ u.m_worlds.raw →
      ElemRef.lamp l ∉ (u.worlds w).elements →
      (u.referLampToWorld lamp world).2 = some l ∧
      ElemRef.lamp l ∈ ((u.referLampToWorld lamp world).1.worlds w).elements) ∧
    ((¬ ∃ l w, lamp = some l ∧ world = some w ∧ l ∈ u.m_lamps.raw ∧ w ∈ u.m_worlds.raw ∧
        ElemRef.lamp l ∉ (u.worlds w).elements) →
      u.referLampToWorld lamp world = (u, none)) ∧
    (u.referLampToWorld lamp world).1.m_lamps = u.m_lamps ∧
    (u.referLampToWorld lamp world).1.m_worlds = u.m_worlds ∧
    (u.referLampToWorld lamp world).1.m_products = u.m_products ∧
    (u.referLampToWorld lamp world).1.m_figures = u.m_figures ∧
    (u.referLampToWorld lamp world).1.m_labels = u.m_labels ∧
    (u.referLampToWorld lamp world).1.m_materials = u.m_materials := by
  cases lamp with
  | none => simp [referLampToWorld]
  | some l =>
    cases world with
    | none => simp [referLampToWorld]
    | some w =>
      by_cases hl : l ∈ u.m_lamps.raw
      swap
      · simp [referLampToWorld, ElementBox.findRawElement, hl]
      by_cases hw : w ∈ u.m_worlds.raw
      swap
      · simp [referLampToWorld, ElementBox.findRawElement, hl, hw]
      by_cases he : ElemRef.lamp l ∈ (u.worlds w).elements
      · simp [referLampToWorld, ElementBox.findRawElement, hl, hw,
          VasnecovWorld.designerAddElement, he]
      · simp [referLampToWorld, ElementBox.findRawElement, hl, hw,
          VasnecovWorld.designerAddElement, he, setWorld]

/-- C12. When another thread holds the data lock, `renderUpdateData` returns 0
and leaves the whole state as it was: committed values, lamp indices,
`raw_data.wasUpdated`, `texturesForLoading`, the pipeline's update flag, and
the lock, which is still held. -/
theorem renderUpdateData_locked (u : Universe) (hlock : u.mtxLocked = true) :
    u.renderUpdateData = (u, 0) ∧
    u.renderUpdateData.1.mtxLocked = true ∧
    u.renderUpdateData.1.m_context.pure = u.m_context.pure ∧
    u.renderUpdateData.1.m_loading.pure = u.m_loading.pure ∧
    u.renderUpdateData.1.m_backgroundColor.pure = u.m_backgroundColor.pure ∧
    u.renderUpdateData.1.m_lamps.pure = u.m_lamps.pure ∧
    (∀ l, (u.renderUpdateData.1.lamps l).index = (u.lamps l).index) ∧
    u.renderUpdateData.1.wasUpdated = u.wasUpdated ∧
    u.renderUpdateData.1.texturesForLoading = u.texturesForLoading ∧
    u.renderUpdateData.1.pipelineWasSomethingUpdated = u.pipelineWasSomethingUpdated := by
  have h : u.renderUpdateData = (u, 0) := by
    unfold renderUpdateData
    rw [if_pos hlock]
  rw [h]
  exact ⟨rfl, hlock, rfl, rfl, rfl, rfl, fun _ => rfl, rfl, rfl, rfl⟩

/-- Witness of C12: `lockedScene` has pending changes of every kind, and the
pass leaves them pending. -/
theorem renderUpdateData_locked_witness :
    lockedScene.mtxLocked = true ∧
    lockedScene.renderUpdateData = (lockedScene, 0) ∧
    lockedScene.renderUpdateData.1.wasUpdated = [UpdateFlag.BackColor, UpdateFlag.Textures] :=
  ⟨by decide, (renderUpdateData_locked lockedScene (by decide)).1,
    (renderUpdateData_locked lockedScene (by decide)).2.2.2.2.2.2.2.1⟩

/-- C13, the claim as stated fails: in `cachedScene` texture "t" and mesh "m"
are in the caches and their files exist, and loading either again reports
failure (false), not success. -/
theorem loadFile_cached_reports_false :
    mapCount cachedScene.textures
      (correctPath exampleFiles (cachedScene.dirTextures ++ ['t']) ['t']
        exampleConfig.cfg_textureFormat).2.2 = true ∧
    (correctPath exampleFiles (cachedScene.dirTextures ++ ['t']) ['t']
        exampleConfig.cfg_textureFormat).1 = true ∧
    (loadTextureFile exampleConfig exampleFiles cachedScene ['t']).2 = false ∧
    mapCount cachedScene.meshes
      (correctPath exampleFiles (cachedScene.dirMeshes ++ ['m']) ['m']
        exampleConfig.cfg_meshFormat).2.2 = true ∧
    (correctPath exampleFiles (cachedScene.dirMeshes ++ ['m']) ['m']
        exampleConfig.cfg_meshFormat).1 = true ∧
    (loadMeshFile exampleConfig exampleFiles cachedScene ['m']).2 = false := by
  decide

/-- C13, amended. For every file name whose normalized id is already a key of
the texture cache (respectively mesh cache), `loadTextureFile` (respectively
`loadMeshFile`) reports false and leaves the whole state, the cache included,
as it was; every load, successful or not, keeps the keys of a cache
distinct, so an id never has more than one entry; and when a load of a name
reports success, the next load of the same name reports false and changes
nothing. -/
theorem loadFile_cached (cfg : Config) (fs : FileSystem) (u : Universe) (fileName : List Char) :
    (mapCount u.textures
        (correctPath fs (u.dirTextures ++ fileName) fileName cfg.cfg_textureFormat).2.2 = true →
      loadTextureFile cfg fs u fileName = (u, false)) ∧
    (mapCount u.meshes
        (correctPath fs (u.dirMeshes ++ fileName) fileName cfg.cfg_meshFormat).2.2 = true →
      loadMeshFile cfg fs u fileName = (u, false)) ∧
    ((u.textures.map Prod.fst).Nodup →
      ((loadTextureFile cfg fs u fileName).1.textures.map Prod.fst).Nodup) ∧
    ((u.meshes.map Prod.fst).Nodup →
      ((loadMeshFile cfg fs u fileName).1.meshes.map Prod.fst).Nodup) ∧
    ((loadTextureFile cfg fs u fileName).2 = true →
      loadTextureFile cfg fs (loadTextureFile cfg fs u fileName).1 fileName =
        ((loadTextureFile cfg fs u fileName).1, false)) ∧
    ((loadMeshFile cfg fs u fileName).2 = true →
      loadMeshFile cfg fs (loadMeshFile cfg fs u fileName).1 fileName =
        ((loadMeshFile cfg fs u fileName).1, false)) := by
  have hcachedT : ∀ v : Universe, mapCount v.textures
      (correctPath fs (v.dirTextures ++ fileName) fileName cfg.cfg_textureFormat).2.2 = true →
      loadTextureFile cfg fs v fileName = (v, false) := by
    intro v hc
    apply loadTextureFile_false
    by_contra hne
    have := (loadTextureFile_true cfg fs v fileName (by simpa using hne)).1
    rw [hc] at this
    cases this
  have hcachedM : ∀ v : Universe, mapCount v.meshes
      (correctPath fs (v.dirMeshes ++ fileName) fileName cfg.cfg_meshFormat).2.2 = true →
      loadMeshFile cfg fs v fileName = (v, false) := by
    intro v hc
    apply loadMeshFile_false
    by_contra hne
    have := (loadMeshFile_true cfg fs v fileName (by simpa using hne)).1
    rw [hc] at this
    cases this
  refine ⟨?_, ?_, ?_, ?_, ?_, ?_⟩
  rotate_left 4
  · intro hres
    apply hcachedT
    obtain ⟨t, n, wu, tl, hf⟩ := loadTextureFile_frame cfg fs u fileName
    have hdir : (loadTextureFile cfg fs u fileName).1.dirTextures = u.dirTextures := by rw [hf]
    rw [hdir, (loadTextureFile_true cfg fs u fileName hres).2]
    simp [mapCount]
  · intro hres
    apply hcachedM
    rw [(loadMeshFile_true cfg fs u fileName hres).2]
    simp [mapCount]
  · intro hc
    apply loadTextureFile_false
    by_contra hne
    have := (loadTextureFile_true cfg fs u fileName (by simpa using hne)).1
    rw [hc] at this
    cases this
  · intro hc
    apply loadMeshFile_false
    by_contra hne
    have := (loadMeshFile_true cfg fs u fileName (by simpa using hne)).1
    rw [hc] at this
    cases this
  · intro hnd
    cases hres : (loadTextureFile cfg fs u fileName).2
    · rw [loadTextureFile_false cfg fs u fileName hres]; exact hnd
    · obtain ⟨hc, heq⟩ := loadTextureFile_true cfg fs u fileName hres
      rw [heq, List.map_append]
      refine List.Nodup.append hnd (List.nodup_singleton _) ?_
      intro x hx hx2
      simp only [List.map_cons, List.map_nil, List.mem_singleton] at hx2
      subst hx2
      exact (mapCount_eq_false_iff _ _).1 hc hx
  · intro hnd
    cases hres : (loadMeshFile cfg fs u fileName).2
    · rw [loadMeshFile_false cfg fs u fileName hres]; exact hnd
    · obtain ⟨hc, heq⟩ := loadMeshFile_true cfg fs u fileName hres
      rw [heq]
      simp only [List.map_append]
      refine List.Nodup.append hnd (List.nodup_singleton _) ?_
      intro x hx hx2
      simp only [List.map_cons, List.map_nil, List.mem_singleton] at hx2
      subst hx2
      exact (mapCount_eq_false_iff _ _).1 hc hx

/-- Witness of C13, amended: loading texture "t" again in `cachedScene` changes
nothing. -/
theorem loadFile_cached_witness :
    mapCount cachedScene.textures
      (correctPath exampleFiles (cachedScene.dirTextures ++ ['t']) ['t']
        exampleConfig.cfg_textureFormat).2.2 = true ∧
    loadTextureFile exampleConfig exampleFiles cachedScene ['t'] = (cachedScene, false) :=
  ⟨by decide, (loadFile_cached exampleConfig exampleFiles cachedScene ['t']).1 (by decide)⟩

/-- C14. The failing inputs of the `addPart` overload taking a texture name:
with a null world on a fresh universe, and with a parent at the maximum depth
in `deepScene`, the call returns null, yet the material made by `addMaterial`
for the texture has entered the registry. -/
theorem addPartTexture_failure_leaves_material :
    (addPartTexture exampleConfig exampleFiles emptyScene "p" none ['m'] ['t'] none).2 = none ∧
    emptyScene.m_materials.raw = [] ∧
    (addPartTexture exampleConfig exampleFiles emptyScene "p" none ['m'] ['t'] none).1.m_materials.raw
      = [0] ∧
    (addPartTexture exampleConfig exampleFiles deepScene "p" (some 0) ['m'] ['t'] (some 3)).2
      = none ∧
    deepScene.m_materials.raw = [] ∧
    (addPartTexture exampleConfig exampleFiles deepScene "p" (some 0) ['m'] ['t']
      (some 3)).1.m_materials.raw = [0] := by
  decide

/-- C15, the claim as stated fails: world 5 is not registered in the fresh
universe, `addPart` returns null for it, and yet the mesh "m" was loaded:
the mesh cache went from empty to one entry. -/
theorem addPart_unregistered_world_loads_mesh :
    (5 : Nat) ∉ emptyScene.m_worlds.raw ∧
    (addPart exampleConfig exampleFiles emptyScene "p" (some 5) ['m'] none none).2 = none ∧
    emptyScene.meshes = [] ∧
    (addPart exampleConfig exampleFiles emptyScene "p" (some 5) ['m'] none none).1.meshes
      = [(['m'], 0)] := by
  decide

/-- C15, amended. In `addPart` the null-world check comes first, then the mesh
lookup with the forced load of a mesh that is not cached, and only then the
world-registration check. So for every non-null world that is not registered
and every mesh name `addPart` returns null and the state is the one left by
the mesh block: unchanged when the mesh name is empty, when the mesh is
already cached or when the load fails, and with the newly loaded mesh added
to the mesh cache otherwise. -/
theorem addPart_unregistered_world (cfg : Config) (fs : FileSystem) (u : Universe)
    (name : String) (w : Nat) (meshName : List Char) (material parent : Option Nat)
    (hw : w ∉ u.m_worlds.raw) :
    (addPart cfg fs u name (some w) meshName material parent).2 = none ∧
    (addPart cfg fs u name (some w) meshName material parent).1 =
      (if meshName.isEmpty then u else (findOrLoadMesh cfg fs u meshName).1) ∧
    (meshName = [] ∨
      u.designerFindMesh (correctFileId meshName cfg.cfg_meshFormat) ≠ none ∨
      (loadMeshFile cfg fs u (correctFileId meshName cfg.cfg_meshFormat)).2 = false →
      (addPart cfg fs u name (some w) meshName material parent).1 = u) ∧
    (meshName ≠ [] →
      u.designerFindMesh (correctFileId meshName cfg.cfg_meshFormat) = none →
      (loadMeshFile cfg fs u (correctFileId meshName cfg.cfg_meshFormat)).2 = true →
      (addPart cfg fs u name (some w) meshName material parent).1 =
        (loadMeshFile cfg fs u (correctFileId meshName cfg.cfg_meshFormat)).1 ∧
      (addPart cfg fs u name (some w) meshName material parent).1.meshes =
        u.meshes ++ [((correctPath fs
          (u.dirMeshes ++ correctFileId meshName cfg.cfg_meshFormat)
          (correctFileId meshName cfg.cfg_meshFormat) cfg.cfg_meshFormat).2.2, u.nextMesh)]) := by
  have hfind : ∀ v : Universe, v.m_worlds = u.m_worlds → v.m_worlds.findRawElement w = false := by
    intro v hv
    rw [hv]
    simp [ElementBox.findRawElement, hw]
  have htail : ∀ (v : Universe) (mesh : Nat), v.m_worlds = u.m_worlds →
      addPartTail cfg v name w mesh material parent = (v, none) := by
    intro v mesh hv
    unfold addPartTail
    simp [hfind v hv]
  have hframe : (findOrLoadMesh cfg fs u meshName).1.m_worlds = u.m_worlds := by
    obtain ⟨m, n, h⟩ := findOrLoadMesh_frame cfg fs u meshName
    rw [h]
  have hres : addPart cfg fs u name (some w) meshName material parent =
      (if meshName.isEmpty then u else (findOrLoadMesh cfg fs u meshName).1, none) := by
    unfold addPart
    simp only
    cases hm : meshName.isEmpty
    · simp only [Bool.not_false, if_true, Bool.false_eq_true, if_false]
      cases hr : (findOrLoadMesh cfg fs u meshName).2 with
      | none => rfl
      | some mesh => exact htail _ mesh hframe
    · simp
  refine ⟨by rw [hres], by rw [hres], ?_, ?_⟩
  · intro h
    rw [hres]
    simp only
    cases hm : meshName.isEmpty
    · simp only [Bool.false_eq_true, if_false]
      rcases h with h | h | h
      · subst h; simp at hm
      · unfold findOrLoadMesh
        simp only
        cases hf : u.designerFindMesh (correctFileId meshName cfg.cfg_meshFormat) with
        | none => exact absurd hf h
        | some mesh => rfl
      · unfold findOrLoadMesh
        simp only
        cases hf : u.designerFindMesh (correctFileId meshName cfg.cfg_meshFormat) with
        | none =>
          simp only [h, Bool.not_false, if_true]
          rw [loadMeshFile_false cfg fs u _ h]
        | some mesh => rfl
    · simp
  · intro hne hf hload
    have hm : meshName.isEmpty = false := by
      cases meshName with
      | nil => exact absurd rfl hne
      | cons a l => rfl
    have h1 : (findOrLoadMesh cfg fs u meshName).1 =
        (loadMeshFile cfg fs u (correctFileId meshName cfg.cfg_meshFormat)).1 := by
      unfold findOrLoadMesh
      simp only [hf, hload, Bool.not_true, Bool.false_eq_true, if_false]
    rw [hres]
    simp only [hm, Bool.false_eq_true, if_false]
    refine ⟨h1, ?_⟩
    rw [h1, (loadMeshFile_true cfg fs u _ hload).2]

/-- Witness of C15, amended, at the unregistered world 5 of the fresh universe
and the mesh name "m". -/
theorem addPart_unregistered_world_witness :
    (5 : Nat) ∉ emptyScene.m_worlds.raw ∧
    (addPart exampleConfig exampleFiles emptyScene "p" (some 5) ['m'] none none).2 = none ∧
    (addPart exampleConfig exampleFiles emptyScene "p" (some 5) [] none none).1 = emptyScene :=
  ⟨by decide,
   (addPart_unregistered_world exampleConfig exampleFiles emptyScene "p" 5 ['m'] none none
     (by decide)).1,
   (addPart_unregistered_world exampleConfig exampleFiles emptyScene "p" 5 [] none none
     (by decide)).2.2.1 (Or.inl rfl)⟩

/-- C18. `addWorld` returns a non-null world that is registered in the
registry if and only if the width lies strictly between `cfg_worldWidthMin`
and `cfg_worldWidthMax` and the height strictly between `cfg_worldHeightMin`
and `cfg_worldHeightMax`, whatever the position; otherwise it returns null
and leaves the whole state, the registry included, unchanged. -/
theorem addWorld_succeeds_iff (cfg : Config) (u : Universe) (posX posY width height : Int) :
    ((∃ w, (u.addWorld cfg posX posY width height).2 = some w ∧
        w ∈ (u.addWorld cfg posX posY width height).1.m_worlds.raw) ↔
      (cfg.cfg_worldWidthMin < width ∧ width < cfg.cfg_worldWidthMax ∧
        cfg.cfg_worldHeightMin < height ∧ height < cfg.cfg_worldHeightMax)) ∧
    (¬ (cfg.cfg_worldWidthMin < width ∧ width < cfg.cfg_worldWidthMax ∧
        cfg.cfg_worldHeightMin < height ∧ height < cfg.cfg_worldHeightMax) →
      u.addWorld cfg posX posY width height = (u, none)) := by
  unfold addWorld
  by_cases hb : width > cfg.cfg_worldWidthMin ∧ width < cfg.cfg_worldWidthMax ∧
      height > cfg.cfg_worldHeightMin ∧ height < cfg.cfg_worldHeightMax
  · rw [if_pos hb]
    refine ⟨⟨fun _ => hb, fun _ => ⟨u.nextWorld, rfl, ?_⟩⟩, fun h => absurd hb h⟩
    simp only [ElementBox.addElement, setWorld]
    split
    · assumption
    · simp
  · rw [if_neg hb]
    refine ⟨⟨?_, fun h => absurd h hb⟩, fun _ => rfl⟩
    rintro ⟨w, h, _⟩
    cases h

/-- C19. `setDirectory` returns true if and only if the new directory is not
empty, exists, and its normalized path followed by "/" differs from the
current value; on true the current value becomes that path with "/", on
false it stays; so the same call repeated returns false. `setTexturesDir`
and `setMeshesDir` return the same flag and store the same value in
`dirTextures` and `dirMeshes`, so a setter called twice in a row with the
same directory returns false the second time. -/
theorem setDirectory_spec (fs : FileSystem) (u : Universe) (newDir oldDir : List Char) :
    ((setDirectory fs newDir oldDir).1 = true ↔
      (newDir ≠ [] ∧ fs.dirExists newDir = true ∧ fs.dirPath newDir ++ ['/'] ≠ oldDir)) ∧
    ((setDirectory fs newDir oldDir).1 = true →
      (setDirectory fs newDir oldDir).2 = fs.dirPath newDir ++ ['/']) ∧
    ((setDirectory fs newDir oldDir).1 = false → (setDirectory fs newDir oldDir).2 = oldDir) ∧
    (setDirectory fs newDir (setDirectory fs newDir oldDir).2).1 = false ∧
    (setTexturesDir fs u newDir).2 = (setDirectory fs newDir u.dirTextures).1 ∧
    (setTexturesDir fs u newDir).1.dirTextures = (setDirectory fs newDir u.dirTextures).2 ∧
    (setMeshesDir fs u newDir).2 = (setDirectory fs newDir u.dirMeshes).1 ∧
    (setMeshesDir fs u newDir).1.dirMeshes = (setDirectory fs newDir u.dirMeshes).2 ∧
    (setTexturesDir fs (setTexturesDir fs u newDir).1 newDir).2 = false ∧
    (setMeshesDir fs (setMeshesDir fs u newDir).1 newDir).2 = false := by
  have key : ∀ old : List Char,
      ((setDirectory fs newDir old).1 = true ↔
        (newDir ≠ [] ∧ fs.dirExists newDir = true ∧ fs.dirPath newDir ++ ['/'] ≠ old)) ∧
      ((setDirectory fs newDir old).1 = true →
        (setDirectory fs newDir old).2 = fs.dirPath newDir ++ ['/']) ∧
      ((setDirectory fs newDir old).1 = false → (setDirectory fs newDir old).2 = old) := by
    intro old
    unfold setDirectory
    cases newDir with
    | nil => simp
    | cons a l =>
      cases hd : fs.dirExists (a :: l)
      · simp
      · by_cases hne : fs.dirPath (a :: l) ++ ['/'] = old
        · simp [hne]
        · simp [hne]
  have twice : ∀ old : List Char,
      (setDirectory fs newDir (setDirectory fs newDir old).2).1 = false := by
    intro old
    cases h1 : (setDirectory fs newDir old).1
    · rw [(key old).2.2 h1]; exact h1
    · rw [(key old).2.1 h1]
      cases h2 : (setDirectory fs newDir (fs.dirPath newDir ++ ['/'])).1
      · rfl
      · exact absurd rfl ((key _).1.1 h2).2.2
  exact ⟨(key oldDir).1, (key oldDir).2.1, (key oldDir).2.2, twice oldDir, rfl, rfl, rfl, rfl,
    twice u.dirTextures, twice u.dirMeshes⟩

/-- C20. For image dimensions `w` and `h` from 1 to 2^31 - 1 the size test of
`loadTextureFile` holds if and only if both are powers of two; and when the
image found at the corrected path has dimensions for which the test does not
hold, `loadTextureFile` returns false and leaves the whole state, the texture
cache included, unchanged. -/
theorem loadTextureFile_size_test (cfg : Config) (fs : FileSystem) (u : Universe)
    (fileName : List Char) (w h : Nat) (hw : 1 ≤ w) (hh : 1 ≤ h)
    (hw32 : w < 2 ^ 31) (hh32 : h < 2 ^ 31) :
    ((sizeTest w && sizeTest h) = true ↔ (∃ k < 31, w = 2 ^ k) ∧ (∃ k < 31, h = 2 ^ k)) ∧
    (fs.imageSize
        (correctPath fs (u.dirTextures ++ fileName) fileName cfg.cfg_textureFormat).2.1
        = some (w, h) →
      (sizeTest w && sizeTest h) = false →
      loadTextureFile cfg fs u fileName = (u, false) ∧
      (loadTextureFile cfg fs u fileName).1.textures = u.textures) := by
  have bound : ∀ n : Nat, n < 2 ^ 31 → ((∃ k, n = 2 ^ k) ↔ ∃ k < 31, n = 2 ^ k) := by
    intro n hn
    constructor
    · rintro ⟨k, rfl⟩
      exact ⟨k, (Nat.pow_lt_pow_iff_right (by norm_num)).1 hn, rfl⟩
    · rintro ⟨k, _, hk⟩
      exact ⟨k, hk⟩
  constructor
  · rw [Bool.and_eq_true, sizeTest_iff w hw, sizeTest_iff h hh, bound w hw32, bound h hh32]
  · intro himg htest
    have : loadTextureFile cfg fs u fileName = (u, false) := by
      apply loadTextureFile_false
      unfold loadTextureFile
      simp only [himg, htest]
      split
      · split
        · rfl
        · rfl
      · rfl
    rw [this]
    exact ⟨rfl, rfl⟩

/-- Witness of C20: an image 6 wide and 4 high is rejected. -/
theorem loadTextureFile_size_test_witness :
    ((sizeTest 6 && sizeTest 4) = true ↔ (∃ k < 31, 6 = 2 ^ k) ∧ (∃ k < 31, 4 = 2 ^ k)) ∧
    loadTextureFile exampleConfig oddFiles emptyScene ['t'] = (emptyScene, false) :=
  ⟨(loadTextureFile_size_test exampleConfig oddFiles emptyScene ['t'] 6 4 (by decide) (by decide)
      (by decide) (by decide)).1,
   ((loadTextureFile_size_test exampleConfig oddFiles emptyScene ['t'] 6 4 (by decide) (by decide)
      (by decide) (by decide)).2 (by decide) (by decide)).1⟩

/-- C11. Let the label `l` be created by `addLabel` in the world `w1` and then
referred by `referLabelToWorld` into the worlds of `ws`, one after another,
starting from a state in which the registry lists every label once, every
registered world lists every element once, and no registered world lists the
address that the new label gets. Then `l` is registered and is listed by `w1`
and by every registered world of `ws`; a single `removeLabel(l)` returns true,
after it `l` is not in the registry and in the element list of no registered
world; and a second `removeLabel(l)` returns false and changes nothing. -/
theorem removeLabel_removes_from_every_world (cfg : Config) (fs : FileSystem) (u : Universe)
    (name : String) (w1 : Nat) (width height : Int) (textureName : List Char) (ws : List Nat)
    (l : Nat)
    (hlab : u.m_labels.raw.Nodup)
    (hnd : ∀ w ∈ u.m_worlds.raw, (u.worlds w).elements.Nodup)
    (hfresh : ∀ w ∈ u.m_worlds.raw, ElemRef.label u.nextLabel ∉ (u.worlds w).elements)
    (hadd : (addLabel cfg fs u name (some w1) width height textureName).2 = some l) :
    l ∈ ((addLabel cfg fs u name (some w1) width height textureName).1.referLabelToWorlds
      l ws).m_labels.raw ∧
    w1 ∈ ((addLabel cfg fs u name (some w1) width height textureName).1.referLabelToWorlds
      l ws).m_worlds.raw ∧
    ElemRef.label l ∈ (((addLabel cfg fs u name (some w1) width height
      textureName).1.referLabelToWorlds l ws).worlds w1).elements ∧
    (∀ w ∈ ws, w ∈ ((addLabel cfg fs u name (some w1) width height
        textureName).1.referLabelToWorlds l ws).m_worlds.raw →
      ElemRef.label l ∈ (((addLabel cfg fs u name (some w1) width height
        textureName).1.referLabelToWorlds l ws).worlds w).elements) ∧
    (((addLabel cfg fs u name (some w1) width height textureName).1.referLabelToWorlds
      l ws).removeLabel (some l)).2 = true ∧
    l ∉ (((addLabel cfg fs u name (some w1) width height textureName).1.referLabelToWorlds
      l ws).removeLabel (some l)).1.m_labels.raw ∧
    (∀ w ∈ (((addLabel cfg fs u name (some w1) width height textureName).1.referLabelToWorlds
        l ws).removeLabel (some l)).1.m_worlds.raw,
      ElemRef.label l ∉ ((((addLabel cfg fs u name (some w1) width height
        textureName).1.referLabelToWorlds l ws).removeLabel (some l)).1.worlds w).elements) ∧
    (((addLabel cfg fs u name (some w1) width height textureName).1.referLabelToWorlds
      l ws).removeLabel (some l)).1.removeLabel (some l) =
      ((((addLabel cfg fs u name (some w1) width height textureName).1.referLabelToWorlds
        l ws).removeLabel (some l)).1, false) := by
  obtain ⟨u0, texture, hw0, hws0, hl0, hn0, hEq⟩ :=
    addLabel_some cfg fs u name w1 width height textureName l hadd
  rw [hEq] at hadd ⊢
  obtain ⟨hl, hw1, hnew, hst⟩ := addLabelTail_some u0 name w1 width height texture l hadd
  generalize (u0.addLabelTail name w1 width height texture).1 = a at hst ⊢
  -- the state after the creation
  have ha_lab : a.m_labels.raw = u.m_labels.raw ++ [l] := by rw [hst, hl0, hl, hn0]
  have ha_w : a.m_worlds = u.m_worlds := by rw [hst, hw0]
  have ha_nd : ∀ w ∈ u.m_worlds.raw, (a.worlds w).elements.Nodup := by
    intro w hw
    rw [hst]
    simp only
    by_cases hww : w = w1
    · subst hww
      simp only [if_true, hws0]
      refine List.Nodup.append (hnd w hw) (List.nodup_singleton _) ?_
      have := hfresh w hw
      rw [← hn0] at this
      simpa using this
    · simp only [hww, if_false, hws0]
      exact hnd w hw
  have ha_in : ElemRef.label l ∈ (a.worlds w1).elements := by
    rw [hst, hl]
    simp
  have ha_l : l ∈ a.m_labels.raw := by rw [ha_lab]; simp
  have ha_labnd : a.m_labels.raw.Nodup := by
    rw [ha_lab]
    refine List.Nodup.append hlab (List.nodup_singleton _) ?_
    have : l ∉ u.m_labels.raw := by rw [hl, ← hl0]; exact hnew
    simpa using this
  -- the state after the references
  obtain ⟨r1, r2, r3, r4, r5⟩ := referLabelToWorlds_effect l ws a
  generalize a.referLabelToWorlds l ws = v at r1 r2 r3 r4 r5 ⊢
  have hv_l : l ∈ v.m_labels.raw := by rw [r1]; exact ha_l
  obtain ⟨m1, m2, m3, m4, m5, m6, m7⟩ := removeLabel_registered v l hv_l
  have hgone : l ∉ (v.removeLabel (some l)).1.m_labels.raw := by
    rw [m2, r1]
    exact List.Nodup.not_mem_erase ha_labnd
  refine ⟨hv_l, ?_, r4 _ _ ha_in, ?_, m1, hgone, ?_, ?_⟩
  · rw [r2, ha_w, ← hw0]; exact hw1
  · intro w hw hreg
    exact r5 ha_l w hw (by rw [← r2]; exact hreg)
  · intro w hw
    rw [m3] at hw
    refine m6 w hw (r3 w (ha_nd w ?_))
    rw [← ha_w, ← r2]
    exact hw
  · exact removeLabel_unregistered _ l hgone

/-- Witness of C11: a label created in world 0 of `threeWorldScene` and referred
into the worlds 1 and 2. -/
theorem removeLabel_removes_from_every_world_witness :
    (addLabel exampleConfig exampleFiles threeWorldScene "l" (some 0) 1 1 []).2 = some 0 ∧
    ElemRef.label 0 ∈ ((((addLabel exampleConfig exampleFiles threeWorldScene "l" (some 0) 1 1
      []).1.referLabelToWorlds 0 [1, 2]).worlds 2).elements) ∧
    (((addLabel exampleConfig exampleFiles threeWorldScene "l" (some 0) 1 1
      []).1.referLabelToWorlds 0 [1, 2]).removeLabel (some 0)).2 = true ∧
    (∀ w ∈ (((addLabel exampleConfig exampleFiles threeWorldScene "l" (some 0) 1 1
        []).1.referLabelToWorlds 0 [1, 2]).removeLabel (some 0)).1.m_worlds.raw,
      ElemRef.label 0 ∉ ((((addLabel exampleConfig exampleFiles threeWorldScene "l" (some 0) 1 1
        []).1.referLabelToWorlds 0 [1, 2]).removeLabel (some 0)).1.worlds w).elements) :=
  ⟨by decide,
   (removeLabel_removes_from_every_world exampleConfig exampleFiles threeWorldScene "l" 0 1 1 []
     [1, 2] 0 (by decide) (by decide) (by decide) (by decide)).2.2.2.1 2 (by decide) (by decide),
   (removeLabel_removes_from_every_world exampleConfig exampleFiles threeWorldScene "l" 0 1 1 []
     [1, 2] 0 (by decide) (by decide) (by decide) (by decide)).2.2.2.2.1,
   (removeLabel_removes_from_every_world exampleConfig exampleFiles threeWorldScene "l" 0 1 1 []
     [1, 2] 0 (by decide) (by decide) (by decide) (by decide)).2.2.2.2.2.2.1⟩

/-- C16. The failing call is `addMaterial()` without a texture: on the fresh
universe it registers the material 0 by `m_elements.addElement`, and its
trace is that registration alone, with no acquisition of `mtx_data`. In
every state a call of `Call` keeps the lock at each of its writes to the
registry, to a world's element list and to `raw_data` if and only if it is
not `addMaterial()`. -/
theorem addMaterial_registers_without_lock (cfg : Config) (u : Universe) (c : Call) :
    emptyScene.m_materials.raw = [] ∧
    emptyScene.addMaterial.1.m_materials.raw = [0] ∧
    callTrace cfg u (Call.scene Op.addMaterial) = [LockEvent.registry] ∧
    disciplined (callTrace cfg u (Call.scene Op.addMaterial)) = false ∧
    (disciplined (callTrace cfg u c) = true ↔ c ≠ Call.scene Op.addMaterial) := by
  refine ⟨by decide, by decide, rfl, rfl, ?_, callTrace_ok cfg u c⟩
  intro h hc
  rw [hc] at h
  cases h

/-- C21. For a non-empty format `correctFileId` returns the file id without its
final "." ++ format when the id ends with it, and the id unchanged when it
does not end with it, also when "." ++ format occurs in the middle (as in
"a.vmf.b"); for an empty format it returns the id unchanged. -/
theorem correctFileId_spec (fileId format t : List Char) :
    (format = [] → correctFileId fileId format = fileId) ∧
    (format ≠ [] → fileId = t ++ '.' :: format → correctFileId fileId format = t) ∧
    (¬ ('.' :: format) <:+ fileId → correctFileId fileId format = fileId) ∧
    correctFileId "a.vmf.b".toList "vmf".toList = "a.vmf.b".toList ∧
    correctFileId "a.vmf.vmf".toList "vmf".toList = "a.vmf".toList := by
  refine ⟨?_, ?_, correctFileId_not_suffix fileId format, by decide, by decide⟩
  · intro hf
    subst hf
    rfl
  · intro hf ht
    subst ht
    exact correctFileId_suffix t format hf

/-- C27. The file id that `correctPath` leaves in its in-out parameter is
`correctFileId` of the id it was given, for every path; and when the path
given is a directory followed by the file id and the format is not empty,
the path it leaves ends with "." ++ format and with the resulting id
followed by "." ++ format. -/
theorem correctPath_key_agrees (fs : FileSystem) (dir path fileId format : List Char) :
    (correctPath fs path fileId format).2.2 = correctFileId fileId format ∧
    (format ≠ [] →
      ('.' :: format) <:+ (correctPath fs (dir ++ fileId) fileId format).2.1 ∧
      ((correctPath fs (dir ++ fileId) fileId format).2.2 ++ '.' :: format) <:+
        (correctPath fs (dir ++ fileId) fileId format).2.1) := by
  refine ⟨correctPath_fileId fs path fileId format, ?_⟩
  intro hf
  rw [correctPath_fileId, correctPath_path]
  by_cases hs : ('.' :: format) <:+ fileId
  · obtain ⟨t, ht⟩ := hs
    subst ht
    rw [correctFileId_suffix t format hf]
    have hcond : ¬ (format ≠ [] ∧ ¬ ('.' :: format) <:+ (t ++ '.' :: format)) :=
      fun h => h.2 ⟨t, rfl⟩
    rw [if_neg hcond]
    exact ⟨⟨dir ++ t, by simp⟩, ⟨dir, rfl⟩⟩
  · rw [correctFileId_not_suffix fileId format hs, if_pos ⟨hf, hs⟩]
    exact ⟨⟨dir ++ fileId, rfl⟩, ⟨dir, by simp⟩⟩

/-- C24. The failing input is the mesh name "m.vmf.vmf" with the format "vmf":
`addPart` looks up and loads "m.vmf", the load succeeds and caches the mesh
under "m", so the lookup of "m.vmf" after the load is null: the second "mesh
not found" branch is taken and `addPart` returns null in a registered world.
For a name that does not end with the extension the lookup after a
successful load does find the mesh. -/
theorem addPart_second_lookup_fails (cfg : Config) (fs : FileSystem) (u : Universe)
    (name : List Char) :
    correctFileId "m.vmf.vmf".toList exampleConfig.cfg_meshFormat = "m.vmf".toList ∧
    threeWorldScene.designerFindMesh "m.vmf".toList = none ∧
    (loadMeshFile exampleConfig exampleFiles threeWorldScene "m.vmf".toList).2 = true ∧
    (loadMeshFile exampleConfig exampleFiles threeWorldScene "m.vmf".toList).1.meshes
      = [("m".toList, 0)] ∧
    (loadMeshFile exampleConfig exampleFiles threeWorldScene
      "m.vmf".toList).1.designerFindMesh "m.vmf".toList = none ∧
    (0 : Nat) ∈ threeWorldScene.m_worlds.raw ∧
    (addPart exampleConfig exampleFiles threeWorldScene "p" (some 0) "m.vmf.vmf".toList
      none none).2 = none ∧
    (addPart exampleConfig exampleFiles threeWorldScene "p" (some 0) "m.vmf".toList
      none none).2 = some 0 ∧
    (¬ ('.' :: cfg.cfg_meshFormat) <:+ name → (loadMeshFile cfg fs u name).2 = true →
      ((loadMeshFile cfg fs u name).1.designerFindMesh name).isSome = true) := by
  refine ⟨by decide, by decide, by decide, by decide, by decide, by decide, by decide,
    by decide, loadMeshFile_then_find cfg fs u name⟩

/-- C23. Let `removeProduct(p)` run on a registered product in a state whose
material registry lists every material once. Every material `m` that is the
material of `p` or of one of the descendants removed with it (a member `d` of
`delProd`) and is the material of no product left in the registry has left
the registry afterwards, while the texture cache and the mesh cache are as
before. -/
theorem removeProduct_collects_unused_materials (u : Universe) (p d m : Nat)
    (hp : p ∈ u.m_products.raw) (hmat : u.m_materials.raw.Nodup)
    (hd : d ∈ u.designerAllChildren p ++ [p]) (hdm : (u.products d).material = some m)
    (hfree : ∀ q ∈ (u.removeProduct (some p)).1.m_products.raw,
      ((u.removeProduct (some p)).1.products q).material ≠ some m) :
    (u.removeProduct (some p)).2 = true ∧
    m ∉ (u.removeProduct (some p)).1.m_materials.raw ∧
    (u.removeProduct (some p)).1.textures = u.textures ∧
    (u.removeProduct (some p)).1.meshes = u.meshes := by
  have hs := (removeProduct_spec u p hp).2
  refine ⟨(removeProduct_spec u p hp).1, ?_, ?_, ?_⟩
  · rw [removeProduct_materials_raw u p hp, hmat.mem_diff_iff]
    intro hcon
    apply hcon.2
    apply pruneMaterials_keeps
    · intro q hq
      have hq2 : q ∈ (u.removeProduct (some p)).1.m_products.raw := by
        rw [removeProduct_products_raw u p hp]
        simpa [ElementBox_removeElements_raw] using hq
      have := hfree q hq2
      rw [(products_parent_of_static (hs.prodStatic q)).2.2.1] at this
      exact this
    · unfold collectMaterials
      exact List.mem_filterMap.2 ⟨d, hd, hdm⟩
  · rw [hs.frame.textures]; rfl
  · rw [hs.frame.meshes]; rfl

/-- Witness of C23: removing assembly 0 of `ownMaterialScene` removes part 1
and with it material 0, which no other product has. -/
theorem removeProduct_collects_unused_materials_witness :
    ownMaterialScene.m_materials.raw = [0, 1] ∧
    (ownMaterialScene.products 1).material = some 0 ∧
    (ownMaterialScene.removeProduct (some 0)).2 = true ∧
    0 ∉ (ownMaterialScene.removeProduct (some 0)).1.m_materials.raw ∧
    (ownMaterialScene.removeProduct (some 0)).1.m_materials.raw = [1] :=
  ⟨by decide, by decide,
   (removeProduct_collects_unused_materials ownMaterialScene 0 1 0 (by decide) (by decide)
     (by decide) (by decide) (by decide)).1,
   (removeProduct_collects_unused_materials ownMaterialScene 0 1 0 (by decide) (by decide)
     (by decide) (by decide) (by decide)).2.1,
   by decide⟩

/-- C26. In a registered world `addLamp` gives the new lamp the light unit
`GL_LIGHT0 + n` when the number `n` of lamps in the raw registry is below
`m_lampsCountMax`, and `GL_LIGHT0` otherwise; this index lies in
[`GL_LIGHT0`, `GL_LIGHT0 + m_lampsCountMax`); and of consecutive calls of
`addLamp` the call number `i` (from 0) gives `GL_LIGHT0 + n + i` as long as
`n + i` is below `m_lampsCountMax`. The registry lists allocated lamps only,
`m_lampsCountMax` is at least 1 and `GL_LIGHT0 + m_lampsCountMax` is within
the range of a `GLuint`. -/
theorem addLamp_index_by_count (u : Universe) (name : String) (w type : Nat)
    (cs : List (String × Nat × Nat)) (i : Nat)
    (hw : w ∈ u.m_worlds.raw) (halloc : ∀ l ∈ u.m_lamps.raw, l < u.nextLamp)
    (hmax : 1 ≤ u.m_lampsCountMax) (hrange : GL_LIGHT0 + u.m_lampsCountMax ≤ GLuintRange) :
    (u.addLamp name (some w) type).2 = some u.nextLamp ∧
    ((u.addLamp name (some w) type).1.lamps u.nextLamp).index =
      (if u.m_lamps.raw.length < u.m_lampsCountMax then GL_LIGHT0 + u.m_lamps.raw.length
       else GL_LIGHT0) ∧
    GL_LIGHT0 ≤ ((u.addLamp name (some w) type).1.lamps u.nextLamp).index ∧
    ((u.addLamp name (some w) type).1.lamps u.nextLamp).index <
      GL_LIGHT0 + u.m_lampsCountMax ∧
    ((∀ c ∈ cs, c.2.1 ∈ u.m_worlds.raw) → i < cs.length →
      u.m_lamps.raw.length + i < u.m_lampsCountMax →
      ((u.addLamps cs).lamps (u.nextLamp + i)).index =
        GL_LIGHT0 + (u.m_lamps.raw.length + i)) := by
  have hfresh : u.nextLamp ∉ u.m_lamps.raw := fun hm => absurd (halloc _ hm) (by simp)
  obtain ⟨f0, _, _, _, _, f5, _⟩ := addLamp_fields u name w type hw hfresh
  have hidx : ((u.addLamp name (some w) type).1.lamps u.nextLamp).index =
      (if u.m_lamps.raw.length < u.m_lampsCountMax then GL_LIGHT0 + u.m_lamps.raw.length
       else GL_LIGHT0) := by
    rw [f5]
    split
    · rename_i hlt
      exact Nat.mod_eq_of_lt (by omega)
    · rfl
  refine ⟨f0, hidx, ?_, ?_, ?_⟩
  · rw [hidx]; split <;> omega
  · rw [hidx]; split <;> omega
  · intro hworlds hi hlt
    rw [(addLamps_spec cs u halloc hworlds).2.2 i hi, if_pos hlt]
    exact Nat.mod_eq_of_lt (by omega)

/-- Witness of C26: three lamps created one after another in world 0 of
`threeWorldScene`; the third gets `GL_LIGHT0 + 2`. -/
theorem addLamp_index_by_count_witness :
    (0 : Nat) ∈ threeWorldScene.m_worlds.raw ∧ threeWorldScene.m_lampsCountMax = 8 ∧
    ((threeWorldScene.addLamp "l" (some 0) 0).1.lamps 0).index = GL_LIGHT0 ∧
    ((threeWorldScene.addLamps [("a", 0, 0), ("b", 1, 0), ("c", 0, 0)]).lamps 2).index =
      GL_LIGHT0 + 2 :=
  ⟨by decide, by decide,
   (addLamp_index_by_count threeWorldScene "l" 0 0 [] 0 (by decide) (by decide) (by decide)
     (by decide)).2.1,
   (addLamp_index_by_count threeWorldScene "l" 0 0 [("a", 0, 0), ("b", 1, 0), ("c", 0, 0)] 2
     (by decide) (by decide) (by decide) (by decide)).2.2.2.2 (by decide) (by decide)
     (by decide)⟩

/-- C29. With `mtx_data` as a non-recursive lock, on every path of `addPart`,
`addLabel` and `addMaterial(textureName)` the steps are balanced: the lock is
never taken while the caller holds it (so `addMesh` and `addTexture`, reached
through the forced load after `unlock`, take a free lock), every lookup in a
cache and every write to the registry, a world or `raw_data` happens while
it is held (so it is held again at the second lookup), and it is not held
when the call returns, also on the return after a failed load. The events
of these steps are the traces of the three calls. In `threeWorldScene` the
forced load of mesh "m" fails without files and succeeds with them. -/
theorem lazy_load_locking_balanced (cfg : Config) (fs : FileSystem) (u : Universe)
    (world : Option Nat) (meshName textureName : List Char) (material parent : Option Nat) :
    balanced (addPartSteps cfg fs u world meshName material parent) = true ∧
    balanced (addLabelSteps cfg fs u world textureName) = true ∧
    balanced (addMaterialTextureSteps cfg fs u textureName) = true ∧
    eventsOf (addPartSteps cfg fs u world meshName material parent) =
      addPartTrace cfg fs u world meshName material parent ∧
    eventsOf (addLabelSteps cfg fs u world textureName) =
      addLabelTrace cfg fs u world textureName ∧
    eventsOf (addMaterialTextureSteps cfg fs u textureName) =
      addMaterialTextureTrace cfg fs u textureName ∧
    addPartSteps exampleConfig noFiles threeWorldScene (some 0) ['m'] none none =
      [LockStep.event LockEvent.acquire, LockStep.lookup, LockStep.event LockEvent.release] ∧
    addPartSteps exampleConfig exampleFiles threeWorldScene (some 0) ['m'] none none =
      [LockStep.event LockEvent.acquire, LockStep.lookup, LockStep.event LockEvent.release,
       LockStep.event LockEvent.acquire, LockStep.event LockEvent.rawData,
       LockStep.event LockEvent.release,
       LockStep.event LockEvent.acquire, LockStep.lookup, LockStep.event LockEvent.registry,
       LockStep.event LockEvent.worldList, LockStep.event LockEvent.release] ∧
    balanced [LockStep.event LockEvent.acquire, LockStep.lookup,
      LockStep.event LockEvent.acquire] = false ∧
    balanced [LockStep.event LockEvent.acquire, LockStep.lookup] = false :=
  ⟨addPartSteps_balanced cfg fs u world meshName material parent,
   addLabelSteps_balanced cfg fs u world textureName,
   addMaterialTextureSteps_balanced cfg fs u textureName,
   addPartSteps_events cfg fs u world meshName material parent,
   addLabelSteps_events cfg fs u world textureName,
   addMaterialTextureSteps_events cfg fs u textureName,
   by decide, by decide, by decide, by decide⟩

/-- C30. For a non-empty texture name for which
`addMaterial(dirTexturesDPref + textureName)` returns null, the overload of
`addPart` taking a texture name returns what `addPart` without a material
returns, and the resulting states agree in the registry (worlds, materials,
lamps, products, figures, labels), in the worlds, in the products and in the
mesh cache: they differ at most in the texture cache, where a texture may
have been loaded. -/
theorem addPart_texture_failure_not_propagated (cfg : Config) (fs : FileSystem) (u : Universe)
    (name : String) (world : Option Nat) (meshName textureName : List Char)
    (parent : Option Nat) (htex : textureName ≠ [])
    (hfail : (addMaterialTexture cfg fs u (u.dirTexturesDPref ++ textureName)).2 = none) :
    (addPartTexture cfg fs u name world meshName textureName parent).2 =
      (addPart cfg fs u name world meshName none parent).2 ∧
    (∃ t n wu tl, (addPartTexture cfg fs u name world meshName textureName parent).1 =
      (addPart cfg fs u name world meshName none parent).1.withTextures t n wu tl) ∧
    (addPartTexture cfg fs u name world meshName textureName parent).1.m_worlds =
      (addPart cfg fs u name world meshName none parent).1.m_worlds ∧
    (addPartTexture cfg fs u name world meshName textureName parent).1.m_materials =
      (addPart cfg fs u name world meshName none parent).1.m_materials ∧
    (addPartTexture cfg fs u name world meshName textureName parent).1.m_lamps =
      (addPart cfg fs u name world meshName none parent).1.m_lamps ∧
    (addPartTexture cfg fs u name world meshName textureName parent).1.m_products =
      (addPart cfg fs u name world meshName none parent).1.m_products ∧
    (addPartTexture cfg fs u name world meshName textureName parent).1.m_figures =
      (addPart cfg fs u name world meshName none parent).1.m_figures ∧
    (addPartTexture cfg fs u name world meshName textureName parent).1.m_labels =
      (addPart cfg fs u name world meshName none parent).1.m_labels ∧
    (addPartTexture cfg fs u name world meshName textureName parent).1.worlds =
      (addPart cfg fs u name world meshName none parent).1.worlds ∧
    (addPartTexture cfg fs u name world meshName textureName parent).1.products =
      (addPart cfg fs u name world meshName none parent).1.products ∧
    (addPartTexture cfg fs u name world meshName textureName parent).1.meshes =
      (addPart cfg fs u name world meshName none parent).1.meshes := by
  have hne : textureName.isEmpty = false := by
    cases textureName with
    | nil => exact absurd rfl htex
    | cons a l => rfl
  obtain ⟨t, n, wu, tl, hst⟩ := addMaterialTexture_none cfg fs u _ hfail
  have hEq : addPartTexture cfg fs u name world meshName textureName parent =
      ((addPart cfg fs u name world meshName none parent).1.withTextures t n wu tl,
        (addPart cfg fs u name world meshName none parent).2) := by
    unfold addPartTexture
    simp only [hne, Bool.not_false, if_true]
    rw [hfail, hst, addPart_withTextures]
  rw [hEq]
  exact ⟨rfl, ⟨t, n, wu, tl, rfl⟩, rfl, rfl, rfl, rfl, rfl, rfl, rfl, rfl, rfl⟩

/-- Witness of C30: with images that cannot be read the material for texture
"t" is not made, and the part is created in world 0 without a material. -/
theorem addPart_texture_failure_not_propagated_witness :
    (addMaterialTexture exampleConfig noImages threeWorldScene
      (threeWorldScene.dirTexturesDPref ++ ['t'])).2 = none ∧
    (addPartTexture exampleConfig noImages threeWorldScene "p" (some 0) ['m'] ['t'] none).2 =
      (addPart exampleConfig noImages threeWorldScene "p" (some 0) ['m'] none none).2 ∧
    (addPartTexture exampleConfig noImages threeWorldScene "p" (some 0) ['m'] ['t'] none).2 =
      some 0 ∧
    ((addPartTexture exampleConfig noImages threeWorldScene "p" (some 0) ['m'] ['t']
      none).1.products 0).material = none :=
  ⟨by decide,
   (addPart_texture_failure_not_propagated exampleConfig noImages threeWorldScene "p" (some 0)
     ['m'] ['t'] none (by decide) (by decide)).1,
   by decide, by decide⟩

end Universe

/-! ## The claims on the pipeline -/

namespace Pipeline

theorem mul_mulVec (P MV : GLmatrix) (v : QVector4D) :
    (P.mul MV).mulVec v = P.mulVec (MV.mulVec v) := by
  simp only [GLmatrix.mul, GLmatrix.mulVec, QVector4D.mk.injEq]
  refine ⟨?_, ?_, ?_, ?_⟩ <;> ring

/-- The result of `projectPoint` in terms of the clip coordinates. -/
theorem projectPoint_eq (p : VasnecovPipeline) (MV : GLmatrix) (point : QVector3D) :
    projectPoint p MV point =
      if |(clip p.m_P MV point).w| ≠ 1 then
        ⟨((clip p.m_P MV point).x / (clip p.m_P MV point).w + 1) / 2 * p.m_viewWidth,
         ((clip p.m_P MV point).y / (clip p.m_P MV point).w + 1) / 2 * p.m_viewHeight,
         (clip p.m_P MV point).z / (clip p.m_P MV point).w, 1⟩
      else
        ⟨((clip p.m_P MV point).x + 1) / 2 * p.m_viewWidth,
         ((clip p.m_P MV point).y + 1) / 2 * p.m_viewHeight,
         (clip p.m_P MV point).z, (clip p.m_P MV point).w⟩ := by
  unfold projectPoint clip
  simp only [mul_mulVec]
  split
  · simp only [QVector4D.mk.injEq, and_true]
    refine ⟨?_, ?_, ?_⟩ <;> ring
  · simp only [QVector4D.mk.injEq, and_true, true_and]
    refine ⟨?_, ?_⟩ <;> ring

/-- C22. `setColor(c)` issues no call of OpenGL and leaves the pipeline as it
was when `c` is the stored colour, and otherwise stores `c` and issues exactly
one `glColor4f`, with the channels of `c`; `setAmbientColor(c)` does the same
with the ambient colour and one `glLightModelfv`. So of two consecutive calls
with the same colour the second issues nothing, and both together issue at
most one call. -/
theorem setColor_deduplicates (p : VasnecovPipeline) (c : QColor) :
    (c = p.m_color → setColor p c = (p, [])) ∧
    (c ≠ p.m_color →
      setColor p c = ({ p with m_color := c }, [GLCall.glColor4f c])) ∧
    (c = p.m_ambientColor → setAmbientColor p c = (p, [])) ∧
    (c ≠ p.m_ambientColor →
      setAmbientColor p c = ({ p with m_ambientColor := c }, [GLCall.glLightModelfv c])) ∧
    (setColor (setColor p c).1 c).2 = [] ∧
    ((setColor p c).2 ++ (setColor (setColor p c).1 c).2).length ≤ 1 ∧
    (setAmbientColor (setAmbientColor p c).1 c).2 = [] ∧
    ((setAmbientColor p c).2 ++ (setAmbientColor (setAmbientColor p c).1 c).2).length ≤ 1 := by
  have hs : ∀ q : VasnecovPipeline, c = q.m_color → setColor q c = (q, []) := by
    intro q h
    unfold setColor
    rw [if_neg (fun hne => hne h)]
  have hd : ∀ q : VasnecovPipeline, c ≠ q.m_color →
      setColor q c = ({ q with m_color := c }, [GLCall.glColor4f c]) := by
    intro q h
    unfold setColor
    rw [if_pos h]
  have has : ∀ q : VasnecovPipeline, c = q.m_ambientColor → setAmbientColor q c = (q, []) := by
    intro q h
    unfold setAmbientColor
    rw [if_neg (fun hne => hne h)]
  have had : ∀ q : VasnecovPipeline, c ≠ q.m_ambientColor →
      setAmbientColor q c = ({ q with m_ambientColor := c }, [GLCall.glLightModelfv c]) := by
    intro q h
    unfold setAmbientColor
    rw [if_pos h]
  have h2 : (setColor (setColor p c).1 c).2 = [] := by
    by_cases h : c = p.m_color
    · rw [hs p h, hs p h]
    · rw [hd p h, hs _ rfl]
  have h3 : (setAmbientColor (setAmbientColor p c).1 c).2 = [] := by
    by_cases h : c = p.m_ambientColor
    · rw [has p h, has p h]
    · rw [had p h, has _ rfl]
  refine ⟨hs p, hd p, has p, had p, h2, ?_, h3, ?_⟩
  · rw [h2, List.append_nil]
    by_cases h : c = p.m_color
    · rw [hs p h]; simp
    · rw [hd p h]; simp
  · rw [h3, List.append_nil]
    by_cases h : c = p.m_ambientColor
    · rw [has p h]; simp
    · rw [had p h]; simp

/-- C25. The failing input has clip `w` equal to -1: with the projection
`examplePerspective` (clip `w` is minus the eye `z`), the identity as
model-view matrix and the point (1, 0, 1), the clip coordinates are
(1, 0, 1, -1). The normalisation gives x = (1 / -1 + 1) / 2 * 800 = 0 and
w = 1, but `projectPoint` skips the division and returns x = 800 and w = -1.
For every clip `w` other than 0 and -1 the result is the normalised one, and
the returned depth is within [-1, 1] whenever the clip `z` is within the
clip `w` in absolute value. -/
theorem projectPoint_skips_negative_unit_w (p : VasnecovPipeline) (MV : GLmatrix)
    (point : QVector3D) :
    clip examplePipeline.m_P identity ⟨1, 0, 1⟩ = ⟨1, 0, 1, -1⟩ ∧
    projectPoint examplePipeline identity ⟨1, 0, 1⟩ = ⟨800, 300, 1, -1⟩ ∧
    ((1 : ℚ) / (-1) + 1) / 2 * 800 = 0 ∧
    ((clip p.m_P MV point).w ≠ 0 → (clip p.m_P MV point).w ≠ -1 →
      projectPoint p MV point =
        ⟨((clip p.m_P MV point).x / (clip p.m_P MV point).w + 1) / 2 * p.m_viewWidth,
         ((clip p.m_P MV point).y / (clip p.m_P MV point).w + 1) / 2 * p.m_viewHeight,
         (clip p.m_P MV point).z / (clip p.m_P MV point).w, 1⟩) ∧
    ((clip p.m_P MV point).w ≠ 0 → |(clip p.m_P MV point).z| ≤ |(clip p.m_P MV point).w| →
      |(projectPoint p MV point).z| ≤ 1) := by
  refine ⟨?_, ?_, by norm_num, ?_, ?_⟩
  · simp [clip, GLmatrix.mulVec, examplePipeline, examplePerspective, identity]
  · rw [projectPoint_eq]
    simp [clip, GLmatrix.mulVec, examplePipeline, examplePerspective, identity]
    norm_num
  · intro h0 h1
    rw [projectPoint_eq]
    split
    · rfl
    · rename_i habs
      have habs1 : |(clip p.m_P MV point).w| = 1 := by
        by_contra hne
        exact habs hne
      rcases abs_eq (by norm_num : (0 : ℚ) ≤ 1) |>.1 habs1 with hw | hw
      · simp [hw]
      · exact absurd hw h1
  · intro h0 hz
    rw [projectPoint_eq]
    split
    · simp only
      rw [abs_div]
      exact div_le_one_of_le₀ hz (abs_nonneg _)
    · rename_i habs
      have habs1 : |(clip p.m_P MV point).w| = 1 := by
        by_contra hne
        exact habs hne
      simp only
      rw [habs1] at hz
      exact hz

/-- C28. The failing input is `disableAllConcreteLamps(true)` with
`cfg_lampsCountMax` = 8: the loop starts at `GL_LIGHT0` = 0x4000 and runs
while `i < 8`, so no `glDisable` is issued; in general the strong variant
issues `glDisable(i)` for `GL_LIGHT0 <= i < cfg_lampsCountMax` only, which is
nothing up to `cfg_lampsCountMax` = 0x4000. The variant with `strong` false
issues `glDisable` once per entry of `m_activatedLamps`, in order, and leaves
the list empty. -/
theorem disableAllConcreteLamps_strong_disables_nothing (cfg : Config)
    (p : VasnecovPipeline) :
    Universe.exampleConfig.cfg_lampsCountMax = 8 ∧
    (disableAllConcreteLamps Universe.exampleConfig examplePipeline true).2 = [] ∧
    (cfg.cfg_lampsCountMax ≤ GL_LIGHT0 → (disableAllConcreteLamps cfg p true).2 = []) ∧
    (∀ c, c ∈ (disableAllConcreteLamps cfg p true).2 ↔
      ∃ i, GL_LIGHT0 ≤ i ∧ i < cfg.cfg_lampsCountMax ∧ c = GLCall.glDisable i) ∧
    (disableAllConcreteLamps cfg p false).2 = p.m_activatedLamps.map GLCall.glDisable ∧
    (disableAllConcreteLamps cfg p false).2.length = p.m_activatedLamps.length ∧
    (disableAllConcreteLamps cfg p false).1.m_activatedLamps = [] := by
  refine ⟨by decide, by decide, ?_, ?_, rfl, by simp [disableAllConcreteLamps], rfl⟩
  · intro h
    simp [disableAllConcreteLamps, Nat.sub_eq_zero_of_le h]
  · intro c
    simp only [disableAllConcreteLamps, Bool.not_true, Bool.false_eq_true, if_false,
      List.mem_map, List.mem_range'_1]
    constructor
    · rintro ⟨i, ⟨h1, h2⟩, rfl⟩
      exact ⟨i, h1, by omega, rfl⟩
    · rintro ⟨i, h1, h2, rfl⟩
      exact ⟨i, ⟨h1, by omega⟩, rfl⟩

end Pipeline

end Vasnecov
